import Mathlib

/-!
# DL_OpenCL: CPU reference primitives, comparison helpers, kernel-source loader,
context construction, kernel compilation, GPU dispatch protocol, benchmark
operations and CSV report

A shallow embedding of the host-side C++ code of the OpenCL neural-network
primitives (`src/matrix_ops.cpp`, `fix_activation_functions.cpp`,
`src/opencl_utils.cpp`, `src/benchmark.cpp`) together with theorems about it.

Conventions of the embedding

* `std::vector<float>` is a `List α`.  The element type `α` is kept abstract:
  each definition only asks for the operations the C++ code uses on `float`
  (`0`, `+`, `*`, `-`, `|.|`, `<`), and arithmetic on numbers is exact; the
  comparison helpers also run on values that may be NaN (`FloatValue`).
* An `int` is an `Int`, and the products and sums the code computes in
  `int` are reduced to 32 bits (`wrapInt`); a theorem that needs them exact
  says that they are within the range of `int`.
* Reading or writing a vector outside its bounds is undefined behaviour in
  C++; where an index is computed from caller-supplied dimensions the
  embedding returns `none` on such an access.
* What the program does not determine (the status codes of the device, the
  replies of the OpenCL runtime, the times read from the clock) is a
  parameter of the embedding, and the theorems hold for every value of it.
-/

namespace DLOpenCL

universe u

/-! ## 32-bit `int` arithmetic -/

/-- The value of an `int` expression whose mathematical value is `x`: the
result is reduced to 32 bits in two's complement.  (C++ leaves signed
overflow undefined; this is the value the usual compilers produce, and it is
`x` itself whenever `x` fits in an `int`.) -/
def wrapInt (x : Int) : Int :=
  (x + 2 ^ 31) % 2 ^ 32 - 2 ^ 31

/-! ## `MatrixOps::multiplyCPU` (src/matrix_ops.cpp, lines 61-78) -/

section MultiplyCPU

variable {α : Type u}

/-- The read `v[idx]` of a `std::vector` with an `int` index.  The index is
converted to `size_t`, so a negative one lies outside every vector; an index
outside the vector is undefined behaviour: `none`. -/
def readAt (v : List α) (idx : Int) : Option α :=
  if idx < 0 then none else v[idx.toNat]?

/-- The store `C[idx] = v` into a `std::vector` with an `int` index.  An
index outside the vector (a negative one included) is undefined behaviour:
`none`. -/
def writeAt (C : List α) (idx : Int) (v : α) : Option (List α) :=
  if 0 ≤ idx ∧ idx.toNat < C.length then some (C.set idx.toNat v) else none

/-- The innermost loop of `multiplyCPU`:
`float sum = 0.0f; for (k = 0; k < colsA; k++) sum += A[i*colsA+k] * B[k*colsB+j];`
The indices are `int` expressions, computed in 32 bits.  A read outside `A`
or `B` gives `none`. -/
def dotLoop [Zero α] [Add α] [Mul α] (A B : List α) (colsA colsB : Int) (i j : Nat) :
    Option α :=
  (List.range colsA.toNat).foldlM
    (fun sum (k : Nat) => do
      let a ← readAt A (wrapInt (wrapInt ((i : Int) * colsA) + (k : Int)))
      let b ← readAt B (wrapInt (wrapInt ((k : Int) * colsB) + (j : Int)))
      pure (sum + a * b))
    0

/-- The middle loop of `multiplyCPU` for a fixed row `i`:
`for (j = 0; j < colsB; j++) { sum = ...; C[i*colsC+j] = sum; }` with
`colsC = colsB`. -/
def rowLoop [Zero α] [Add α] [Mul α] (A B : List α) (colsA colsB : Int) (i : Nat)
    (C : List α) : Option (List α) :=
  (List.range colsB.toNat).foldlM
    (fun C (j : Nat) => do
      let sum ← dotLoop A B colsA colsB i j
      writeAt C (wrapInt (wrapInt ((i : Int) * colsB) + (j : Int))) sum)
    C

/-- The function `MatrixOps::multiplyCPU`.  `C` is created with
`rowsC * colsC` zeros, an `int` product computed in 32 bits (a negative
value makes the `std::vector` constructor throw: `none`), then the three
nested loops run; a loop whose bound is not positive does not run. -/
def multiplyCPU [Zero α] [Add α] [Mul α] (A B : List α) (rowsA colsA colsB : Int) :
    Option (List α) :=
  if wrapInt (rowsA * colsB) < 0 then none
  else
    (List.range rowsA.toNat).foldlM
      (fun C i => rowLoop A B colsA colsB i C)
      (List.replicate (wrapInt (rowsA * colsB)).toNat 0)

/-- The `n x n` identity matrix in row-major order: the cell `k * n + j` is
`1` when `k = j` and `0` otherwise. -/
def identityMatrix [Zero α] [One α] (n : Nat) : List α :=
  (List.range (n * n)).map fun idx => if idx / n = idx % n then 1 else 0

/-- The specified value of the output cell `(i, j)`: the products
`A[i*colsA+k] * B[k*colsB+j]` added to `0` one after the other for
`k = 0, 1, ..., colsA-1`. -/
def dotSum [Zero α] [Add α] [Mul α] (A B : List α) (colsA colsB i j : Nat) : α :=
  (List.range colsA).foldl
    (fun sum k => sum + A.getD (i * colsA + k) 0 * B.getD (k * colsB + j) 0)
    0

end MultiplyCPU

/-! ## `compareMatrices`, `compareVectors` and the CPU activation functions -/

section Elementwise

variable {α : Type u}

/-- The two `float` operations of the comparison loop: `std::abs(a - b)` and
the test `x > y`.  The element type decides what they are: for ordered
numbers the absolute value of the difference and the order, for a type with
NaN values what IEEE arithmetic gives. -/
class FloatCompare (α : Type u) where
  /-- The value `std::abs(a - b)`. -/
  absDiff : α → α → α
  /-- The test `x > y`. -/
  gt : α → α → Bool

/-- Ordered numbers: `std::abs(a - b)` is `|a - b|` and `x > y` is the order. -/
instance [LinearOrderedAddCommGroup α] : FloatCompare α where
  absDiff a b := |a - b|
  gt x y := decide (y < x)

/-- A `float` value that is either a number or NaN. -/
inductive FloatValue (α : Type u) where
  | number (x : α)
  | nan
  deriving DecidableEq, Repr

/-- The value `std::abs(a - b)` on numbers and NaN: NaN as soon as an
operand is NaN. -/
def FloatValue.absDiff [LinearOrderedAddCommGroup α] : FloatValue α → FloatValue α → FloatValue α
  | .number a, .number b => .number |a - b|
  | _, _ => .nan

/-- The test `x > y` on numbers and NaN: false as soon as an operand is NaN. -/
def FloatValue.gt [LinearOrderedAddCommGroup α] : FloatValue α → FloatValue α → Bool
  | .number x, .number y => decide (y < x)
  | _, _ => false

/-- The test `x <= y` on numbers and NaN: false as soon as an operand is NaN. -/
def FloatValue.le [LinearOrderedAddCommGroup α] : FloatValue α → FloatValue α → Bool
  | .number x, .number y => decide (x ≤ y)
  | _, _ => false

instance [Zero α] : Zero (FloatValue α) where
  zero := .number 0

instance [LinearOrderedAddCommGroup α] : FloatCompare (FloatValue α) where
  absDiff := FloatValue.absDiff
  gt := FloatValue.gt

/-- The loop shared by `MatrixOps::compareMatrices` (src/matrix_ops.cpp,
lines 175-186) and `ActivationFunctions::compareVectors`
(fix_activation_functions.cpp, lines 250-261), whose bodies are identical:
`if (A.size() != B.size()) return false;` then, for `i = 0 .. A.size()-1`,
`if (std::abs(A[i] - B[i]) > tolerance) return false;` and finally
`return true`.  Both reads are inside their vectors because the sizes are
equal when the loop runs. -/
def compareLoop [Zero α] [FloatCompare α] (A B : List α) (tolerance : α) : Bool :=
  if A.length ≠ B.length then false
  else (List.range A.length).all fun i =>
    !FloatCompare.gt (FloatCompare.absDiff (A.getD i 0) (B.getD i 0)) tolerance

/-- The function `MatrixOps::compareMatrices`. -/
def compareMatrices [Zero α] [FloatCompare α] (A B : List α) (tolerance : α) : Bool :=
  compareLoop A B tolerance

/-- The function `ActivationFunctions::compareVectors`. -/
def compareVectors [Zero α] [FloatCompare α] (A B : List α) (tolerance : α) : Bool :=
  compareLoop A B tolerance

/-- The C++ `std::max(a, b)`, which is `(a < b) ? b : a`. -/
def stdMax [LT α] [DecidableRel (fun a b : α => a < b)] (a b : α) : α :=
  if a < b then b else a

/-- The loop shared by `reluCPU`, `sigmoidCPU` and `tanhCPU`:
`std::vector<float> output(input.size());` (value-initialised, all zero) and
then `output[i] = f(input[i])` for `i = 0 .. input.size()-1`. -/
def elementwise [Zero α] (f : α → α) (input : List α) : List α :=
  (List.range input.length).foldl
    (fun output i => output.set i (f (input.getD i 0)))
    (List.replicate input.length 0)

/-- The function `ActivationFunctions::reluCPU`
(fix_activation_functions.cpp, lines 58-64): `output[i] = std::max(0.0f, input[i])`. -/
def reluCPU [Zero α] [LT α] [DecidableRel (fun a b : α => a < b)] (input : List α) : List α :=
  elementwise (fun x => stdMax 0 x) input

/-- The function `ActivationFunctions::sigmoidCPU`
(fix_activation_functions.cpp, lines 97-103):
`output[i] = 1.0f / (1.0f + std::exp(-input[i]))`.  The library function
`std::exp` is the parameter `exp`. -/
def sigmoidCPU [Zero α] [One α] [Add α] [Neg α] [Div α] (exp : α → α) (input : List α) :
    List α :=
  elementwise (fun x => 1 / (1 + exp (-x))) input

/-- The function `ActivationFunctions::tanhCPU`
(fix_activation_functions.cpp, lines 136-142): `output[i] = std::tanh(input[i])`.
The library function `std::tanh` is the parameter `tanh`. -/
def tanhCPU [Zero α] (tanh : α → α) (input : List α) : List α :=
  elementwise tanh input

end Elementwise

/-! ## Exceptions, `checkOpenCLError` and `readKernelSource`
(src/opencl_utils.cpp, lines 164-191) -/

/-- The C++ exceptions the modelled code throws. -/
inductive Exception where
  /-- A `std::runtime_error` with its `what()` text. -/
  | runtime_error (what : String)
  /-- The `std::length_error` of a `std::vector` constructor given a negative size. -/
  | length_error
  deriving DecidableEq, Repr

/-- The status constant `CL_SUCCESS` of the OpenCL headers. -/
def CL_SUCCESS : Int := 0

/-- The function `checkOpenCLError`: throws a `std::runtime_error` with the
text `"OpenCL error in " + operation + ": " + std::to_string(error)` when
`error != CL_SUCCESS`, and returns normally otherwise. -/
def checkOpenCLError (error : Int) (operation : String) : Except Exception Unit :=
  if error ≠ CL_SUCCESS then
    .error (.runtime_error ("OpenCL error in " ++ operation ++ ": " ++ toString error))
  else .ok ()

/-- The constant `std::string::npos`, the largest `size_t`. -/
def npos : Nat := 2 ^ 64 - 1

/-- Position of the last occurrence of `c` in `s`, if there is one. -/
def lastIndexOf (c : Char) : List Char → Option Nat
  | [] => none
  | x :: xs =>
    match lastIndexOf c xs with
    | some i => some (i + 1)
    | none => if x = c then some 0 else none

/-- The library function `std::string::find_last_of(char)`: the position of
the last occurrence, `npos` when there is none. -/
def find_last_of (s : String) (c : Char) : Nat :=
  (lastIndexOf c s.data).getD npos

/-- The library function `std::string::substr(pos)` for `pos <= size()`: the
characters from position `pos` to the end. -/
def substr (s : String) (pos : Nat) : String :=
  ⟨s.data.drop pos⟩

/-- The expression `filename.substr(filename.find_last_of('/') + 1)` of
`readKernelSource`; the addition is on `size_t`, so `npos + 1` is `0`. -/
def kernelBaseName (filename : String) : String :=
  substr filename ((find_last_of filename '/' + 1) % 2 ^ 64)

/-- The local `searchPaths` of `readKernelSource`. -/
def searchPaths (filename : String) : List String :=
  [ filename,
    "../" ++ filename,
    "../../" ++ filename,
    "kernels/" ++ kernelBaseName filename,
    "../kernels/" ++ kernelBaseName filename ]

/-- The state of the file system as `readKernelSource` sees it: `fs path` is
the content of the file when `std::ifstream file(path)` opens, and `none`
when it does not. -/
abbrev FileSystem := String → Option String

/-- The function `readKernelSource`: the content of the first path of
`searchPaths` that opens, and a `std::runtime_error` when none opens. -/
def readKernelSource (fs : FileSystem) (filename : String) : Except Exception String :=
  match (searchPaths filename).findSome? fs with
  | some content => .ok content
  | none =>
    .error (.runtime_error ("Could not open kernel file: " ++ filename ++ " (tried multiple paths)"))

/-- The message `msg` names the path `path`: the path occurs in it as a
contiguous run of characters. -/
def Names (msg path : String) : Prop :=
  path.data <:+: msg.data

/-! ## The device API and the GPU dispatch operations

The OpenCL runtime is outside the repository.  It is modelled as a `Device`
that answers every API call with a status code; the host code is a
computation that issues calls, records them in a trace and checks the
status codes exactly where the C++ code calls `checkOpenCLError`. -/

section Dispatch

/-- The two `cl_mem_flags` values the code passes to `clCreateBuffer`. -/
inductive MemFlags where
  | CL_MEM_READ_ONLY
  | CL_MEM_WRITE_ONLY
  deriving DecidableEq, Repr

/-- The value bound by `clSetKernelArg`: a `cl_mem` handle (`sizeof(cl_mem)`
bytes) or an `int` (`sizeof(int)` bytes, 32 bits). -/
inductive ArgValue where
  | mem (buffer : Nat)
  | int32 (value : Int)
  deriving DecidableEq, Repr

/-- The device API calls made by the dispatch operations, with the arguments
that vary between calls.  Sizes and offsets are in bytes. -/
inductive ApiCall (α : Type) where
  /-- The call `clCreateBuffer(context, flags, size, nullptr, &error)`. -/
  | createBuffer (flags : MemFlags) (size : Nat)
  /-- The call `clEnqueueWriteBuffer(queue, buffer, CL_TRUE, offset, size, data, ...)`:
  a blocking write. -/
  | enqueueWriteBuffer (buffer : Nat) (offset size : Nat) (data : List α)
  /-- The call `clEnqueueReadBuffer(queue, buffer, CL_TRUE, offset, size, data, ...)`:
  a blocking read. -/
  | enqueueReadBuffer (buffer : Nat) (offset size : Nat)
  /-- The call `clSetKernelArg(kernel, argIndex, sizeof(value), &value)`; the
  kernel is named by its entry point. -/
  | setKernelArg (kernel : String) (argIndex : Nat) (value : ArgValue)
  /-- The call `clEnqueueNDRangeKernel(queue, kernel, workDim, nullptr,
  globalWorkSize, localWorkSize, 0, nullptr, nullptr)`; `localWorkSize` is
  `none` for a null pointer. -/
  | enqueueNDRangeKernel (kernel : String) (workDim : Nat) (globalWorkSize : List Nat)
      (localWorkSize : Option (List Nat))
  /-- The call `clReleaseMemObject(buffer)` of `~OpenCLBuffer`. -/
  | releaseMemObject (buffer : Nat)
  deriving DecidableEq, Repr

/-- Whether the call is a `clReleaseMemObject`. -/
def ApiCall.isRelease {α : Type} : ApiCall α → Bool
  | .releaseMemObject _ => true
  | _ => false

/-- One call as the host issued it: the call, and the operation name handed
to `checkOpenCLError` together with the call's status code (`none` when the
code ignores the status, as `~OpenCLBuffer` does). -/
structure Entry (α : Type) where
  call : ApiCall α
  check : Option String
  deriving DecidableEq, Repr

/-- The device: the status code it returns for a call, which may depend on
all the calls made before, and the floats a successful blocking read copies
to the host (by buffer and element position). -/
structure Device (α : Type) where
  status : List (Entry α) → ApiCall α → Int
  readBack : List (Entry α) → Nat → Nat → α

/-- A host computation: given the device and the calls made so far it ends
with a value or an exception, and with the calls made up to that point. -/
def Gpu (α : Type) (β : Type) : Type :=
  Device α → List (Entry α) → Except Exception β × List (Entry α)

variable {α : Type} {β γ : Type}

/-- Return a value without calling the device. -/
def Gpu.pure (x : β) : Gpu α β :=
  fun _ t => (.ok x, t)

/-- Sequencing: an exception of the first computation ends the whole. -/
def Gpu.bind (m : Gpu α β) (f : β → Gpu α γ) : Gpu α γ :=
  fun dev t =>
    match m dev t with
    | (.ok x, t1) => f x dev t1
    | (.error e, t1) => (.error e, t1)

instance : Monad (Gpu α) where
  pure := Gpu.pure
  bind := Gpu.bind

/-- A device call followed at once by `checkOpenCLError(error, operation)`. -/
def checkedCall (c : ApiCall α) (operation : String) : Gpu α Unit :=
  fun dev t => (checkOpenCLError (dev.status t c) operation, t ++ [⟨c, some operation⟩])

/-- The construction `std::vector<float> v(n)` from an `int` expression: a
negative `n` converts to a huge `size_t` and the constructor throws
`std::length_error`; otherwise the vector has `n` elements. -/
def newVector (n : Int) : Gpu α Nat :=
  fun _ t => if n < 0 then (.error .length_error, t) else (.ok n.toNat, t)

/-- The conversion of an `int` to `size_t` (`static_cast<size_t>(x)` and the
implicit conversion in `size_t globalWorkSize = size`): a negative value
wraps around modulo `2^64`. -/
def toSizeT (x : Int) : Nat :=
  if 0 ≤ x then x.toNat else (x + 2 ^ 64).toNat

/-- The conversion `static_cast<int>(n)` of a `size_t` to a 32-bit `int`
(two's complement wrap-around). -/
def toInt32 (n : Nat) : Int :=
  ((n : Int) + 2 ^ 31) % 2 ^ 32 - 2 ^ 31

/-- The subtraction `size_ - offset` on `size_t`, wrapping around when
`offset > size_`. -/
def sizeTSub (a b : Nat) : Nat :=
  if b ≤ a then a - b else 2 ^ 64 - (b - a)

/-- The number of bytes of a `float`, `sizeof(float)`. -/
def sizeofFloat : Nat := 4

/-- The class `OpenCLBuffer` (src/opencl_utils.cpp, lines 139-162): the
handle `buffer_` and the byte size `size_` fixed by the constructor. -/
structure OpenCLBuffer where
  buffer : Nat
  size : Nat
  deriving DecidableEq, Repr

/-- The accessor `OpenCLBuffer::getSize`. -/
def OpenCLBuffer.getSize (b : OpenCLBuffer) : Nat := b.size

/-- The accessor `OpenCLBuffer::getBuffer`. -/
def OpenCLBuffer.getBuffer (b : OpenCLBuffer) : Nat := b.buffer

/-- The constructor `OpenCLBuffer::OpenCLBuffer`: `clCreateBuffer`, checked
as "Creating buffer".  The handle of the new buffer is the number of calls
made before it, so distinct buffers have distinct handles. -/
def OpenCLBuffer.create (size : Nat) (flags : MemFlags) : Gpu α OpenCLBuffer :=
  fun dev t =>
    match checkedCall (.createBuffer flags size) "Creating buffer" dev t with
    | (.ok _, t1) => (.ok ⟨t.length, size⟩, t1)
    | (.error e, t1) => (.error e, t1)

/-- The method `OpenCLBuffer::writeData(data, offset)`: a blocking write of
`size_ - offset` bytes at `offset`, checked as "Writing buffer data". -/
def OpenCLBuffer.writeData (b : OpenCLBuffer) (data : List α) (offset : Nat) : Gpu α Unit :=
  checkedCall (.enqueueWriteBuffer b.buffer offset (sizeTSub b.size offset) data)
    "Writing buffer data"

/-- The method `OpenCLBuffer::readData(data, offset)`: a blocking read of
`size_ - offset` bytes at `offset`, checked as "Reading buffer data".  On
success the host vector of `count` floats holds what the device delivered. -/
def OpenCLBuffer.readData (b : OpenCLBuffer) (count : Nat) (offset : Nat) : Gpu α (List α) :=
  fun dev t =>
    match checkedCall (.enqueueReadBuffer b.buffer offset (sizeTSub b.size offset))
        "Reading buffer data" dev t with
    | (.ok _, t1) => (.ok ((List.range count).map (dev.readBack t1 b.buffer)), t1)
    | (.error e, t1) => (.error e, t1)

/-- The destructor `OpenCLBuffer::~OpenCLBuffer`: `clReleaseMemObject`, whose
status is ignored.  (The handle of a constructed buffer is never null.) -/
def OpenCLBuffer.destroy (b : OpenCLBuffer) (t : List (Entry α)) : List (Entry α) :=
  t ++ [⟨.releaseMemObject b.buffer, none⟩]

/-- A local variable `OpenCLBuffer b(context_, size, flags);` and the rest of
its scope `body`.  If the constructor throws there is no object and no
destructor call; otherwise the destructor runs when the scope is left, by
`return` or by an exception alike. -/
def OpenCLBuffer.scoped (size : Nat) (flags : MemFlags) (body : OpenCLBuffer → Gpu α β) :
    Gpu α β :=
  fun dev t =>
    match OpenCLBuffer.create size flags dev t with
    | (.error e, t1) => (.error e, t1)
    | (.ok b, t1) =>
      let r := body b dev t1
      (r.1, b.destroy r.2)

/-- The function `MatrixOps::setMatrixMultArgs` (src/matrix_ops.cpp, lines 188-202). -/
def setMatrixMultArgs (kernel : String) (A B C : Nat) (rowsA colsA colsB : Int) : Gpu α Unit := do
  checkedCall (.setKernelArg kernel 0 (.mem A)) "Setting kernel argument 0"
  checkedCall (.setKernelArg kernel 1 (.mem B)) "Setting kernel argument 1"
  checkedCall (.setKernelArg kernel 2 (.mem C)) "Setting kernel argument 2"
  checkedCall (.setKernelArg kernel 3 (.int32 rowsA)) "Setting kernel argument 3"
  checkedCall (.setKernelArg kernel 4 (.int32 colsA)) "Setting kernel argument 4"
  checkedCall (.setKernelArg kernel 5 (.int32 colsB)) "Setting kernel argument 5"

/-- The function `MatrixOps::multiplyGPU` (src/matrix_ops.cpp, lines 25-59);
`matrixMultKernel_` is the kernel built for the entry point "matrix_multiply".
The size of `C` is the `int` product `rowsC * colsC`, computed in 32 bits. -/
def multiplyGPU (A B : List α) (rowsA colsA colsB : Int) : Gpu α (List α) := do
  let sizeC ← newVector (wrapInt (rowsA * colsB))
  OpenCLBuffer.scoped (A.length * sizeofFloat) .CL_MEM_READ_ONLY fun bufferA =>
  OpenCLBuffer.scoped (B.length * sizeofFloat) .CL_MEM_READ_ONLY fun bufferB =>
  OpenCLBuffer.scoped (sizeC * sizeofFloat) .CL_MEM_WRITE_ONLY fun bufferC => do
    bufferA.writeData A 0
    bufferB.writeData B 0
    setMatrixMultArgs "matrix_multiply" bufferA.getBuffer bufferB.getBuffer bufferC.getBuffer
      rowsA colsA colsB
    checkedCall
      (.enqueueNDRangeKernel "matrix_multiply" 2 [toSizeT colsB, toSizeT rowsA] none)
      "Enqueuing matrix multiplication kernel"
    bufferC.readData sizeC 0

/-- The function `MatrixOps::transposeGPU` (src/matrix_ops.cpp, lines 116-147);
`matrixTransposeKernel_` is the kernel built for the entry point
"matrix_transpose".  The size of `B` is the `int` product `rows * cols`,
computed in 32 bits. -/
def transposeGPU (A : List α) (rows cols : Int) : Gpu α (List α) := do
  let sizeB ← newVector (wrapInt (rows * cols))
  OpenCLBuffer.scoped (A.length * sizeofFloat) .CL_MEM_READ_ONLY fun bufferA =>
  OpenCLBuffer.scoped (sizeB * sizeofFloat) .CL_MEM_WRITE_ONLY fun bufferB => do
    bufferA.writeData A 0
    checkedCall (.setKernelArg "matrix_transpose" 0 (.mem bufferA.getBuffer))
      "Setting kernel argument 0"
    checkedCall (.setKernelArg "matrix_transpose" 1 (.mem bufferB.getBuffer))
      "Setting kernel argument 1"
    checkedCall (.setKernelArg "matrix_transpose" 2 (.int32 rows)) "Setting kernel argument 2"
    checkedCall (.setKernelArg "matrix_transpose" 3 (.int32 cols)) "Setting kernel argument 3"
    checkedCall
      (.enqueueNDRangeKernel "matrix_transpose" 2 [toSizeT cols, toSizeT rows] none)
      "Enqueuing matrix transpose kernel"
    bufferB.readData sizeB 0

/-- The body shared by the six activation dispatch functions of
fix_activation_functions.cpp (`reluGPU`, lines 27-56, and its five copies),
which differ only in the kernel used and in the operation name given to the
check of the enqueue. -/
def activationGPU (kernel enqueueName : String) (input : List α) : Gpu α (List α) :=
  OpenCLBuffer.scoped (input.length * sizeofFloat) .CL_MEM_READ_ONLY fun bufferInput =>
  OpenCLBuffer.scoped (input.length * sizeofFloat) .CL_MEM_WRITE_ONLY fun bufferOutput => do
    bufferInput.writeData input 0
    checkedCall (.setKernelArg kernel 0 (.mem bufferInput.getBuffer)) "Setting kernel argument 0"
    checkedCall (.setKernelArg kernel 1 (.mem bufferOutput.getBuffer)) "Setting kernel argument 1"
    checkedCall (.setKernelArg kernel 2 (.int32 (toInt32 input.length)))
      "Setting kernel argument 2"
    checkedCall (.enqueueNDRangeKernel kernel 1 [input.length] (some [256])) enqueueName
    bufferOutput.readData input.length 0

/-- The function `ActivationFunctions::reluGPU` (lines 27-56). -/
def reluGPU (input : List α) : Gpu α (List α) :=
  activationGPU "relu" "Enqueuing ReLU kernel" input

/-- The function `ActivationFunctions::sigmoidGPU` (lines 66-95). -/
def sigmoidGPU (input : List α) : Gpu α (List α) :=
  activationGPU "sigmoid" "Enqueuing Sigmoid kernel" input

/-- The function `ActivationFunctions::tanhGPU` (lines 105-134). -/
def tanhGPU (input : List α) : Gpu α (List α) :=
  activationGPU "tanh" "Enqueuing Tanh kernel" input

/-- The function `ActivationFunctions::reluDerivativeGPU` (lines 144-173). -/
def reluDerivativeGPU (input : List α) : Gpu α (List α) :=
  activationGPU "relu_derivative" "Enqueuing ReLU derivative kernel" input

/-- The function `ActivationFunctions::sigmoidDerivativeGPU` (lines 175-204). -/
def sigmoidDerivativeGPU (input : List α) : Gpu α (List α) :=
  activationGPU "sigmoid_derivative" "Enqueuing Sigmoid derivative kernel" input

/-- The function `ActivationFunctions::tanhDerivativeGPU` (lines 206-235). -/
def tanhDerivativeGPU (input : List α) : Gpu α (List α) :=
  activationGPU "tanh_derivative" "Enqueuing Tanh derivative kernel" input

/-! ### Fail-fast discipline of a trace -/

/-- The call at position `n` of the trace `t` had its status checked and the
device returned a status other than `CL_SUCCESS` for it. -/
def FailsAt (dev : Device α) (t : List (Entry α)) (n : Nat) : Prop :=
  ∃ e op, t[n]? = some e ∧ e.check = some op ∧ dev.status (t.take n) e.call ≠ CL_SUCCESS

/-- The outcome `out` of an operation run from the empty trace stops at the
first failed check: there is a result exactly when no checked call failed;
and an exception is the `checkOpenCLError` exception of the first checked
call that returned a non-success status, built from the operation name of
that check, and every call after it is an unchecked `clReleaseMemObject`. -/
def FailFast (dev : Device α) (out : Except Exception β × List (Entry α)) : Prop :=
  ((∃ v, out.1 = .ok v) ↔ ∀ n, ¬ FailsAt dev out.2 n) ∧
  ∀ exc, out.1 = .error exc →
    ∃ n e op, out.2[n]? = some e ∧ e.check = some op ∧
      dev.status (out.2.take n) e.call ≠ CL_SUCCESS ∧
      exc = .runtime_error
        ("OpenCL error in " ++ op ++ ": " ++ toString (dev.status (out.2.take n) e.call)) ∧
      (∀ k, k < n → ¬ FailsAt dev out.2 k) ∧
      (∀ k e', n < k → out.2[k]? = some e' → e'.check = none ∧ e'.call.isRelease = true)

/-- The exception of an outcome, if it is one. -/
def errorOf : Except Exception β → Option Exception
  | .ok _ => none
  | .error e => some e

/-- The calls `s`, made after the calls `t0`, follow the fail-fast
discipline with final exception `o`: scanning `s` from its first call, every
unchecked call is a `clReleaseMemObject`, every checked call returned
`CL_SUCCESS` up to the first that did not, `o` is the exception
`checkOpenCLError` throws for that one, and only unchecked release calls
follow it. -/
def Conforms (dev : Device α) : List (Entry α) → List (Entry α) → Option Exception → Prop
  | _, [], o => o = none
  | t0, e :: s, o =>
    match e.check with
    | none => e.call.isRelease = true ∧ Conforms dev (t0 ++ [e]) s o
    | some op =>
      if dev.status t0 e.call = CL_SUCCESS then Conforms dev (t0 ++ [e]) s o
      else
        o = some (.runtime_error
          ("OpenCL error in " ++ op ++ ": " ++ toString (dev.status t0 e.call))) ∧
        ∀ e' ∈ s, e'.check = none ∧ e'.call.isRelease = true

/-- The computation `m` extends the trace and the calls it adds follow the
fail-fast discipline, whatever the device and the calls made before. -/
def Disciplined (m : Gpu α β) : Prop :=
  ∀ dev t0, ∃ s, (m dev t0).2 = t0 ++ s ∧ Conforms dev t0 s (errorOf (m dev t0).1)

/-- A device on which the second call made returns the status `-61`
(`CL_INVALID_BUFFER_SIZE`) and every other call returns `CL_SUCCESS`. -/
def secondCallFails : Device Int :=
  ⟨fun t _ => if t.length = 1 then -61 else 0, fun _ _ _ => 0⟩

end Dispatch

/-! ## The benchmark result list and its CSV report (src/benchmark.cpp) -/

section BenchmarkReport

/-- The struct `Benchmark::BenchmarkResult` (include/benchmark.hpp); the
type of the two `double` fields is the parameter `τ`. -/
structure BenchmarkResult (τ : Type) where
  operation : String
  implementation : String
  size : Int
  time_ms : τ
  speedup : τ
  deriving DecidableEq, Repr

variable {τ : Type}

/-- The function `Benchmark::addResult` (src/benchmark.cpp, lines 167-170):
`results_.push_back({operation, implementation, size, time_ms, speedup})`,
acting on the member `results_`.  The default `speedup = 1.0` of the
declaration is written out by the callers. -/
def addResult (results_ : List (BenchmarkResult τ)) (operation implementation : String)
    (size : Int) (time_ms speedup : τ) : List (BenchmarkResult τ) :=
  results_ ++ [⟨operation, implementation, size, time_ms, speedup⟩]

/-- What `Benchmark::saveResultsToFile` leaves behind: the content of the
file when it was opened, and the text sent to `std::cout` and `std::cerr`. -/
structure SaveOutcome where
  file : Option String
  cout : String
  cerr : String
  deriving DecidableEq, Repr

/-- The function `Benchmark::saveResultsToFile` (src/benchmark.cpp, lines
216-230).  `opens` says whether `std::ofstream file(filename)` opens;
`fmt` is the text `operator<<` produces for a `double`.  When the file does
not open a message goes to `std::cerr` and nothing is written; otherwise the
header and, for every result in the order of `results_`, the five fields
separated by commas and ended by a newline are written. -/
def saveResultsToFile (fmt : τ → String) (results_ : List (BenchmarkResult τ))
    (filename : String) (opens : Bool) : SaveOutcome :=
  if !opens then
    { file := none, cout := "",
      cerr := "Could not open file for writing: " ++ filename ++ "\n" }
  else
    { file := some (results_.foldl
        (fun file result =>
          file ++ result.operation ++ "," ++ result.implementation ++ "," ++
            toString result.size ++ "," ++ fmt result.time_ms ++ "," ++
            fmt result.speedup ++ "\n")
        "Operation,Implementation,Size,Time(ms),Speedup\n"),
      cout := "Results saved to: " ++ filename ++ "\n",
      cerr := "" }

/-- One line of the report for a result, without its newline: the five
fields separated by commas. -/
def reportLine (fmt : τ → String) (r : BenchmarkResult τ) : String :=
  String.intercalate ","
    [r.operation, r.implementation, toString r.size, fmt r.time_ms, fmt r.speedup]

/-- The lines of the report: the header and one line per result. -/
def reportLines (fmt : τ → String) (results : List (BenchmarkResult τ)) : List String :=
  "Operation,Implementation,Size,Time(ms),Speedup" :: results.map (reportLine fmt)

end BenchmarkReport

/-! ### The call sequence of a dispatch operation -/

section DispatchScripts

variable {α : Type} {β : Type}

/-- Run from the trace `t0`, on any device, the computation `m` makes the
calls of `script` in this order and nothing else, up to the end (and then
returns a value) or up to the first call whose check fails (and then throws). -/
def Straight (t0 : List (Entry α)) (m : Gpu α β) (script : List (Entry α)) : Prop :=
  ∀ dev : Device α,
    (∃ v, m dev t0 = (.ok v, t0 ++ script)) ∨
    (∃ j exc, j < script.length ∧ m dev t0 = (.error exc, t0 ++ script.take (j + 1)))

/-- Run from the trace `t0`, on any device, the calls `m` makes are an
initial segment of `script` followed only by unchecked `clReleaseMemObject`
calls, and the segment is all of `script` when `m` returns a value. -/
def Plays (t0 : List (Entry α)) (m : Gpu α β) (script : List (Entry α)) : Prop :=
  ∀ dev : Device α, ∃ j rel,
    (m dev t0).2 = t0 ++ script.take j ++ rel ∧
    (∀ e ∈ rel, e.check = none ∧ e.call.isRelease = true) ∧
    ((∃ v, (m dev t0).1 = .ok v) → script.length ≤ j)

/-- The checked calls of an activation dispatch for the kernel `kernel` on
`input`, in the order of the source: the read-only input buffer and the
write-only output buffer of `4 * n` bytes (handles `0` and `1`), the write of
the input, the three kernel arguments, the enqueue of a 1-dimensional range
of `n` work-items in groups of `256`, and the read-back. -/
def activationCalls (kernel enqueueName : String) (input : List α) : List (Entry α) :=
  [ ⟨.createBuffer .CL_MEM_READ_ONLY (4 * input.length), some "Creating buffer"⟩,
    ⟨.createBuffer .CL_MEM_WRITE_ONLY (4 * input.length), some "Creating buffer"⟩,
    ⟨.enqueueWriteBuffer 0 0 (4 * input.length) input, some "Writing buffer data"⟩,
    ⟨.setKernelArg kernel 0 (.mem 0), some "Setting kernel argument 0"⟩,
    ⟨.setKernelArg kernel 1 (.mem 1), some "Setting kernel argument 1"⟩,
    ⟨.setKernelArg kernel 2 (.int32 (toInt32 input.length)), some "Setting kernel argument 2"⟩,
    ⟨.enqueueNDRangeKernel kernel 1 [input.length] (some [256]), some enqueueName⟩,
    ⟨.enqueueReadBuffer 1 0 (4 * input.length), some "Reading buffer data"⟩ ]

/-- Every value the computation `m` returns satisfies `P`, whatever the
device and the calls made before. -/
def Returns (m : Gpu α β) (P : β → Prop) : Prop :=
  ∀ (dev : Device α) (t0 t1 : List (Entry α)) (v : β), m dev t0 = (.ok v, t1) → P v

/-- On any device the computation `m`, run from the empty trace, carries out
the calls of `script` in this order.  When every call of `script` returns
`CL_SUCCESS` (on the device, after the calls before it), all of them are
made, `m` returns a value, and the value satisfies `P`.  When the call at
position `n` is the first that does not, the calls up to and including it
are made, no later call of `script` is, and `m` throws the
`checkOpenCLError` exception for that call.  In both cases only unchecked
`clReleaseMemObject` calls follow. -/
def Performs (m : Gpu α β) (script : List (Entry α)) (P : β → Prop) : Prop :=
  ∀ dev : Device α,
    ((∀ n e, script[n]? = some e → dev.status (script.take n) e.call = CL_SUCCESS) →
      ∃ v rel, m dev [] = (.ok v, script ++ rel) ∧ P v ∧
        ∀ e ∈ rel, e.check = none ∧ e.call.isRelease = true) ∧
    (∀ n e op, script[n]? = some e → e.check = some op →
      dev.status (script.take n) e.call ≠ CL_SUCCESS →
      (∀ k e', k < n → script[k]? = some e' →
        dev.status (script.take k) e'.call = CL_SUCCESS) →
      ∃ rel, m dev [] =
          (.error (.runtime_error ("OpenCL error in " ++ op ++ ": " ++
            toString (dev.status (script.take n) e.call))), script.take (n + 1) ++ rel) ∧
        ∀ e ∈ rel, e.check = none ∧ e.call.isRelease = true)

/-- A device on which every call returns `CL_SUCCESS` and every read
delivers zeros. -/
def alwaysSucceeds : Device Int :=
  ⟨fun _ _ => 0, fun _ _ _ => 0⟩

end DispatchScripts

/-! ## Context construction and kernel compilation
(src/opencl_utils.cpp, lines 7-137)

The platform layer of the OpenCL runtime is a `Runtime` that answers every
call with a status code and the values the call writes; the host code
records its calls and its console output. -/

section Setup

/-- The `cl_device_type` of a device; the code asks for the first two. -/
inductive DeviceType where
  | CL_DEVICE_TYPE_GPU
  | CL_DEVICE_TYPE_CPU
  | CL_DEVICE_TYPE_ACCELERATOR
  deriving DecidableEq, Repr

/-- The runtime calls of `OpenCLContext` and `OpenCLKernel`, with the
arguments that vary between calls. -/
inductive HostCall where
  /-- The call `clGetPlatformIDs(0, nullptr, &numPlatforms)`. -/
  | getPlatformCount
  /-- The call `clGetPlatformIDs(numEntries, platforms.data(), nullptr)`. -/
  | getPlatformIDs (numEntries : Nat)
  /-- The call `clGetPlatformInfo(platform, CL_PLATFORM_NAME, ...)`. -/
  | getPlatformName (platform : Nat)
  /-- The call `clGetDeviceIDs(platform, type, 0, nullptr, &numDevices)`. -/
  | getDeviceCount (platform : Nat) (type : DeviceType)
  /-- The call `clGetDeviceIDs(platform, type, numEntries, devices.data(), nullptr)`. -/
  | getDeviceIDs (platform : Nat) (type : DeviceType) (numEntries : Nat)
  /-- The call `clGetDeviceInfo(device, CL_DEVICE_NAME, ...)`. -/
  | getDeviceName (device : Nat)
  /-- The call `clCreateContext(nullptr, 1, &device, nullptr, nullptr, &error)`. -/
  | createContext (device : Nat)
  /-- The call `clCreateCommandQueue(context, device, CL_QUEUE_PROFILING_ENABLE, &error)`. -/
  | createCommandQueue (context device : Nat)
  /-- The call `clCreateProgramWithSource(context, 1, &sourcePtr, &sourceSize, &error)`. -/
  | createProgramWithSource (context : Nat) (source : String)
  /-- The call `clBuildProgram(program, 1, &device, nullptr, nullptr, nullptr)`. -/
  | buildProgram (program device : Nat)
  /-- The call `clGetProgramBuildInfo(program, device, CL_PROGRAM_BUILD_LOG, 0, nullptr, &logSize)`. -/
  | getBuildLogSize (program device : Nat)
  /-- The call `clGetProgramBuildInfo(program, device, CL_PROGRAM_BUILD_LOG, logSize, log.data(), nullptr)`. -/
  | getBuildLog (program device : Nat) (logSize : Nat)
  /-- The call `clCreateKernel(program, kernelName, &error)`. -/
  | createKernel (program : Nat) (kernelName : String)
  deriving DecidableEq, Repr

/-- What a runtime call gives back: its status code and the values it writes
(a count or size, a list of ids, a handle, a text); a call uses the fields
it has an output for. -/
structure Reply where
  status : Int
  count : Nat
  ids : List Nat
  handle : Nat
  text : String
  deriving DecidableEq, Repr

/-- What the host did, in order: a runtime call, with the operation name
under which `checkOpenCLError` checks its status right after the call
(`none` when it is not checked there), or text sent to `std::cout` or
`std::cerr`. -/
inductive HostEvent where
  | call (c : HostCall) (check : Option String)
  | stdout (text : String)
  | stderr (text : String)
  deriving DecidableEq, Repr

/-- The runtime: the reply to a call, which may depend on everything the
host did before. -/
structure Runtime where
  reply : List HostEvent → HostCall → Reply

/-- How a host computation ends when it does not return: with a C++
exception, or in undefined behaviour (an element access outside a vector). -/
inductive Abort where
  | thrown (e : Exception)
  | undefined_behaviour
  deriving DecidableEq, Repr

/-- A host computation of the set-up code: given the runtime and the events
so far it ends with a value or an `Abort`, and with the events up to that
point. -/
def Setup (β : Type) : Type :=
  Runtime → List HostEvent → Except Abort β × List HostEvent

variable {β γ : Type}

/-- Return a value without any event. -/
def Setup.pure (x : β) : Setup β :=
  fun _ t => (.ok x, t)

/-- Sequencing: an `Abort` of the first computation ends the whole. -/
def Setup.bind (m : Setup β) (f : β → Setup γ) : Setup γ :=
  fun rt t =>
    match m rt t with
    | (.ok x, t1) => f x rt t1
    | (.error e, t1) => (.error e, t1)

instance : Monad Setup where
  pure := Setup.pure
  bind := Setup.bind

/-- A runtime call whose status is not given to `checkOpenCLError` right
after it. -/
def Setup.call (c : HostCall) : Setup Reply :=
  fun rt t => (.ok (rt.reply t c), t ++ [.call c none])

/-- A runtime call followed at once by `checkOpenCLError(error, operation)`. -/
def Setup.checked (c : HostCall) (operation : String) : Setup Reply :=
  fun rt t =>
    match checkOpenCLError (rt.reply t c).status operation with
    | .ok _ => (.ok (rt.reply t c), t ++ [.call c (some operation)])
    | .error e => (.error (.thrown e), t ++ [.call c (some operation)])

/-- A call of `checkOpenCLError(error, operation)` on a status obtained earlier. -/
def Setup.check (error : Int) (operation : String) : Setup Unit :=
  fun _ t =>
    match checkOpenCLError error operation with
    | .ok _ => (.ok (), t)
    | .error e => (.error (.thrown e), t)

/-- The output `std::cout << text`. -/
def Setup.cout (text : String) : Setup Unit :=
  fun _ t => (.ok (), t ++ [.stdout text])

/-- The output `std::cerr << text`. -/
def Setup.cerr (text : String) : Setup Unit :=
  fun _ t => (.ok (), t ++ [.stderr text])

/-- The element access `v[i]` of a `std::vector`; outside the vector it is
undefined behaviour. -/
def Setup.index (v : List Nat) (i : Nat) : Setup Nat :=
  fun _ t =>
    match v[i]? with
    | some x => (.ok x, t)
    | none => (.error .undefined_behaviour, t)

/-- A `std::vector` of `n` handles, value-initialised (null, `0`), after a
call that was given `n` entries wrote the handles `ids` into it. -/
def fillVector (n : Nat) (ids : List Nat) : List Nat :=
  ids.take n ++ List.replicate (n - ids.length) 0

/-- The members of the class `OpenCLContext` (include/opencl_utils.hpp). -/
structure OpenCLContext where
  platform_ : Nat
  device_ : Nat
  context_ : Nat
  commandQueue_ : Nat
  deriving DecidableEq, Repr

/-- The method `OpenCLContext::selectPlatform` (lines 23-41); the result is
the member `platform_`. -/
def OpenCLContext.selectPlatform : Setup Nat := do
  let r ← Setup.checked .getPlatformCount "Getting number of platforms"
  let numPlatforms := r.count
  let r ← Setup.checked (.getPlatformIDs numPlatforms) "Getting platform IDs"
  let platforms := fillVector numPlatforms r.ids
  let platform_ ← Setup.index platforms 0
  Setup.cout "Selected platform: "
  let r ← Setup.call (.getPlatformName platform_)
  if r.status = CL_SUCCESS then Setup.cout (r.text ++ "\n") else pure ()
  pure platform_

/-- The method `OpenCLContext::selectDevice` (lines 43-70); the result is
the member `device_`.  The count of GPU devices is asked for; when that call
fails or reports none, the count of CPU devices is asked for and checked.
Then the GPU devices are asked for, and when that call fails the CPU devices
are asked for and checked.  The first entry of the vector is selected. -/
def OpenCLContext.selectDevice (platform_ : Nat) : Setup Nat := do
  let r ← Setup.call (.getDeviceCount platform_ .CL_DEVICE_TYPE_GPU)
  let numDevices ←
    if r.status ≠ CL_SUCCESS ∨ r.count = 0 then do
      Setup.cout "No GPU found, falling back to CPU\n"
      let r ← Setup.checked (.getDeviceCount platform_ .CL_DEVICE_TYPE_CPU)
        "Getting number of CPU devices"
      pure r.count
    else pure r.count
  let r ← Setup.call (.getDeviceIDs platform_ .CL_DEVICE_TYPE_GPU numDevices)
  let devices ←
    if r.status ≠ CL_SUCCESS then do
      let r ← Setup.checked (.getDeviceIDs platform_ .CL_DEVICE_TYPE_CPU numDevices)
        "Getting device IDs"
      pure (fillVector numDevices r.ids)
    else pure (fillVector numDevices r.ids)
  let device_ ← Setup.index devices 0
  Setup.cout "Selected device: "
  let r ← Setup.call (.getDeviceName device_)
  if r.status = CL_SUCCESS then Setup.cout (r.text ++ "\n") else pure ()
  pure device_

/-- The method `OpenCLContext::createContext` (lines 72-76). -/
def OpenCLContext.createContext (device_ : Nat) : Setup Nat := do
  let r ← Setup.checked (.createContext device_) "Creating context"
  pure r.handle

/-- The method `OpenCLContext::createCommandQueue` (lines 78-82). -/
def OpenCLContext.createCommandQueue (context_ device_ : Nat) : Setup Nat := do
  let r ← Setup.checked (.createCommandQueue context_ device_) "Creating command queue"
  pure r.handle

/-- The constructor `OpenCLContext::OpenCLContext` (lines 7-12). -/
def OpenCLContext.create : Setup OpenCLContext := do
  let platform_ ← OpenCLContext.selectPlatform
  let device_ ← OpenCLContext.selectDevice platform_
  let context_ ← OpenCLContext.createContext device_
  let commandQueue_ ← OpenCLContext.createCommandQueue context_ device_
  pure ⟨platform_, device_, context_, commandQueue_⟩

/-- The method `OpenCLKernel::compileProgram` (lines 113-131); the result is
the member `program_`.  When `clBuildProgram` fails the size of the build
log and the log are asked for (unchecked), the log is written to `std::cerr`
and only then is the build status given to `checkOpenCLError`. -/
def OpenCLKernel.compileProgram (context : OpenCLContext) (source : String) : Setup Nat := do
  let r ← Setup.checked (.createProgramWithSource context.context_ source) "Creating program"
  let program_ := r.handle
  let device := context.device_
  let build ← Setup.call (.buildProgram program_ device)
  if build.status ≠ CL_SUCCESS then do
    let logSize ← Setup.call (.getBuildLogSize program_ context.device_)
    let log ← Setup.call (.getBuildLog program_ context.device_ logSize.count)
    Setup.cerr ("Build log: " ++ log.text ++ "\n")
    Setup.check build.status "Building program"
  else pure ()
  pure program_

/-- The method `OpenCLKernel::createKernel` (lines 133-137); the result is
the member `kernel_`. -/
def OpenCLKernel.createKernel (program_ : Nat) (kernelName : String) : Setup Nat := do
  let r ← Setup.checked (.createKernel program_ kernelName) "Creating kernel"
  pure r.handle

/-- The constructor `OpenCLKernel::OpenCLKernel` (lines 99-102); the result
is the pair of members `program_` and `kernel_`. -/
def OpenCLKernel.create (context : OpenCLContext) (source kernelName : String) :
    Setup (Nat × Nat) := do
  let program_ ← OpenCLKernel.compileProgram context source
  let kernel_ ← OpenCLKernel.createKernel program_ kernelName
  pure (program_, kernel_)

/-! ### A machine with given platforms and devices -/

/-- A device of a platform: its handle, its type and its name. -/
structure DeviceInfo where
  id : Nat
  type : DeviceType
  name : String
  deriving DecidableEq, Repr

/-- A platform: its handle, its name and its devices in the order in which
the runtime lists them. -/
structure PlatformInfo where
  id : Nat
  name : String
  devices : List DeviceInfo
  deriving DecidableEq, Repr

/-- The handles of the devices of the platform `p` that have the type `type`. -/
def devicesOfType (p : PlatformInfo) (type : DeviceType) : List Nat :=
  (p.devices.filter fun d => d.type = type).map fun d => d.id

/-- The status `CL_DEVICE_NOT_FOUND` of the OpenCL headers. -/
def CL_DEVICE_NOT_FOUND : Int := -1

/-- The status `CL_INVALID_VALUE` of the OpenCL headers. -/
def CL_INVALID_VALUE : Int := -30

/-- The status `CL_INVALID_PLATFORM` of the OpenCL headers. -/
def CL_INVALID_PLATFORM : Int := -32

/-- The status `CL_INVALID_DEVICE` of the OpenCL headers. -/
def CL_INVALID_DEVICE : Int := -33

/-- A reply that carries only a status. -/
def Reply.failure (status : Int) : Reply :=
  ⟨status, 0, [], 0, ""⟩

/-- The replies of a runtime on a machine with the platforms `platforms`, as
the OpenCL specification describes the enumeration calls:
`clGetPlatformIDs` reports the number of platforms or writes the first
`numEntries` platform handles (`CL_INVALID_VALUE` for zero entries with an
array); `clGetDeviceIDs` answers `CL_INVALID_PLATFORM` for an unknown
platform, `CL_DEVICE_NOT_FOUND` when the platform has no device of the type,
and otherwise reports the number of such devices or writes the first
`numEntries` of their handles; the name queries give the names; the
creation, build and log calls succeed. -/
def machineReply (platforms : List PlatformInfo) : HostCall → Reply
  | .getPlatformCount => ⟨CL_SUCCESS, platforms.length, [], 0, ""⟩
  | .getPlatformIDs numEntries =>
    if numEntries = 0 then Reply.failure CL_INVALID_VALUE
    else ⟨CL_SUCCESS, 0, (platforms.map fun p => p.id).take numEntries, 0, ""⟩
  | .getPlatformName platform =>
    match platforms.find? fun p => p.id = platform with
    | some p => ⟨CL_SUCCESS, 0, [], 0, p.name⟩
    | none => Reply.failure CL_INVALID_PLATFORM
  | .getDeviceCount platform type =>
    match platforms.find? fun p => p.id = platform with
    | none => Reply.failure CL_INVALID_PLATFORM
    | some p =>
      if devicesOfType p type = [] then Reply.failure CL_DEVICE_NOT_FOUND
      else ⟨CL_SUCCESS, (devicesOfType p type).length, [], 0, ""⟩
  | .getDeviceIDs platform type numEntries =>
    match platforms.find? fun p => p.id = platform with
    | none => Reply.failure CL_INVALID_PLATFORM
    | some p =>
      if numEntries = 0 then Reply.failure CL_INVALID_VALUE
      else if devicesOfType p type = [] then Reply.failure CL_DEVICE_NOT_FOUND
      else ⟨CL_SUCCESS, 0, (devicesOfType p type).take numEntries, 0, ""⟩
  | .getDeviceName device =>
    match (platforms.flatMap fun p => p.devices).find? fun d => d.id = device with
    | some d => ⟨CL_SUCCESS, 0, [], 0, d.name⟩
    | none => Reply.failure CL_INVALID_DEVICE
  | .createContext _ => ⟨CL_SUCCESS, 0, [], 1, ""⟩
  | .createCommandQueue _ _ => ⟨CL_SUCCESS, 0, [], 2, ""⟩
  | .createProgramWithSource _ _ => ⟨CL_SUCCESS, 0, [], 3, ""⟩
  | .buildProgram _ _ => ⟨CL_SUCCESS, 0, [], 0, ""⟩
  | .getBuildLogSize _ _ => ⟨CL_SUCCESS, 1, [], 0, ""⟩
  | .getBuildLog _ _ _ => ⟨CL_SUCCESS, 0, [], 0, ""⟩
  | .createKernel _ _ => ⟨CL_SUCCESS, 0, [], 4, ""⟩

/-- The runtime of a machine with the platforms `platforms`. -/
def machine (platforms : List PlatformInfo) : Runtime :=
  ⟨fun _ c => machineReply platforms c⟩

/-- A machine with one platform that has one CPU device and no GPU. -/
def cpuOnlyMachine : List PlatformInfo :=
  [⟨100, "Portable platform", [⟨200, .CL_DEVICE_TYPE_CPU, "Host CPU"⟩]⟩]

/-- A machine with one platform listing a CPU device and then two GPU devices. -/
def gpuMachine : List PlatformInfo :=
  [⟨100, "Vendor platform",
    [⟨200, .CL_DEVICE_TYPE_CPU, "Host CPU"⟩, ⟨201, .CL_DEVICE_TYPE_GPU, "First GPU"⟩,
     ⟨202, .CL_DEVICE_TYPE_GPU, "Second GPU"⟩]⟩]

/-- A runtime on which `clBuildProgram` fails with `-11`
(`CL_BUILD_PROGRAM_FAILURE`), the build log is `"error: x"`, and every other
call succeeds. -/
def buildFails : Runtime :=
  ⟨fun _ c =>
    match c with
    | .buildProgram _ _ => Reply.failure (-11)
    | .getBuildLogSize _ _ => ⟨CL_SUCCESS, 9, [], 0, ""⟩
    | .getBuildLog _ _ _ => ⟨CL_SUCCESS, 0, [], 0, "error: x"⟩
    | _ => ⟨CL_SUCCESS, 0, [], 7, ""⟩⟩

/-- The operation name under which the construction of `OpenCLContext`
checks the status of a call right after it: the two platform enumeration
calls, the two enumeration calls for CPU devices, the context creation and
the command-queue creation are checked; the enumeration calls for GPU
devices and the name queries are not. -/
def checkOf : HostCall → Option String
  | .getPlatformCount => some "Getting number of platforms"
  | .getPlatformIDs _ => some "Getting platform IDs"
  | .getDeviceCount _ .CL_DEVICE_TYPE_CPU => some "Getting number of CPU devices"
  | .getDeviceIDs _ .CL_DEVICE_TYPE_CPU _ => some "Getting device IDs"
  | .createContext _ => some "Creating context"
  | .createCommandQueue _ _ => some "Creating command queue"
  | _ => none

/-- The enumeration and creation calls: platform enumeration, device
enumeration, context creation and command-queue creation. -/
def HostCall.isEnumerationOrCreation : HostCall → Bool
  | .getPlatformCount => true
  | .getPlatformIDs _ => true
  | .getDeviceCount _ _ => true
  | .getDeviceIDs _ _ _ => true
  | .createContext _ => true
  | .createCommandQueue _ _ => true
  | _ => false

/-- The exception `checkOpenCLError(status, operation)` throws. -/
def openCLError (operation : String) (status : Int) : Abort :=
  .thrown (.runtime_error ("OpenCL error in " ++ operation ++ ": " ++ toString status))

/-- The outcome `out` of a construction on the runtime `rt` raises on every
failure: whenever an enumeration or creation call of the trace returned a
status other than `CL_SUCCESS`, the construction ended with the
`checkOpenCLError` exception for some operation name and that status. -/
def RaisesOnEveryFailure (rt : Runtime) (out : Except Abort OpenCLContext × List HostEvent) :
    Prop :=
  ∀ k c chk, out.2[k]? = some (.call c chk) → c.isEnumerationOrCreation = true →
    (rt.reply (out.2.take k) c).status ≠ CL_SUCCESS →
    ∃ op, out.1 = .error (openCLError op (rt.reply (out.2.take k) c).status)

/-- The calls `s`, made after the events `t0` on the runtime `rt` with the
outcome `r`, are checked as `checkOf` says, and a checked call that returned
a status other than `CL_SUCCESS` made `r` the `checkOpenCLError` exception
for its operation name and that status. -/
def FailStop (rt : Runtime) (t0 s : List HostEvent) (r : Except Abort β) : Prop :=
  ∀ k c chk, s[k]? = some (.call c chk) →
    chk = checkOf c ∧
    ∀ op, chk = some op → (rt.reply (t0 ++ s.take k) c).status ≠ CL_SUCCESS →
      r = .error (openCLError op (rt.reply (t0 ++ s.take k) c).status)

/-- The computation `m` only adds events, and the calls it adds satisfy
`FailStop`, whatever the runtime and the events before. -/
def Guarded (m : Setup β) : Prop :=
  ∀ rt t0, ∃ s, (m rt t0).2 = t0 ++ s ∧ FailStop rt t0 s (m rt t0).1

/-- The events `s`, added after the events `t0` on the runtime `rt`, show
the fall-back to the CPU: a count of GPU devices that returned a status
other than `CL_SUCCESS` is followed by the message "No GPU found, falling
back to CPU" and by the checked count of CPU devices, and an enumeration of
GPU devices that returned a status other than `CL_SUCCESS` is followed by
the checked enumeration of CPU devices with the same number of entries. -/
def FallsBackTrace (rt : Runtime) (t0 s : List HostEvent) : Prop :=
  ∀ k platform,
    (s[k]? = some (.call (.getDeviceCount platform .CL_DEVICE_TYPE_GPU) none) →
      (rt.reply (t0 ++ s.take k) (.getDeviceCount platform .CL_DEVICE_TYPE_GPU)).status
        ≠ CL_SUCCESS →
      s[k + 1]? = some (.stdout "No GPU found, falling back to CPU\n") ∧
      s[k + 2]? = some (.call (.getDeviceCount platform .CL_DEVICE_TYPE_CPU)
        (some "Getting number of CPU devices"))) ∧
    ∀ numEntries,
      s[k]? = some (.call (.getDeviceIDs platform .CL_DEVICE_TYPE_GPU numEntries) none) →
      (rt.reply (t0 ++ s.take k)
        (.getDeviceIDs platform .CL_DEVICE_TYPE_GPU numEntries)).status ≠ CL_SUCCESS →
      s[k + 1]? = some (.call (.getDeviceIDs platform .CL_DEVICE_TYPE_CPU numEntries)
        (some "Getting device IDs"))

/-- The computation `m` only adds events, and the events it adds show the
fall-back to the CPU, whatever the runtime and the events before. -/
def FallsBack (m : Setup β) : Prop :=
  ∀ rt t0, ∃ s, (m rt t0).2 = t0 ++ s ∧ FallsBackTrace rt t0 s

/-- On the runtime `rt` the computation `m` returns, from any events so
far, a value that satisfies `P`. -/
def Yields (m : Setup β) (rt : Runtime) (P : β → Prop) : Prop :=
  ∀ t, ∃ v t1, m rt t = (.ok v, t1) ∧ P v

end Setup

/-! ## A device that executes the matrix kernels

The device memory and the kernels are outside the sources: the OpenCL
runtime is a library, and the kernel file `kernels/matrix_ops.cl` is not
among the sources.  `idealDevice` is a device on which every call succeeds,
buffers hold what was written to them, and the matrix kernels do what the
specification says of them. -/

section IdealDevice

variable {α : Type}

/-- The state of the device after some calls: how many calls were made (the
handle the next buffer gets), the floats held by each buffer, and the
arguments bound to each kernel. -/
structure DeviceState (α : Type) where
  next : Nat
  mem : Nat → List α
  args : String → Nat → Option ArgValue

/-- The floats of a buffer after a write of `size` bytes of `data` at byte
offset `offset`. -/
def writeFloats (old : List α) (offset size : Nat) (data : List α) : List α :=
  old.take (offset / sizeofFloat) ++ data.take (size / sizeofFloat) ++
    old.drop (offset / sizeofFloat + size / sizeofFloat)

/-- Modelled from the spec: the kernel `matrix_multiply` of
`kernels/matrix_ops.cl`, which is not among the sources.  The spec says:
standard matrix product, "one work-item per output element, 2-D dispatch",
axes ordered `[cols, rows]`, arguments bound "buffers first, then scalar
dimensions", "Result is `rowsA × colsB`, row-major", matrices "addressed as
`row*cols+col`".  The work-item `(col, row)` of the range `[g0, g1]` with
`row < rowsA` and `col < colsB` stores the product of row `row` of `A` and
column `col` of `B` in `C[row*colsB+col]`; the result is the new content of
`C`, cell by cell. -/
def matrixMultiplyKernel [Zero α] [Add α] [Mul α] (A B C : List α) (rowsA colsA colsB : Nat)
    (g0 g1 : Nat) : List α :=
  (List.range C.length).map fun idx =>
    if idx / colsB < rowsA ∧ idx / colsB < g1 ∧ idx % colsB < g0 then
      dotSum A B colsA colsB (idx / colsB) (idx % colsB)
    else C.getD idx 0

/-- Modelled from the spec: the kernel `matrix_transpose` of
`kernels/matrix_ops.cl`, which is not among the sources.  The spec says:
"row/column swap", one work-item per output element, 2-D dispatch with axes
ordered `[cols, rows]`, row-major layout.  The work-item `(col, row)` of the
range `[g0, g1]` with `row < rows` and `col < cols` stores `A[row*cols+col]`
in `B[col*rows+row]`; the result is the new content of `B`, cell by cell. -/
def matrixTransposeKernel [Zero α] (A B : List α) (rows cols : Nat) (g0 g1 : Nat) : List α :=
  (List.range B.length).map fun idx =>
    if idx / rows < cols ∧ idx / rows < g0 ∧ idx % rows < g1 then
      A.getD (idx % rows * cols + idx / rows) 0
    else B.getD idx 0

/-- Modelled from the spec: the kernel `matrix_add` of
`kernels/matrix_ops.cl`, which is not among the sources.  The spec says:
"element-wise sum", 1-D dispatch.  The work-item `i` of the range `[g0]`
with `i < size` stores `A[i] + B[i]` in `C[i]`. -/
def matrixAddKernel [Zero α] [Add α] (A B C : List α) (size : Nat) (g0 : Nat) : List α :=
  (List.range C.length).map fun idx =>
    if idx < size ∧ idx < g0 then A.getD idx 0 + B.getD idx 0 else C.getD idx 0

/-- The effect on the device memory of running the kernel `kernel` with the
bound arguments `args` over the range `global`: the three kernels of
`kernels/matrix_ops.cl` as modelled above, on the buffers and dimensions
bound in the positional order of the host code; anything else leaves the
memory as it is. -/
def runKernel [Zero α] [Add α] [Mul α] (kernel : String) (args : Nat → Option ArgValue)
    (global : List Nat) (mem : Nat → List α) : Nat → List α :=
  if kernel = "matrix_multiply" then
    match args 0, args 1, args 2, args 3, args 4, args 5, global with
    | some (.mem a), some (.mem b), some (.mem c), some (.int32 rowsA), some (.int32 colsA),
        some (.int32 colsB), [g0, g1] =>
      Function.update mem c
        (matrixMultiplyKernel (mem a) (mem b) (mem c) rowsA.toNat colsA.toNat colsB.toNat g0 g1)
    | _, _, _, _, _, _, _ => mem
  else if kernel = "matrix_transpose" then
    match args 0, args 1, args 2, args 3, global with
    | some (.mem a), some (.mem b), some (.int32 rows), some (.int32 cols), [g0, g1] =>
      Function.update mem b (matrixTransposeKernel (mem a) (mem b) rows.toNat cols.toNat g0 g1)
    | _, _, _, _, _ => mem
  else if kernel = "matrix_add" then
    match args 0, args 1, args 2, args 3, global with
    | some (.mem a), some (.mem b), some (.mem c), some (.int32 size), [g0] =>
      Function.update mem c (matrixAddKernel (mem a) (mem b) (mem c) size.toNat g0)
    | _, _, _, _, _ => mem
  else mem

/-- The device state after one more call.  A new buffer gets the number of
calls made before it as its handle (as `OpenCLBuffer.create` assumes) and
holds zeros; a write replaces the floats it covers; `clSetKernelArg` binds
an argument; an enqueue runs the kernel; reads and releases change nothing. -/
def DeviceState.step [Zero α] [Add α] [Mul α] (s : DeviceState α) (e : Entry α) :
    DeviceState α :=
  match e.call with
  | .createBuffer _ size =>
    ⟨s.next + 1, Function.update s.mem s.next (List.replicate (size / sizeofFloat) 0), s.args⟩
  | .enqueueWriteBuffer buffer offset size data =>
    ⟨s.next + 1, Function.update s.mem buffer (writeFloats (s.mem buffer) offset size data),
      s.args⟩
  | .setKernelArg kernel argIndex value =>
    ⟨s.next + 1, s.mem, Function.update s.args kernel (Function.update (s.args kernel) argIndex
      (some value))⟩
  | .enqueueNDRangeKernel kernel _ globalWorkSize _ =>
    ⟨s.next + 1, runKernel kernel (s.args kernel) globalWorkSize s.mem, s.args⟩
  | .enqueueReadBuffer _ _ _ => ⟨s.next + 1, s.mem, s.args⟩
  | .releaseMemObject _ => ⟨s.next + 1, s.mem, s.args⟩

/-- The device state after the calls of a trace, from an empty device. -/
def simulate [Zero α] [Add α] [Mul α] (t : List (Entry α)) : DeviceState α :=
  t.foldl DeviceState.step ⟨0, fun _ => [], fun _ _ => none⟩

/-- A device on which every call returns `CL_SUCCESS` and a read delivers
the floats the buffer holds after the calls made so far. -/
def idealDevice [Zero α] [Add α] [Mul α] : Device α :=
  ⟨fun _ _ => CL_SUCCESS, fun t buffer i => ((simulate t).mem buffer).getD i 0⟩

/-- The transpose of the row-major `rows x cols` matrix `A`, as a row-major
`cols x rows` matrix. -/
def transposeOf [Zero α] (A : List α) (rows cols : Nat) : List α :=
  (List.range (rows * cols)).map fun idx => A.getD (idx % rows * cols + idx / rows) 0

/-- The row-major product of the `rowsA x colsA` matrix `A` and the
`colsA x colsB` matrix `B`, cell by cell. -/
def productOf [Zero α] [Add α] [Mul α] (A B : List α) (rowsA colsA colsB : Nat) : List α :=
  (List.range (rowsA * colsB)).map fun idx =>
    dotSum A B colsA colsB (idx / colsB) (idx % colsB)

end IdealDevice

/-! ## The benchmark operations (src/benchmark.cpp, lines 20-151) -/

section BenchmarkOperations

/-- A step of a `Benchmark` member function: from the member `results_` it
ends with a value or with the exception that leaves the function, and with
the `results_` of that moment (the object outlives an exception). -/
def Bench (τ : Type) (β : Type) : Type :=
  List (BenchmarkResult τ) → Except Exception β × List (BenchmarkResult τ)

variable {τ : Type} {β γ : Type}

/-- Return a value and leave `results_` as it is. -/
def Bench.pure (x : β) : Bench τ β :=
  fun results_ => (.ok x, results_)

/-- Sequencing: an exception of the first step ends the whole. -/
def Bench.bind (m : Bench τ β) (f : β → Bench τ γ) : Bench τ γ :=
  fun results_ =>
    match m results_ with
    | (.ok x, r1) => f x r1
    | (.error e, r1) => (.error e, r1)

instance : Monad (Bench τ) where
  pure := Bench.pure
  bind := Bench.bind

/-- The call `matrixOps_.createRandomMatrix(rows, cols, min, max)`
(src/matrix_ops.cpp, lines 149-159) as far as the benchmark depends on it:
`std::vector<float> matrix(rows * cols)` throws when the `int` product,
computed in 32 bits, is negative; the random content only reaches the timed
work. -/
def Bench.createRandomMatrix (rows cols : Int) : Bench τ Unit :=
  fun results_ =>
    if wrapInt (rows * cols) < 0 then (.error .length_error, results_) else (.ok (), results_)

/-- The call `measureTime(func, iterations)` (src/benchmark.cpp, lines
153-165).  The elapsed time read from `std::chrono::high_resolution_clock`,
or the exception `func` throws, is not determined by the program: it is the
parameter `outcome`.  `results_` is not touched. -/
def Bench.measureTime (outcome : Except Exception τ) : Bench τ τ :=
  fun results_ => (outcome, results_)

/-- The call `addResult(operation, implementation, size, time_ms, speedup)`
on the member `results_`. -/
def Bench.addResult (operation implementation : String) (size : Int) (time_ms speedup : τ) :
    Bench τ Unit :=
  fun results_ =>
    (.ok (), DLOpenCL.addResult results_ operation implementation size time_ms speedup)

/-- The function `Benchmark::benchmarkMatrixMultiplicationDetailed`
(src/benchmark.cpp, lines 20-45); `cpu` and `gpu` are the outcomes of the
two measurements.  The text sent to `std::cout` is left out.  The first
`addResult` is called without a speedup, which is the default `1.0`. -/
def benchmarkMatrixMultiplicationDetailed [One τ] [Div τ] (size : Int)
    (cpu gpu : Except Exception τ) : Bench τ Unit := do
  Bench.createRandomMatrix size size
  Bench.createRandomMatrix size size
  let cpuTime ← Bench.measureTime cpu
  let gpuTime ← Bench.measureTime gpu
  let speedup := cpuTime / gpuTime
  Bench.addResult "Matrix Multiplication" "CPU" size cpuTime 1
  Bench.addResult "Matrix Multiplication" "GPU" size gpuTime speedup

/-- The function `Benchmark::benchmarkActivationFunctionsDetailed`
(src/benchmark.cpp, lines 54-108); the six parameters are the outcomes of
the six measurements in the order of the source.  The text sent to
`std::cout` is left out. -/
def benchmarkActivationFunctionsDetailed [One τ] [Div τ] (vectorSize : Int)
    (reluCpu reluGpu sigmoidCpu sigmoidGpu tanhCpu tanhGpu : Except Exception τ) :
    Bench τ Unit := do
  Bench.createRandomMatrix 1 vectorSize
  let cpuTime ← Bench.measureTime reluCpu
  let gpuTime ← Bench.measureTime reluGpu
  let speedup := cpuTime / gpuTime
  Bench.addResult "ReLU" "CPU" vectorSize cpuTime 1
  Bench.addResult "ReLU" "GPU" vectorSize gpuTime speedup
  let cpuTime ← Bench.measureTime sigmoidCpu
  let gpuTime ← Bench.measureTime sigmoidGpu
  let speedup := cpuTime / gpuTime
  Bench.addResult "Sigmoid" "CPU" vectorSize cpuTime 1
  Bench.addResult "Sigmoid" "GPU" vectorSize gpuTime speedup
  let cpuTime ← Bench.measureTime tanhCpu
  let gpuTime ← Bench.measureTime tanhGpu
  let speedup := cpuTime / gpuTime
  Bench.addResult "Tanh" "CPU" vectorSize cpuTime 1
  Bench.addResult "Tanh" "GPU" vectorSize gpuTime speedup

/-- The function `Benchmark::benchmarkNeuralLayer` (src/benchmark.cpp, lines
110-151); `cpu` and `gpu` are the outcomes of the two measurements.  The
text sent to `std::cout` is left out.  The recorded size is the `int`
product `inputSize * hiddenSize * outputSize`, computed in 32 bits. -/
def benchmarkNeuralLayer [One τ] [Div τ] (inputSize hiddenSize outputSize : Int)
    (cpu gpu : Except Exception τ) : Bench τ Unit := do
  Bench.createRandomMatrix hiddenSize inputSize
  Bench.createRandomMatrix outputSize hiddenSize
  Bench.createRandomMatrix 1 inputSize
  let cpuTime ← Bench.measureTime cpu
  let gpuTime ← Bench.measureTime gpu
  let speedup := cpuTime / gpuTime
  Bench.addResult "Neural Layer" "CPU"
    (wrapInt (wrapInt (inputSize * hiddenSize) * outputSize)) cpuTime 1
  Bench.addResult "Neural Layer" "GPU"
    (wrapInt (wrapInt (inputSize * hiddenSize) * outputSize)) gpuTime speedup

/-- One call of a benchmark operation on a `Benchmark` object, with its
arguments and the outcomes of its measurements. -/
inductive Operation (τ : Type) where
  | matrixMultiplication (size : Int) (cpu gpu : Except Exception τ)
  | activationFunctions (vectorSize : Int)
      (reluCpu reluGpu sigmoidCpu sigmoidGpu tanhCpu tanhGpu : Except Exception τ)
  | neuralLayer (inputSize hiddenSize outputSize : Int) (cpu gpu : Except Exception τ)

/-- The member function an operation calls. -/
def Operation.run [One τ] [Div τ] : Operation τ → Bench τ Unit
  | .matrixMultiplication size cpu gpu => benchmarkMatrixMultiplicationDetailed size cpu gpu
  | .activationFunctions vectorSize reluCpu reluGpu sigmoidCpu sigmoidGpu tanhCpu tanhGpu =>
    benchmarkActivationFunctionsDetailed vectorSize reluCpu reluGpu sigmoidCpu sigmoidGpu
      tanhCpu tanhGpu
  | .neuralLayer inputSize hiddenSize outputSize cpu gpu =>
    benchmarkNeuralLayer inputSize hiddenSize outputSize cpu gpu

/-- The member `results_` after the operations `ops` were called one after
the other on an object whose `results_` was `results_`; an operation that
ends with an exception leaves what it recorded. -/
def resultsAfter [One τ] [Div τ] (ops : List (Operation τ))
    (results_ : List (BenchmarkResult τ)) : List (BenchmarkResult τ) :=
  ops.foldl (fun r op => (op.run r).2) results_

/-- The results come in adjacent pairs: there is an even number of them,
and the result at an even position `2 * k` is a "CPU" entry with speedup `1`
followed by a "GPU" entry with the same operation and size. -/
def PairedResults [One τ] (results : List (BenchmarkResult τ)) : Prop :=
  results.length % 2 = 0 ∧
  (∀ r ∈ results, r.implementation = "CPU" ∨ r.implementation = "GPU") ∧
  ∀ k c, results[2 * k]? = some c →
    c.implementation = "CPU" ∧ c.speedup = 1 ∧
    ∃ g, results[2 * k + 1]? = some g ∧ g.implementation = "GPU" ∧
      g.operation = c.operation ∧ g.size = c.size

/-- Every run of the step `m` that starts with paired results ends with
paired results, whether it returns or throws. -/
def KeepsPairs [One τ] (m : Bench τ β) : Prop :=
  ∀ results_, PairedResults results_ → PairedResults (m results_).2

end BenchmarkOperations

/-! ### The work sizes of the enqueued kernels -/

section WorkSizes

variable {α : Type}

/-- The global and local work sizes of the `clEnqueueNDRangeKernel` calls of
a trace, in the order of the calls. -/
def enqueuedRanges (t : List (Entry α)) : List (List Nat × Option (List Nat)) :=
  t.filterMap fun e =>
    match e.call with
    | .enqueueNDRangeKernel _ _ globalWorkSize localWorkSize =>
      some (globalWorkSize, localWorkSize)
    | _ => none

/-- The six activation dispatch functions of fix_activation_functions.cpp. -/
def activationOps : List (List α → Gpu α (List α)) :=
  [reluGPU, sigmoidGPU, tanhGPU, reluDerivativeGPU, sigmoidDerivativeGPU, tanhDerivativeGPU]

/-- Every dimension of the global work size is a multiple of the local
work-group size of the same dimension. -/
def LocalDividesGlobal (globalWorkSize localWorkSize : List Nat) : Prop :=
  List.Forall₂ (fun l g => l ∣ g) localWorkSize globalWorkSize

end WorkSizes

/-! # Theorems -/

/-! ## `multiplyCPU` -/

section MultiplyCPUProofs

variable {α : Type u} [Zero α] [Add α] [Mul α]

theorem index_lt_of_lt {i j r c : Nat} (hi : i < r) (hj : j < c) : i * c + j < r * c := by
  calc i * c + j < i * c + c := by omega
    _ = (i + 1) * c := by ring
    _ ≤ r * c := Nat.mul_le_mul_right c hi

theorem cell_div_mod {i j c : Nat} (hj : j < c) : (i * c + j) / c = i ∧ (i * c + j) % c = j := by
  have hc : 0 < c := by omega
  constructor
  · rw [Nat.add_comm, Nat.add_mul_div_right _ _ hc, Nat.div_eq_of_lt hj, Nat.zero_add]
  · rw [Nat.add_comm, Nat.add_mul_mod_self_right, Nat.mod_eq_of_lt hj]

omit [Zero α] [Add α] [Mul α] in
theorem wrapInt_natCast (n : Nat) (h : n < 2 ^ 31) : wrapInt (n : Int) = (n : Int) := by
  unfold wrapInt
  norm_num at h ⊢
  omega

omit [Zero α] [Add α] [Mul α] in
/-- An index expression `i * c + k` that fits in an `int` is computed exactly. -/
theorem wrapInt_index (i c k : Nat) (h : i * c + k < 2 ^ 31) :
    wrapInt (wrapInt ((i : Int) * (c : Int)) + (k : Int)) = ((i * c + k : Nat) : Int) := by
  have h1 : i * c < 2 ^ 31 := lt_of_le_of_lt (Nat.le_add_right _ _) h
  rw [← Nat.cast_mul, wrapInt_natCast _ h1, ← Nat.cast_add, wrapInt_natCast _ h]

omit [Zero α] [Add α] [Mul α] in
theorem readAt_natCast (v : List α) (n : Nat) : readAt v (n : Int) = v[n]? := by
  unfold readAt
  rw [if_neg (not_lt.mpr (Int.ofNat_nonneg n)), Int.toNat_natCast]

omit [Zero α] [Add α] [Mul α] in
theorem writeAt_natCast (C : List α) (n : Nat) (v : α) (h : n < C.length) :
    writeAt C (n : Int) v = some (C.set n v) := by
  unfold writeAt
  rw [Int.toNat_natCast, if_pos ⟨Int.ofNat_nonneg n, h⟩]

/-- When every index the accumulation reads fits in an `int` and is inside
`A` and `B`, the bounds-checked accumulation succeeds with the plain
left-to-right sum. -/
theorem dotLoop_fold (A B : List α) (colsA colsB i j : Nat) (ks : List Nat) (s : α)
    (hks : ∀ k ∈ ks, (i * colsA + k < A.length ∧ k * colsB + j < B.length) ∧
      i * colsA + k < 2 ^ 31 ∧ k * colsB + j < 2 ^ 31) :
    ks.foldlM (fun sum k => do
      let a ← readAt A (wrapInt (wrapInt ((i : Int) * (colsA : Int)) + (k : Int)))
      let b ← readAt B (wrapInt (wrapInt ((k : Int) * (colsB : Int)) + (j : Int)))
      pure (sum + a * b)) s
    = some (ks.foldl
        (fun sum k => sum + A.getD (i * colsA + k) 0 * B.getD (k * colsB + j) 0) s) := by
  induction ks generalizing s with
  | nil => rfl
  | cons k ks ih =>
    obtain ⟨hk, hfA, hfB⟩ := hks k (List.mem_cons_self _ _)
    simp only [List.foldlM_cons, List.foldl_cons]
    rw [wrapInt_index i colsA k hfA, wrapInt_index k colsB j hfB, readAt_natCast,
      readAt_natCast, List.getElem?_eq_getElem hk.1, List.getElem?_eq_getElem hk.2]
    simp only [Option.bind_eq_bind, Option.some_bind, Option.pure_def] at ih ⊢
    rw [ih _ (fun k hk => hks k (List.mem_cons_of_mem _ hk))]
    simp [List.getD_eq_getElem, hk.1, hk.2]

theorem dotLoop_eq (A B : List α) (rowsA colsA colsB i j : Nat)
    (hA : rowsA * colsA ≤ A.length) (hB : colsA * colsB ≤ B.length)
    (hfA : rowsA * colsA < 2 ^ 31) (hfB : colsA * colsB < 2 ^ 31)
    (hi : i < rowsA) (hj : j < colsB) :
    dotLoop A B (colsA : Int) (colsB : Int) i j = some (dotSum A B colsA colsB i j) := by
  unfold dotLoop dotSum
  rw [Int.toNat_natCast]
  apply dotLoop_fold
  intro k hk
  rw [List.mem_range] at hk
  exact ⟨⟨lt_of_lt_of_le (index_lt_of_lt hi hk) hA, lt_of_lt_of_le (index_lt_of_lt hk hj) hB⟩,
    lt_trans (index_lt_of_lt hi hk) hfA, lt_trans (index_lt_of_lt hk hj) hfB⟩

/-- Invariant of the `j` loop of row `i`: after `n` iterations every cell
before `i * colsB + n` holds its final value. -/
theorem rowLoop_prefix (A B : List α) (rowsA colsA colsB i : Nat)
    (hA : rowsA * colsA ≤ A.length) (hB : colsA * colsB ≤ B.length)
    (hfA : rowsA * colsA < 2 ^ 31) (hfB : colsA * colsB < 2 ^ 31)
    (hfC : rowsA * colsB < 2 ^ 31) (hi : i < rowsA)
    (n : Nat) (hn : n ≤ colsB) (C : List α) (hlen : C.length = rowsA * colsB)
    (hC : ∀ idx, idx < i * colsB →
      C[idx]? = some (dotSum A B colsA colsB (idx / colsB) (idx % colsB))) :
    ∃ D, (List.range n).foldlM
        (fun C j => do
          let sum ← dotLoop A B (colsA : Int) (colsB : Int) i j
          writeAt C (wrapInt (wrapInt ((i : Int) * (colsB : Int)) + (j : Int))) sum) C = some D
      ∧ D.length = rowsA * colsB
      ∧ ∀ idx, idx < i * colsB + n →
          D[idx]? = some (dotSum A B colsA colsB (idx / colsB) (idx % colsB)) := by
  induction n with
  | zero => exact ⟨C, rfl, hlen, fun idx h => hC idx (by omega)⟩
  | succ n ih =>
    obtain ⟨D, hD, hDlen, hDval⟩ := ih (by omega)
    have hn' : n < colsB := by omega
    have hidx : i * colsB + n < D.length := hDlen ▸ index_lt_of_lt hi hn'
    have hfit : i * colsB + n < 2 ^ 31 := lt_trans (index_lt_of_lt hi hn') hfC
    refine ⟨D.set (i * colsB + n) (dotSum A B colsA colsB i n), ?_, ?_, ?_⟩
    · rw [List.range_succ, List.foldlM_append, hD]
      simp only [Option.bind_eq_bind, Option.some_bind, List.foldlM_cons, List.foldlM_nil,
        Option.pure_def, Option.bind_some]
      rw [dotLoop_eq A B rowsA colsA colsB i n hA hB hfA hfB hi hn', wrapInt_index i colsB n hfit]
      exact writeAt_natCast _ _ _ hidx
    · rw [List.length_set, hDlen]
    · intro idx h
      rw [List.getElem?_set]
      by_cases he : i * colsB + n = idx
      · subst he
        rw [if_pos rfl, if_pos hidx, (cell_div_mod hn').1, (cell_div_mod hn').2]
      · rw [if_neg he]
        exact hDval idx (by omega)

theorem rowLoop_eq (A B : List α) (rowsA colsA colsB i : Nat)
    (hA : rowsA * colsA ≤ A.length) (hB : colsA * colsB ≤ B.length)
    (hfA : rowsA * colsA < 2 ^ 31) (hfB : colsA * colsB < 2 ^ 31)
    (hfC : rowsA * colsB < 2 ^ 31) (hi : i < rowsA)
    (C : List α) (hlen : C.length = rowsA * colsB)
    (hC : ∀ idx, idx < i * colsB →
      C[idx]? = some (dotSum A B colsA colsB (idx / colsB) (idx % colsB))) :
    ∃ D, rowLoop A B (colsA : Int) (colsB : Int) i C = some D
      ∧ D.length = rowsA * colsB
      ∧ ∀ idx, idx < (i + 1) * colsB →
          D[idx]? = some (dotSum A B colsA colsB (idx / colsB) (idx % colsB)) := by
  have h := rowLoop_prefix A B rowsA colsA colsB i hA hB hfA hfB hfC hi colsB le_rfl C hlen hC
  unfold rowLoop
  rw [Int.toNat_natCast]
  rwa [show i * colsB + colsB = (i + 1) * colsB by ring] at h

/-- Invariant of the `i` loop: after `n` rows every cell before `n * colsB`
holds its final value. -/
theorem rowsLoop_prefix (A B : List α) (rowsA colsA colsB : Nat)
    (hA : rowsA * colsA ≤ A.length) (hB : colsA * colsB ≤ B.length)
    (hfA : rowsA * colsA < 2 ^ 31) (hfB : colsA * colsB < 2 ^ 31)
    (hfC : rowsA * colsB < 2 ^ 31)
    (n : Nat) (hn : n ≤ rowsA) (C : List α) (hlen : C.length = rowsA * colsB) :
    ∃ D, (List.range n).foldlM
        (fun C i => rowLoop A B (colsA : Int) (colsB : Int) i C) C = some D
      ∧ D.length = rowsA * colsB
      ∧ ∀ idx, idx < n * colsB →
          D[idx]? = some (dotSum A B colsA colsB (idx / colsB) (idx % colsB)) := by
  induction n with
  | zero => exact ⟨C, rfl, hlen, fun idx h => absurd h (by omega)⟩
  | succ n ih =>
    obtain ⟨D, hD, hDlen, hDval⟩ := ih (by omega)
    obtain ⟨E, hE, hElen, hEval⟩ :=
      rowLoop_eq A B rowsA colsA colsB n hA hB hfA hfB hfC (by omega) D hDlen hDval
    refine ⟨E, ?_, hElen, hEval⟩
    rw [List.range_succ, List.foldlM_append, hD]
    simp [hE]

/-- With `A` and `B` at least as long as the dimensions require and the
three products of the dimensions within the range of `int`, `multiplyCPU`
returns a vector of `rowsA * colsB` cells, and the cell at the flat index
`idx` is the sum for row `idx / colsB` and column `idx % colsB`. -/
theorem multiplyCPU_flat (A B : List α) (rowsA colsA colsB : Nat)
    (hA : rowsA * colsA ≤ A.length) (hB : colsA * colsB ≤ B.length)
    (hfA : rowsA * colsA < 2 ^ 31) (hfB : colsA * colsB < 2 ^ 31)
    (hfC : rowsA * colsB < 2 ^ 31) :
    ∃ C, multiplyCPU A B (rowsA : Int) (colsA : Int) (colsB : Int) = some C
      ∧ C.length = rowsA * colsB
      ∧ ∀ idx, idx < rowsA * colsB →
          C[idx]? = some (dotSum A B colsA colsB (idx / colsB) (idx % colsB)) := by
  obtain ⟨D, hD, hDlen, hDval⟩ :=
    rowsLoop_prefix A B rowsA colsA colsB hA hB hfA hfB hfC rowsA le_rfl
      (List.replicate (rowsA * colsB) 0) (List.length_replicate _ _)
  refine ⟨D, ?_, hDlen, hDval⟩
  unfold multiplyCPU
  have hsz : wrapInt ((rowsA : Int) * (colsB : Int)) = ((rowsA * colsB : Nat) : Int) := by
    rw [← Nat.cast_mul, wrapInt_natCast _ hfC]
  rw [hsz, if_neg (not_lt.mpr (Int.ofNat_nonneg _)), Int.toNat_natCast, Int.toNat_natCast]
  exact hD

end MultiplyCPUProofs

/-- C1 as stated fails: for the dimensions `65536 x 0` and `0 x 32768` with
empty `A` and `B` (of the stated lengths) the `int` product
`rowsC * colsC = 2^31` wraps to a negative number, the constructor of `C`
throws, and no vector of `rowsA * colsB` cells is returned. -/
theorem multiplyCPU_int_overflow :
    ([] : List Int).length = 65536 * 0 ∧ ([] : List Int).length = 0 * 32768 ∧
    multiplyCPU ([] : List Int) [] ((65536 : Nat) : Int) ((0 : Nat) : Int)
      ((32768 : Nat) : Int) = none :=
  ⟨rfl, rfl, by decide⟩

/-- C1 amended: for non-negative `rowsA`, `colsA`, `colsB` whose products
`rowsA * colsA`, `colsA * colsB` and `rowsA * colsB` are within the range of
`int` (below `2^31`), `A` of length `rowsA * colsA` and `B` of length
`colsA * colsB`, `multiplyCPU` returns a vector of length `rowsA * colsB`
whose element at `i * colsB + j` is the sum of `A[i*colsA+k] * B[k*colsB+j]`
accumulated from `0` for `k = 0, ..., colsA-1` in increasing order. -/
theorem multiplyCPU_spec {α : Type u} [Zero α] [Add α] [Mul α] (A B : List α)
    (rowsA colsA colsB : Nat)
    (hA : A.length = rowsA * colsA) (hB : B.length = colsA * colsB)
    (hfA : rowsA * colsA < 2 ^ 31) (hfB : colsA * colsB < 2 ^ 31)
    (hfC : rowsA * colsB < 2 ^ 31) :
    ∃ C, multiplyCPU A B (rowsA : Int) (colsA : Int) (colsB : Int) = some C
      ∧ C.length = rowsA * colsB
      ∧ ∀ i j, i < rowsA → j < colsB →
          C[i * colsB + j]? =
            some ((List.range colsA).foldl
              (fun sum k => sum + A.getD (i * colsA + k) 0 * B.getD (k * colsB + j) 0) 0) := by
  obtain ⟨C, hC, hlen, hcells⟩ :=
    multiplyCPU_flat A B rowsA colsA colsB hA.ge hB.ge hfA hfB hfC
  refine ⟨C, hC, hlen, fun i j hi hj => ?_⟩
  have h := hcells (i * colsB + j) (index_lt_of_lt hi hj)
  rw [(cell_div_mod hj).1, (cell_div_mod hj).2] at h
  exact h

theorem multiplyCPU_spec_witness :
    ([1, 2, 3, 4] : List Int).length = 2 * 2 ∧ ([5, 6, 7, 8] : List Int).length = 2 * 2 ∧
    2 * 2 < 2 ^ 31 ∧
    ∃ C, multiplyCPU ([1, 2, 3, 4] : List Int) [5, 6, 7, 8] ((2 : Nat) : Int) ((2 : Nat) : Int)
          ((2 : Nat) : Int) = some C
      ∧ C.length = 2 * 2
      ∧ ∀ i j, i < 2 → j < 2 →
          C[i * 2 + j]? =
            some ((List.range 2).foldl
              (fun sum k => sum + ([1, 2, 3, 4] : List Int).getD (i * 2 + k) 0
                * ([5, 6, 7, 8] : List Int).getD (k * 2 + j) 0) 0) :=
  ⟨by decide, by decide, by decide,
    multiplyCPU_spec [1, 2, 3, 4] [5, 6, 7, 8] 2 2 2 (by decide) (by decide) (by decide)
      (by decide) (by decide)⟩

/-! ## Comparison helpers and CPU activation functions -/

section ElementwiseProofs

variable {α : Type u}

theorem compareLoop_eq_true_iff [LinearOrderedAddCommGroup α] (A B : List α) (tol : α) :
    compareLoop A B tol = true ↔
      A.length = B.length ∧
        ∀ i (hA : i < A.length) (hB : i < B.length), |A[i] - B[i]| ≤ tol := by
  unfold compareLoop
  by_cases hlen : A.length = B.length
  · rw [if_neg (not_not.mpr hlen)]
    simp only [FloatCompare.gt, FloatCompare.absDiff, List.all_eq_true, List.mem_range,
      Bool.not_eq_true', decide_eq_false_iff_not, not_lt]
    constructor
    · intro h
      refine ⟨hlen, fun i hA hB => ?_⟩
      have := h i hA
      rwa [List.getD_eq_getElem _ _ hA, List.getD_eq_getElem _ _ hB] at this
    · intro h i hA
      have hB : i < B.length := hlen ▸ hA
      rw [List.getD_eq_getElem _ _ hA, List.getD_eq_getElem _ _ hB]
      exact h.2 i hA hB
  · simp [hlen]

theorem foldl_set_getElem? (g : Nat → α) (init : List α) (n k : Nat) (hn : n ≤ init.length) :
    ((List.range n).foldl (fun output i => output.set i (g i)) init)[k]? =
      if k < n then some (g k) else init[k]? := by
  induction n with
  | zero => simp
  | succ n ih =>
    have hlen : ∀ m, ((List.range m).foldl (fun output i => output.set i (g i)) init).length
        = init.length := by
      intro m
      induction m with
      | zero => simp
      | succ m ihm => rw [List.range_succ, List.foldl_append]; simpa using ihm
    rw [List.range_succ, List.foldl_append, List.foldl_cons, List.foldl_nil, List.getElem?_set,
      hlen n, ih (by omega)]
    by_cases hk : n = k
    · subst hk
      simp [show n < init.length by omega]
    · rw [if_neg hk]
      by_cases hk' : k < n
      · simp [hk', show k < n + 1 by omega]
      · simp [hk', show ¬ k < n + 1 by omega]

theorem elementwise_eq_map [Zero α] (f : α → α) (input : List α) :
    elementwise f input = input.map f := by
  apply List.ext_getElem?
  intro k
  unfold elementwise
  rw [foldl_set_getElem? (fun i => f (input.getD i 0)) _ input.length k (by simp)]
  by_cases hk : k < input.length
  · simp [hk, List.getD_eq_getElem, List.getElem?_eq_getElem]
  · have hk' : input.length ≤ k := not_lt.mp hk
    rw [if_neg hk, List.getElem?_eq_none (by simpa using hk'),
      List.getElem?_eq_none (by simpa using hk')]

theorem stdMax_zero_eq_max [Zero α] [LinearOrder α] (x : α) : stdMax 0 x = max 0 x := by
  unfold stdMax
  by_cases h : (0 : α) < x
  · rw [if_pos h, max_eq_right h.le]
  · rw [if_neg h, max_eq_left (not_lt.mp h)]

end ElementwiseProofs

/-- C3: `compareVectors(A, B, tol)` is false when the sizes of `A` and `B`
differ, false when some pair of elements at the same index has
`|A[i] - B[i]| > tol`, and true in every other case. -/
theorem compareVectors_eq_false_iff {α : Type u} [LinearOrderedAddCommGroup α]
    (A B : List α) (tol : α) :
    (compareVectors A B tol = false ↔
      A.length ≠ B.length ∨
        ∃ i, ∃ (hA : i < A.length) (hB : i < B.length), tol < |A[i] - B[i]|) ∧
    (compareVectors A B tol = true ↔
      ¬ (A.length ≠ B.length ∨
        ∃ i, ∃ (hA : i < A.length) (hB : i < B.length), tol < |A[i] - B[i]|)) := by
  have key : compareVectors A B tol = true ↔
      ¬ (A.length ≠ B.length ∨
        ∃ i, ∃ (hA : i < A.length) (hB : i < B.length), tol < |A[i] - B[i]|) := by
    unfold compareVectors
    rw [compareLoop_eq_true_iff]
    push_neg
    rfl
  refine ⟨?_, key⟩
  rw [← Bool.not_eq_true, key, not_not]

/-- C4: `reluCPU(x)` has the length of `x` and its `i`-th element is
`max(0, x[i])`; on `[-2, -1, 0, 1, 2]` it gives `[0, 0, 0, 1, 2]`. -/
theorem reluCPU_spec {α : Type u} [LinearOrderedRing α] (x : List α) :
    (reluCPU x).length = x.length ∧
    (∀ i (h : i < x.length), (reluCPU x)[i]? = some (max 0 x[i])) ∧
    reluCPU ([-2, -1, 0, 1, 2] : List α) = [0, 0, 0, 1, 2] := by
  have hmap : ∀ y : List α, reluCPU y = y.map (fun v => max 0 v) := by
    intro y
    unfold reluCPU
    rw [elementwise_eq_map]
    exact List.map_congr_left (fun v _ => stdMax_zero_eq_max v)
  refine ⟨by rw [hmap, List.length_map], fun i h => ?_, ?_⟩
  · rw [hmap, List.getElem?_map, List.getElem?_eq_getElem h, Option.map_some']
  · rw [hmap]
    simp

/-! ## Sigmoid and tanh over the real numbers -/

theorem exp_one_bounds : (2.7182 : ℝ) < Real.exp 1 ∧ Real.exp 1 < 2.7183 :=
  ⟨lt_trans (by norm_num) Real.exp_one_gt_d9, lt_trans Real.exp_one_lt_d9 (by norm_num)⟩

theorem exp_two_bounds : (7.3886 : ℝ) < Real.exp 2 ∧ Real.exp 2 < 7.3892 := by
  have h2 : Real.exp 2 = Real.exp 1 * Real.exp 1 := by
    rw [← Real.exp_add]; norm_num
  obtain ⟨hl, hu⟩ := exp_one_bounds
  rw [h2]
  constructor <;> nlinarith

theorem exp_four_bounds : (54.59 : ℝ) < Real.exp 4 ∧ Real.exp 4 < 54.61 := by
  have h4 : Real.exp 4 = Real.exp 2 * Real.exp 2 := by
    rw [← Real.exp_add]; norm_num
  obtain ⟨hl, hu⟩ := exp_two_bounds
  rw [h4]
  constructor <;> nlinarith

/-- Bounds on `1 / (1 + y)` from bounds on `y`. -/
theorem inv_one_add_bounds {y lo hi c : ℝ} (hy0 : 0 < y) (hlo : lo < y) (hhi : y < hi)
    (h1 : (c - 0.0005) * (1 + hi) ≤ 1) (h2 : 1 ≤ (c + 0.0005) * (1 + lo))
    (hc : 0 ≤ c - 0.0005) :
    |1 / (1 + y) - c| ≤ 0.0005 := by
  have hpos : 0 < 1 + y := by linarith
  rw [abs_le]
  constructor
  · have : c - 0.0005 ≤ 1 / (1 + y) := by
      rw [le_div_iff₀ hpos]
      nlinarith
    linarith
  · have : 1 / (1 + y) ≤ c + 0.0005 := by
      rw [div_le_iff₀ hpos]
      nlinarith
    linarith

/-- Bounds on `y / (1 + y)`, which is `1 / (1 + y⁻¹)`, from bounds on `y`. -/
theorem inv_one_add_inv_bounds {y lo hi c : ℝ} (hy0 : 0 < y) (hlo : lo < y) (hhi : y < hi)
    (h1 : (c - 0.0005) * (1 + lo) ≤ lo) (h2 : hi ≤ (c + 0.0005) * (1 + hi))
    (hc : c + 0.0005 ≤ 1) :
    |1 / (1 + y⁻¹) - c| ≤ 0.0005 := by
  have hpos : 0 < 1 + y := by linarith
  have hsum : 1 + y⁻¹ = (1 + y) / y := by
    field_simp
    ring
  have hrw : 1 / (1 + y⁻¹) = y / (1 + y) := by
    rw [hsum, one_div_div]
  rw [hrw, abs_le]
  constructor
  · have : c - 0.0005 ≤ y / (1 + y) := by
      rw [le_div_iff₀ hpos]
      nlinarith [mul_nonneg (sub_nonneg.mpr hlo.le) (show (0 : ℝ) ≤ 1 - (c - 0.0005) by linarith)]
    linarith
  · have : y / (1 + y) ≤ c + 0.0005 := by
      rw [div_le_iff₀ hpos]
      nlinarith [mul_nonneg (sub_nonneg.mpr hhi.le) (show (0 : ℝ) ≤ 1 - (c + 0.0005) by linarith)]
    linarith

theorem tanh_eq_exp (x : ℝ) :
    Real.tanh x = (Real.exp x - Real.exp (-x)) / (Real.exp x + Real.exp (-x)) := by
  rw [Real.tanh_eq_sinh_div_cosh, Real.sinh_eq, Real.cosh_eq]
  have h : Real.exp x + Real.exp (-x) ≠ 0 := by positivity
  field_simp

/-- Bounds on `tanh x` from bounds on `y = exp (2 x)`. -/
theorem tanh_bounds {x y lo hi c : ℝ} (hy : y = Real.exp (2 * x)) (hlo : lo < y) (hhi : y < hi)
    (hlo0 : 0 < lo)
    (h1 : (c - 0.0005) * (lo + 1) ≤ lo - 1) (h2 : hi - 1 ≤ (c + 0.0005) * (hi + 1))
    (hc : c + 0.0005 ≤ 1) :
    |Real.tanh x - c| ≤ 0.0005 := by
  have hy0 : 0 < y := lt_trans hlo0 hlo
  have hrw : Real.tanh x = (y - 1) / (y + 1) := by
    rw [tanh_eq_exp, hy, Real.exp_neg]
    have hx : Real.exp (2 * x) = Real.exp x * Real.exp x := by
      rw [← Real.exp_add]; ring_nf
    rw [hx]
    have hex : Real.exp x ≠ 0 := (Real.exp_pos x).ne.symm
    field_simp
  have hpos : 0 < y + 1 := by linarith
  rw [hrw, abs_le]
  constructor
  · have : c - 0.0005 ≤ (y - 1) / (y + 1) := by
      rw [le_div_iff₀ hpos]
      nlinarith [mul_nonneg (sub_nonneg.mpr hlo.le) (show (0 : ℝ) ≤ 1 - (c - 0.0005) by linarith)]
    linarith
  · have : (y - 1) / (y + 1) ≤ c + 0.0005 := by
      rw [div_le_iff₀ hpos]
      nlinarith [mul_nonneg (sub_nonneg.mpr hhi.le) (show (0 : ℝ) ≤ 1 - (c + 0.0005) by linarith)]
    linarith

/-- C5: with `std::exp` read as the real exponential, `sigmoidCPU` maps every
element `x` to `1 / (1 + e^(-x))` and keeps the length; on `[-2, -1, 0, 1, 2]`
the element for `0` is exactly `0.5` and the other four are within `0.0005`
of `0.119`, `0.269`, `0.731` and `0.881`. -/
theorem sigmoidCPU_spec :
    (∀ input : List ℝ,
      sigmoidCPU Real.exp input = input.map (fun x => 1 / (1 + Real.exp (-x))) ∧
      (sigmoidCPU Real.exp input).length = input.length) ∧
    ∃ a b c d : ℝ, sigmoidCPU Real.exp [-2, -1, 0, 1, 2] = [a, b, 0.5, c, d] ∧
      |a - 0.119| ≤ 0.0005 ∧ |b - 0.269| ≤ 0.0005 ∧
      |c - 0.731| ≤ 0.0005 ∧ |d - 0.881| ≤ 0.0005 := by
  have hmap : ∀ input : List ℝ,
      sigmoidCPU Real.exp input = input.map (fun x => 1 / (1 + Real.exp (-x))) :=
    fun input => elementwise_eq_map _ input
  refine ⟨fun input => ⟨hmap input, by rw [hmap, List.length_map]⟩, ?_⟩
  obtain ⟨h1l, h1u⟩ := exp_one_bounds
  obtain ⟨h2l, h2u⟩ := exp_two_bounds
  refine ⟨1 / (1 + Real.exp 2), 1 / (1 + Real.exp 1), 1 / (1 + (Real.exp 1)⁻¹),
    1 / (1 + (Real.exp 2)⁻¹), ?_, ?_, ?_, ?_, ?_⟩
  · rw [hmap]
    simp only [List.map_cons, List.map_nil, neg_neg, neg_zero, Real.exp_zero, Real.exp_neg]
    norm_num
  · exact inv_one_add_bounds (Real.exp_pos 2) h2l h2u (by norm_num) (by norm_num) (by norm_num)
  · exact inv_one_add_bounds (Real.exp_pos 1) h1l h1u (by norm_num) (by norm_num) (by norm_num)
  · exact inv_one_add_inv_bounds (Real.exp_pos 1) h1l h1u (by norm_num) (by norm_num)
      (by norm_num)
  · exact inv_one_add_inv_bounds (Real.exp_pos 2) h2l h2u (by norm_num) (by norm_num)
      (by norm_num)

/-- C6: with `std::tanh` read as the real hyperbolic tangent, `tanhCPU` maps
every element `x` to `tanh x = (e^x - e^(-x)) / (e^x + e^(-x))` and keeps the
length; on `[-2, -1, 0, 1, 2]` the element for `0` is exactly `0` and the
other four are within `0.0005` of `-0.964`, `-0.762`, `0.762` and `0.964`. -/
theorem tanhCPU_spec :
    (∀ input : List ℝ,
      tanhCPU Real.tanh input
        = input.map (fun x => (Real.exp x - Real.exp (-x)) / (Real.exp x + Real.exp (-x))) ∧
      (tanhCPU Real.tanh input).length = input.length) ∧
    ∃ a b c d : ℝ, tanhCPU Real.tanh [-2, -1, 0, 1, 2] = [a, b, 0, c, d] ∧
      |a - (-0.964)| ≤ 0.0005 ∧ |b - (-0.762)| ≤ 0.0005 ∧
      |c - 0.762| ≤ 0.0005 ∧ |d - 0.964| ≤ 0.0005 := by
  have hmap : ∀ input : List ℝ, tanhCPU Real.tanh input = input.map Real.tanh :=
    fun input => elementwise_eq_map _ input
  have h1 : |Real.tanh 1 - 0.762| ≤ 0.0005 :=
    tanh_bounds (by norm_num) exp_two_bounds.1 exp_two_bounds.2 (by norm_num)
      (by norm_num) (by norm_num) (by norm_num)
  have h2 : |Real.tanh 2 - 0.964| ≤ 0.0005 :=
    tanh_bounds (by norm_num) exp_four_bounds.1 exp_four_bounds.2 (by norm_num)
      (by norm_num) (by norm_num) (by norm_num)
  refine ⟨fun input => ⟨?_, by rw [hmap, List.length_map]⟩, ?_⟩
  · rw [hmap]
    exact List.map_congr_left (fun x _ => tanh_eq_exp x)
  · refine ⟨Real.tanh (-2), Real.tanh (-1), Real.tanh 1, Real.tanh 2, ?_, ?_, ?_, h1, h2⟩
    · rw [hmap]
      simp only [List.map_cons, List.map_nil, Real.tanh_zero]
    · rw [Real.tanh_neg, ← abs_neg]
      simpa [sub_eq_add_neg, add_comm] using h2
    · rw [Real.tanh_neg, ← abs_neg]
      simpa [sub_eq_add_neg, add_comm] using h1

/-! ## `readKernelSource` and `checkOpenCLError` -/

theorem lastIndexOf_none {c : Char} {l : List Char} (h : lastIndexOf c l = none) : c ∉ l := by
  induction l with
  | nil => simp
  | cons x xs ih =>
    unfold lastIndexOf at h
    cases hxs : lastIndexOf c xs with
    | some i => rw [hxs] at h; simp at h
    | none =>
      rw [hxs] at h
      by_cases hx : x = c
      · simp [hx] at h
      · intro hmem
        rcases List.mem_cons.mp hmem with h1 | h1
        · exact hx h1.symm
        · exact ih hxs h1

theorem lastIndexOf_some {c : Char} {l : List Char} {i : Nat} (h : lastIndexOf c l = some i) :
    ∃ dir base, l = dir ++ c :: base ∧ c ∉ base ∧ dir.length = i := by
  induction l generalizing i with
  | nil => simp [lastIndexOf] at h
  | cons x xs ih =>
    unfold lastIndexOf at h
    cases hxs : lastIndexOf c xs with
    | some j =>
      rw [hxs] at h
      obtain ⟨dir, base, hl, hbase, hlen⟩ := ih hxs
      refine ⟨x :: dir, base, by rw [hl]; rfl, hbase, ?_⟩
      simp only [Option.some.injEq] at h
      rw [List.length_cons, hlen, h]
    | none =>
      rw [hxs] at h
      by_cases hx : x = c
      · simp only [hx, if_true, Option.some.injEq] at h
        exact ⟨[], xs, by rw [hx]; rfl, lastIndexOf_none hxs, by simpa using h⟩
      · simp [hx] at h

theorem kernelBaseName_spec (filename : String) (hsize : filename.length < npos) :
    (∃ dir : List Char, filename.data = dir ++ '/' :: (kernelBaseName filename).data ∧
        '/' ∉ (kernelBaseName filename).data) ∨
      ('/' ∉ filename.data ∧ kernelBaseName filename = filename) := by
  unfold kernelBaseName find_last_of substr
  cases h : lastIndexOf '/' filename.data with
  | none =>
    right
    refine ⟨lastIndexOf_none h, ?_⟩
    simp [npos]
  | some i =>
    left
    obtain ⟨dir, base, hl, hbase, hlen⟩ := lastIndexOf_some h
    have hi : i + 1 < 2 ^ 64 := by
      have h1 : filename.length = filename.data.length := rfl
      rw [h1, hl, List.length_append, List.length_cons, hlen] at hsize
      unfold npos at hsize
      omega
    have hdrop : List.drop (i + 1) filename.data = base := by
      rw [hl, ← hlen, show dir ++ '/' :: base = (dir ++ ['/']) ++ base by simp,
        show dir.length + 1 = (dir ++ ['/']).length by simp, List.drop_left]
    simp only [Option.getD_some, Nat.mod_eq_of_lt hi, hdrop]
    exact ⟨dir, hl, hbase⟩

/-- C7: `readKernelSource(filename)` searches the five candidates
`filename`, `"../" + filename`, `"../../" + filename`, `"kernels/" + base`,
`"../kernels/" + base` in this order, `base` being what follows the last
`/` of `filename` (all of it when there is no `/`), and returns the content
of the first candidate that opens; so it succeeds when only the candidate
two directories up opens. -/
theorem readKernelSource_first_openable (fs : FileSystem) (filename : String)
    (hsize : filename.length < npos) :
    (∃ base : String,
      searchPaths filename =
        [filename, "../" ++ filename, "../../" ++ filename, "kernels/" ++ base,
          "../kernels/" ++ base] ∧
      ((∃ dir : List Char, filename.data = dir ++ '/' :: base.data ∧ '/' ∉ base.data) ∨
        ('/' ∉ filename.data ∧ base = filename))) ∧
    (∀ (before after : List String) (path content : String),
      searchPaths filename = before ++ path :: after →
      (∀ q ∈ before, fs q = none) → fs path = some content →
      readKernelSource fs filename = .ok content) ∧
    (∀ content : String,
      (∀ q ∈ searchPaths filename, q ≠ "../../" ++ filename → fs q = none) →
      fs ("../../" ++ filename) = some content →
      readKernelSource fs filename = .ok content) := by
  have first : ∀ (before after : List String) (path content : String),
      searchPaths filename = before ++ path :: after →
      (∀ q ∈ before, fs q = none) → fs path = some content →
      readKernelSource fs filename = .ok content := by
    intro before after path content hsplit hbefore hpath
    unfold readKernelSource
    rw [hsplit, List.findSome?_append, List.findSome?_eq_none_iff.mpr hbefore,
      List.findSome?_cons, hpath]
    rfl
  refine ⟨⟨kernelBaseName filename, rfl, kernelBaseName_spec filename hsize⟩, first, ?_⟩
  intro content habsent hup
  by_cases h0 : filename = "../../" ++ filename
  · exact first [] _ filename content rfl (by simp) (h0 ▸ hup)
  · by_cases h1 : "../" ++ filename = "../../" ++ filename
    · refine first [filename] _ ("../" ++ filename) content rfl ?_ (h1 ▸ hup)
      intro q hq
      rw [List.mem_singleton] at hq
      subst hq
      exact habsent _ (by simp [searchPaths]) h0
    · refine first [filename, "../" ++ filename] _ ("../../" ++ filename) content rfl ?_ hup
      intro q hq
      simp only [List.mem_cons, List.mem_singleton, List.not_mem_nil, or_false] at hq
      rcases hq with hq | hq
      · subst hq; exact habsent _ (by simp [searchPaths]) h0
      · subst hq; exact habsent _ (by simp [searchPaths]) h1

theorem readKernelSource_first_openable_witness :
    ("kernels/matrix_ops.cl" : String).length < npos ∧
    readKernelSource
        (fun p => if p = "../../kernels/matrix_ops.cl" then some "__kernel" else none)
        "kernels/matrix_ops.cl" = .ok "__kernel" :=
  ⟨by decide,
    (readKernelSource_first_openable
      (fun p => if p = "../../kernels/matrix_ops.cl" then some "__kernel" else none)
      "kernels/matrix_ops.cl" (by decide)).2.1
      ["kernels/matrix_ops.cl", "../kernels/matrix_ops.cl"]
      ["kernels/matrix_ops.cl", "../kernels/matrix_ops.cl"]
      "../../kernels/matrix_ops.cl" "__kernel" (by decide) (by decide) (by decide)⟩

/-- C8 as stated fails: for the file name `k.cl` absent from every search
path, the message of the error does not name the attempted path `../k.cl`. -/
theorem readKernelSource_error_omits_paths :
    ¬ (∀ msg : String,
        readKernelSource (fun _ => none) "k.cl" = .error (.runtime_error msg) →
        ∀ p ∈ searchPaths "k.cl", Names msg p) := by
  intro h
  have h1 := h _ rfl "../k.cl" (by decide)
  revert h1
  unfold Names
  decide

/-- C8 amended: when no search path opens, `readKernelSource(filename)`
fails with the message `"Could not open kernel file: " + filename +
" (tried multiple paths)"`, which names the file name that was asked for. -/
theorem readKernelSource_absent (fs : FileSystem) (filename : String)
    (habsent : ∀ p ∈ searchPaths filename, fs p = none) :
    readKernelSource fs filename =
        .error (.runtime_error
          ("Could not open kernel file: " ++ filename ++ " (tried multiple paths)")) ∧
      Names ("Could not open kernel file: " ++ filename ++ " (tried multiple paths)")
        filename := by
  constructor
  · unfold readKernelSource
    rw [List.findSome?_eq_none_iff.mpr habsent]
  · unfold Names
    simp only [String.data_append]
    exact List.infix_append _ _ _

theorem readKernelSource_absent_witness :
    (∀ p ∈ searchPaths "k.cl", (fun _ => none : FileSystem) p = none) ∧
    readKernelSource (fun _ => none) "k.cl" =
        .error (.runtime_error "Could not open kernel file: k.cl (tried multiple paths)") ∧
      Names "Could not open kernel file: k.cl (tried multiple paths)" "k.cl" :=
  ⟨fun _ _ => rfl, readKernelSource_absent (fun _ => none) "k.cl" (fun _ _ => rfl)⟩

/-- C9: `checkOpenCLError(e, op)` throws exactly when `e` is not the success
status `0`, and then the message is `"OpenCL error in " + op + ": "` followed
by `e` in decimal, which contains the operation name. -/
theorem checkOpenCLError_spec (e : Int) (op : String) :
    ((∃ exc, checkOpenCLError e op = .error exc) ↔ e ≠ 0) ∧
    (e ≠ 0 → checkOpenCLError e op =
      .error (.runtime_error ("OpenCL error in " ++ op ++ ": " ++ toString e))) ∧
    Names ("OpenCL error in " ++ op ++ ": " ++ toString e) op ∧
    checkOpenCLError (-30) "Setting kernel argument 0" =
      .error (.runtime_error "OpenCL error in Setting kernel argument 0: -30") := by
  refine ⟨?_, ?_, ?_, rfl⟩
  · unfold checkOpenCLError CL_SUCCESS
    by_cases h : e = 0
    · simp [h]
    · simp [h]
  · intro h
    unfold checkOpenCLError CL_SUCCESS
    rw [if_pos h]
  · unfold Names
    simp only [String.data_append]
    exact ⟨"OpenCL error in ".data, ": ".data ++ (toString e).data, by simp⟩

theorem checkOpenCLError_spec_witness :
    (-5 : Int) ≠ 0 ∧
    checkOpenCLError (-5) "Creating buffer" =
      .error (.runtime_error "OpenCL error in Creating buffer: -5") :=
  ⟨by decide, (checkOpenCLError_spec (-5) "Creating buffer").2.1 (by decide)⟩

/-! ## Fail-fast discipline of the GPU dispatch operations -/

section DispatchProofs

variable {α : Type} {β γ : Type}

theorem conforms_cons_unchecked {dev : Device α} {t0 s : List (Entry α)} {e : Entry α}
    {o : Option Exception} (h : e.check = none) :
    Conforms dev t0 (e :: s) o ↔ e.call.isRelease = true ∧ Conforms dev (t0 ++ [e]) s o := by
  simp only [Conforms, h]

theorem conforms_cons_checked {dev : Device α} {t0 s : List (Entry α)} {e : Entry α}
    {o : Option Exception} {op : String} (h : e.check = some op) :
    Conforms dev t0 (e :: s) o ↔
      if dev.status t0 e.call = CL_SUCCESS then Conforms dev (t0 ++ [e]) s o
      else
        o = some (.runtime_error
          ("OpenCL error in " ++ op ++ ": " ++ toString (dev.status t0 e.call))) ∧
        ∀ e' ∈ s, e'.check = none ∧ e'.call.isRelease = true := by
  simp only [Conforms, h]

/-- A conforming trace that has not failed continues with its tail in the
extended context. -/
theorem conforms_tail {dev : Device α} {t0 s : List (Entry α)} {e : Entry α}
    (h : Conforms dev t0 (e :: s) none) : Conforms dev (t0 ++ [e]) s none := by
  cases hc : e.check with
  | none => exact ((conforms_cons_unchecked hc).mp h).2
  | some op =>
    have h1 := (conforms_cons_checked hc).mp h
    by_cases hs : dev.status t0 e.call = CL_SUCCESS
    · rwa [if_pos hs] at h1
    · rw [if_neg hs] at h1
      exact absurd h1.1 (by simp)

theorem conforms_append {dev : Device α} (s1 : List (Entry α)) :
    ∀ (t0 s2 : List (Entry α)) (o : Option Exception),
      Conforms dev t0 s1 none → Conforms dev (t0 ++ s1) s2 o →
      Conforms dev t0 (s1 ++ s2) o := by
  induction s1 with
  | nil => intro t0 s2 o _ h2; simpa using h2
  | cons e s1 ih =>
    intro t0 s2 o h1 h2
    have htail := conforms_tail h1
    have h2' : Conforms dev (t0 ++ [e] ++ s1) s2 o := by simpa using h2
    have hrec := ih (t0 ++ [e]) s2 o htail h2'
    rw [List.cons_append]
    cases hc : e.check with
    | none =>
      exact (conforms_cons_unchecked hc).mpr ⟨((conforms_cons_unchecked hc).mp h1).1, hrec⟩
    | some op =>
      have h3 := (conforms_cons_checked hc).mp h1
      by_cases hs : dev.status t0 e.call = CL_SUCCESS
      · rw [conforms_cons_checked hc, if_pos hs]
        exact hrec
      · rw [if_neg hs] at h3
        exact absurd h3.1 (by simp)

theorem conforms_release {dev : Device α} (s : List (Entry α)) :
    ∀ (t0 : List (Entry α)) (o : Option Exception) (b : Nat),
      Conforms dev t0 s o → Conforms dev t0 (s ++ [⟨.releaseMemObject b, none⟩]) o := by
  induction s with
  | nil =>
    intro t0 o b h
    have ho : o = none := h
    subst ho
    exact (conforms_cons_unchecked rfl).mpr ⟨rfl, rfl⟩
  | cons e s ih =>
    intro t0 o b h
    rw [List.cons_append]
    cases hc : e.check with
    | none =>
      have h1 := (conforms_cons_unchecked hc).mp h
      exact (conforms_cons_unchecked hc).mpr ⟨h1.1, ih _ _ _ h1.2⟩
    | some op =>
      have h1 := (conforms_cons_checked hc).mp h
      rw [conforms_cons_checked hc]
      by_cases hs : dev.status t0 e.call = CL_SUCCESS
      · rw [if_pos hs] at h1 ⊢
        exact ih _ _ _ h1
      · rw [if_neg hs] at h1 ⊢
        refine ⟨h1.1, fun e' he' => ?_⟩
        rcases List.mem_append.mp he' with hmem | hmem
        · exact h1.2 e' hmem
        · rw [List.mem_singleton] at hmem
          subst hmem
          exact ⟨rfl, rfl⟩

theorem gpu_bind_run (m : Gpu α β) (f : β → Gpu α γ) (dev : Device α) (t : List (Entry α)) :
    (m >>= f) dev t =
      match m dev t with
      | (.ok x, t1) => f x dev t1
      | (.error e, t1) => (.error e, t1) := rfl

theorem disciplined_pure (x : β) : Disciplined (pure x : Gpu α β) :=
  fun _ t0 => ⟨[], (List.append_nil t0).symm, rfl⟩

theorem disciplined_bind {m : Gpu α β} {f : β → Gpu α γ} (hm : Disciplined m)
    (hf : ∀ x, Disciplined (f x)) : Disciplined (m >>= f) := by
  intro dev t0
  obtain ⟨s1, ht1, hc1⟩ := hm dev t0
  rw [gpu_bind_run]
  rcases hrun : m dev t0 with ⟨r, t1⟩
  rw [hrun] at ht1 hc1
  simp only at ht1 hc1
  subst ht1
  cases r with
  | error e => exact ⟨s1, rfl, hc1⟩
  | ok x =>
    obtain ⟨s2, ht2, hc2⟩ := hf x dev (t0 ++ s1)
    refine ⟨s1 ++ s2, ?_, conforms_append s1 t0 s2 _ hc1 hc2⟩
    simp only [ht2, List.append_assoc]

theorem conforms_checkedCall (dev : Device α) (t0 : List (Entry α)) (c : ApiCall α)
    (op : String) :
    Conforms dev t0 [⟨c, some op⟩] (errorOf (checkOpenCLError (dev.status t0 c) op)) := by
  rw [conforms_cons_checked rfl]
  by_cases hs : dev.status t0 c = CL_SUCCESS
  · rw [if_pos hs]
    simp [checkOpenCLError, hs, errorOf, Conforms]
  · rw [if_neg hs]
    simp [checkOpenCLError, hs, errorOf]

theorem disciplined_checkedCall (c : ApiCall α) (op : String) :
    Disciplined (checkedCall c op) :=
  fun dev t0 => ⟨[⟨c, some op⟩], rfl, conforms_checkedCall dev t0 c op⟩

theorem disciplined_create (size : Nat) (flags : MemFlags) :
    Disciplined (OpenCLBuffer.create size flags : Gpu α OpenCLBuffer) := by
  intro dev t0
  refine ⟨[⟨.createBuffer flags size, some "Creating buffer"⟩], ?_, ?_⟩
  · unfold OpenCLBuffer.create checkedCall
    cases checkOpenCLError (dev.status t0 (.createBuffer flags size)) "Creating buffer" <;> rfl
  · have h := conforms_checkedCall dev t0 (.createBuffer flags size) "Creating buffer"
    unfold OpenCLBuffer.create checkedCall
    cases hr : checkOpenCLError (dev.status t0 (.createBuffer flags size)) "Creating buffer" <;>
      rw [hr] at h <;> exact h

theorem disciplined_readData (b : OpenCLBuffer) (count offset : Nat) :
    Disciplined (b.readData count offset : Gpu α (List α)) := by
  intro dev t0
  refine ⟨[⟨.enqueueReadBuffer b.buffer offset (sizeTSub b.size offset),
    some "Reading buffer data"⟩], ?_, ?_⟩
  · unfold OpenCLBuffer.readData checkedCall
    cases checkOpenCLError (dev.status t0
      (.enqueueReadBuffer b.buffer offset (sizeTSub b.size offset))) "Reading buffer data" <;> rfl
  · have h := conforms_checkedCall dev t0
      (.enqueueReadBuffer b.buffer offset (sizeTSub b.size offset)) "Reading buffer data"
    unfold OpenCLBuffer.readData checkedCall
    cases hr : checkOpenCLError (dev.status t0
      (.enqueueReadBuffer b.buffer offset (sizeTSub b.size offset))) "Reading buffer data" <;>
      rw [hr] at h <;> exact h

theorem disciplined_writeData (b : OpenCLBuffer) (data : List α) (offset : Nat) :
    Disciplined (b.writeData data offset) :=
  disciplined_checkedCall _ _

theorem disciplined_scoped (size : Nat) (flags : MemFlags) {body : OpenCLBuffer → Gpu α β}
    (hbody : ∀ b, Disciplined (body b)) :
    Disciplined (OpenCLBuffer.scoped size flags body) := by
  intro dev t0
  obtain ⟨s1, ht1, hc1⟩ := disciplined_create size flags dev t0
  unfold OpenCLBuffer.scoped
  rcases hrun : (OpenCLBuffer.create size flags : Gpu α OpenCLBuffer) dev t0 with ⟨r, t1⟩
  rw [hrun] at ht1 hc1
  simp only at ht1 hc1
  subst ht1
  cases r with
  | error e => exact ⟨s1, rfl, hc1⟩
  | ok b =>
    obtain ⟨s2, ht2, hc2⟩ := hbody b dev (t0 ++ s1)
    refine ⟨s1 ++ (s2 ++ [⟨.releaseMemObject b.buffer, none⟩]), ?_, ?_⟩
    · simp only [OpenCLBuffer.destroy, ht2, List.append_assoc]
    · exact conforms_append s1 t0 _ _ hc1 (conforms_release s2 _ _ _ hc2)

end DispatchProofs

section FailFastProofs

variable {α : Type} {β : Type}

theorem conforms_no_failure {dev : Device α} (s : List (Entry α)) :
    ∀ (t0 : List (Entry α)), Conforms dev t0 s none →
      ∀ n e op, s[n]? = some e → e.check = some op →
        dev.status (t0 ++ s.take n) e.call = CL_SUCCESS := by
  induction s with
  | nil => intro t0 _ n e op hn; simp at hn
  | cons e0 s ih =>
    intro t0 h n e op hn hop
    cases n with
    | zero =>
      simp only [List.getElem?_cons_zero, Option.some.injEq] at hn
      subst hn
      have h1 := (conforms_cons_checked hop).mp h
      by_cases hs : dev.status t0 e0.call = CL_SUCCESS
      · simpa using hs
      · rw [if_neg hs] at h1
        exact absurd h1.1 (by simp)
    | succ n =>
      simp only [List.getElem?_cons_succ] at hn
      have := ih (t0 ++ [e0]) (conforms_tail h) n e op hn hop
      simpa using this

theorem conforms_failure {dev : Device α} (s : List (Entry α)) :
    ∀ (t0 : List (Entry α)) (exc : Exception), Conforms dev t0 s (some exc) →
      ∃ n e op, s[n]? = some e ∧ e.check = some op ∧
        dev.status (t0 ++ s.take n) e.call ≠ CL_SUCCESS ∧
        exc = .runtime_error
          ("OpenCL error in " ++ op ++ ": " ++ toString (dev.status (t0 ++ s.take n) e.call)) ∧
        (∀ k e' op', k < n → s[k]? = some e' → e'.check = some op' →
          dev.status (t0 ++ s.take k) e'.call = CL_SUCCESS) ∧
        (∀ k e', n < k → s[k]? = some e' → e'.check = none ∧ e'.call.isRelease = true) := by
  induction s with
  | nil => intro t0 exc h; exact absurd h (by simp [Conforms])
  | cons e0 s ih =>
    intro t0 exc h
    have step : Conforms dev (t0 ++ [e0]) s (some exc) →
        (∀ op', e0.check = some op' → dev.status t0 e0.call = CL_SUCCESS) →
        ∃ n e op, (e0 :: s)[n]? = some e ∧ e.check = some op ∧
        dev.status (t0 ++ (e0 :: s).take n) e.call ≠ CL_SUCCESS ∧
        exc = .runtime_error
          ("OpenCL error in " ++ op ++ ": " ++
            toString (dev.status (t0 ++ (e0 :: s).take n) e.call)) ∧
        (∀ k e' op', k < n → (e0 :: s)[k]? = some e' → e'.check = some op' →
          dev.status (t0 ++ (e0 :: s).take k) e'.call = CL_SUCCESS) ∧
        (∀ k e', n < k → (e0 :: s)[k]? = some e' →
          e'.check = none ∧ e'.call.isRelease = true) := by
      intro hrest h0
      obtain ⟨n, e, op, hn, hop, hst, hexc, hbefore, hafter⟩ := ih (t0 ++ [e0]) exc hrest
      refine ⟨n + 1, e, op, by simpa using hn, hop, by simpa using hst, by simpa using hexc,
        ?_, ?_⟩
      · intro k e' op' hk hk' hop'
        cases k with
        | zero =>
          simp only [List.getElem?_cons_zero, Option.some.injEq] at hk'
          subst hk'
          simpa using h0 op' hop'
        | succ k =>
          simp only [List.getElem?_cons_succ] at hk'
          have := hbefore k e' op' (by omega) hk' hop'
          simpa using this
      · intro k e' hk hk'
        cases k with
        | zero => omega
        | succ k =>
          simp only [List.getElem?_cons_succ] at hk'
          exact hafter k e' (by omega) hk'
    cases hc : e0.check with
    | none =>
      exact step ((conforms_cons_unchecked hc).mp h).2 (fun op' h' => by simp [hc] at h')
    | some op =>
      have h1 := (conforms_cons_checked hc).mp h
      by_cases hs : dev.status t0 e0.call = CL_SUCCESS
      · rw [if_pos hs] at h1
        exact step h1 (fun _ _ => hs)
      · rw [if_neg hs] at h1
        refine ⟨0, e0, op, List.getElem?_cons_zero, hc, by simpa using hs, ?_, ?_, ?_⟩
        · have := h1.1
          simp only [Option.some.injEq] at this
          simpa using this
        · intro k e' op' hk
          omega
        · intro k e' hk hk'
          cases k with
          | zero => omega
          | succ k =>
            simp only [List.getElem?_cons_succ] at hk'
            exact h1.2 e' (List.getElem?_mem hk')

/-- A disciplined computation run from the empty trace has a fail-fast outcome. -/
theorem failFast_of_disciplined {m : Gpu α β} (hm : Disciplined m) (dev : Device α) :
    FailFast dev (m dev []) := by
  obtain ⟨s, hs, hc⟩ := hm dev []
  rw [List.nil_append] at hs
  rcases hrun : m dev [] with ⟨r, t⟩
  rw [hrun] at hs hc
  simp only at hs hc
  subst hs
  unfold FailFast FailsAt
  cases r with
  | ok v =>
    refine ⟨⟨fun _ n => ?_, fun _ => ⟨v, rfl⟩⟩, fun exc h => by simp at h⟩
    rintro ⟨e, op, hn, hop, hst⟩
    have := conforms_no_failure _ [] hc n e op hn hop
    exact hst (by simpa using this)
  | error exc =>
    obtain ⟨n, e, op, hn, hop, hst, hexc, hbefore, hafter⟩ := conforms_failure _ [] exc hc
    simp only [List.nil_append] at hst hexc hbefore
    refine ⟨⟨fun h => ?_, fun h => ?_⟩, fun exc' h => ?_⟩
    · obtain ⟨v, hv⟩ := h
      simp at hv
    · exact absurd ⟨e, op, hn, hop, hst⟩ (h n)
    · simp only [Except.error.injEq] at h
      subst h
      refine ⟨n, e, op, hn, hop, hst, hexc, ?_, hafter⟩
      rintro k hk ⟨e', op', hk', hop', hst'⟩
      exact hst' (hbefore k e' op' hk hk' hop')

theorem disciplined_activationGPU (kernel enqueueName : String) (input : List α) :
    Disciplined (activationGPU kernel enqueueName input) := by
  unfold activationGPU
  refine disciplined_scoped _ _ (fun bufferInput => ?_)
  refine disciplined_scoped _ _ (fun bufferOutput => ?_)
  refine disciplined_bind (disciplined_writeData _ _ _) (fun _ => ?_)
  refine disciplined_bind (disciplined_checkedCall _ _) (fun _ => ?_)
  refine disciplined_bind (disciplined_checkedCall _ _) (fun _ => ?_)
  refine disciplined_bind (disciplined_checkedCall _ _) (fun _ => ?_)
  refine disciplined_bind (disciplined_checkedCall _ _) (fun _ => ?_)
  exact disciplined_readData _ _ _

end FailFastProofs

theorem foldl_add_congr {α : Type u} [Add α] (f g : Nat → α) (l : List Nat)
    (h : ∀ k ∈ l, f k = g k) (s : α) :
    l.foldl (fun sum k => sum + f k) s = l.foldl (fun sum k => sum + g k) s := by
  induction l generalizing s with
  | nil => rfl
  | cons k ks ih =>
    rw [List.foldl_cons, List.foldl_cons, h k (List.mem_cons_self _ _)]
    exact ih (fun k hk => h k (List.mem_cons_of_mem _ hk)) _

/-- C14 as stated fails: for the `46341 x 1` matrix of zeros `A` and its
transpose `T` the `int` product `rowsC * colsC = 46341 * 46341` exceeds
`2^31 - 1` and wraps to a negative number, the constructor of `C` throws,
and there is no product to be symmetric. -/
theorem multiplyCPU_transpose_int_overflow :
    (List.replicate 46341 (0 : Int)).length = 46341 * 1 ∧
    (List.replicate 46341 (0 : Int)).length = 1 * 46341 ∧
    (∀ i j, i < 46341 → j < 1 →
      (List.replicate 46341 (0 : Int))[j * 46341 + i]? =
        (List.replicate 46341 (0 : Int))[i * 1 + j]?) ∧
    multiplyCPU (List.replicate 46341 (0 : Int)) (List.replicate 46341 (0 : Int))
      ((46341 : Nat) : Int) ((1 : Nat) : Int) ((46341 : Nat) : Int) = none := by
  refine ⟨List.length_replicate _ _, List.length_replicate _ _, fun i j hi hj => ?_, ?_⟩
  · have hj0 : j = 0 := by omega
    subst hj0
    rw [List.getElem?_replicate, List.getElem?_replicate, if_pos (by omega), if_pos (by omega)]
  · unfold multiplyCPU
    exact if_pos (by decide)

/-- C14 amended: for a `rows x cols` row-major matrix `A` with `rows * cols`
and `rows * rows` within the range of `int` (below `2^31`) and its transpose
`T` (`T[j*rows+i] = A[i*cols+j]`), the product
`multiplyCPU(A, T, rows, cols, rows)` is symmetric: the cells `i*rows+j` and
`j*rows+i` are equal. -/
theorem multiplyCPU_transpose_symmetric {α : Type u} [Zero α] [Add α] [CommMagma α]
    (A T : List α) (rows cols : Nat)
    (hA : A.length = rows * cols) (hT : T.length = cols * rows)
    (hTr : ∀ i j, i < rows → j < cols → T[j * rows + i]? = A[i * cols + j]?)
    (hfA : rows * cols < 2 ^ 31) (hfC : rows * rows < 2 ^ 31) :
    ∃ C, multiplyCPU A T (rows : Int) (cols : Int) (rows : Int) = some C ∧
      C.length = rows * rows ∧
      ∀ i j, i < rows → j < rows → C[i * rows + j]? = C[j * rows + i]? := by
  obtain ⟨C, hC, hlen, hcells⟩ :=
    multiplyCPU_flat A T rows cols rows hA.ge hT.ge hfA (Nat.mul_comm rows cols ▸ hfA) hfC
  refine ⟨C, hC, hlen, fun i j hi hj => ?_⟩
  have hij := hcells (i * rows + j) (index_lt_of_lt hi hj)
  have hji := hcells (j * rows + i) (index_lt_of_lt hj hi)
  rw [(cell_div_mod hj).1, (cell_div_mod hj).2] at hij
  rw [(cell_div_mod hi).1, (cell_div_mod hi).2] at hji
  rw [hij, hji]
  apply congrArg some
  unfold dotSum
  apply foldl_add_congr
  intro k hk
  rw [List.mem_range] at hk
  have h1 : T.getD (k * rows + j) 0 = A.getD (j * cols + k) 0 := by
    rw [List.getD_eq_getElem?_getD, List.getD_eq_getElem?_getD, hTr j k hj hk]
  have h2 : T.getD (k * rows + i) 0 = A.getD (i * cols + k) 0 := by
    rw [List.getD_eq_getElem?_getD, List.getD_eq_getElem?_getD, hTr i k hi hk]
  rw [h1, h2, mul_comm]

theorem multiplyCPU_transpose_symmetric_witness :
    ([1, 2, 3, 4, 5, 6] : List Int).length = 2 * 3 ∧
    ([1, 4, 2, 5, 3, 6] : List Int).length = 3 * 2 ∧
    (∀ i j, i < 2 → j < 3 →
      ([1, 4, 2, 5, 3, 6] : List Int)[j * 2 + i]? = ([1, 2, 3, 4, 5, 6] : List Int)[i * 3 + j]?) ∧
    2 * 3 < 2 ^ 31 ∧ 2 * 2 < 2 ^ 31 ∧
    ∃ C, multiplyCPU ([1, 2, 3, 4, 5, 6] : List Int) [1, 4, 2, 5, 3, 6]
        ((2 : Nat) : Int) ((3 : Nat) : Int) ((2 : Nat) : Int) = some C ∧
      C.length = 2 * 2 ∧
      ∀ i j, i < 2 → j < 2 → C[i * 2 + j]? = C[j * 2 + i]? :=
  have hTr : ∀ i j, i < 2 → j < 3 →
      ([1, 4, 2, 5, 3, 6] : List Int)[j * 2 + i]? = ([1, 2, 3, 4, 5, 6] : List Int)[i * 3 + j]? := by
    intro i j hi hj
    interval_cases i <;> interval_cases j <;> rfl
  ⟨by decide, by decide, hTr, by decide, by decide,
    multiplyCPU_transpose_symmetric [1, 2, 3, 4, 5, 6] [1, 4, 2, 5, 3, 6] 2 3
      (by decide) (by decide) hTr (by decide) (by decide)⟩

/-! ## The CSV report -/

theorem foldl_append_string (l : List String) (acc : String) :
    l.foldl (fun r s => r ++ s) acc = acc ++ l.foldl (fun r s => r ++ s) "" := by
  induction l generalizing acc with
  | nil => simp
  | cons x xs ih =>
    rw [List.foldl_cons, ih, List.foldl_cons, ih ("" ++ x)]
    simp [String.append_assoc]

theorem join_cons (x : String) (xs : List String) :
    String.join (x :: xs) = x ++ String.join xs := by
  unfold String.join
  rw [List.foldl_cons, foldl_append_string]
  simp

theorem join_append_singleton (xs : List String) (x : String) :
    String.join (xs ++ [x]) = String.join xs ++ x := by
  unfold String.join
  rw [List.foldl_append, List.foldl_cons, List.foldl_nil]

/-- The write loop of `saveResultsToFile` appends to what is already written
the lines of the results, each ended by a newline. -/
theorem foldl_report_rows {τ : Type} (fmt : τ → String) (rs : List (BenchmarkResult τ))
    (acc : String) :
    rs.foldl
        (fun file result =>
          file ++ result.operation ++ "," ++ result.implementation ++ "," ++
            toString result.size ++ "," ++ fmt result.time_ms ++ "," ++
            fmt result.speedup ++ "\n")
        acc
      = acc ++ String.join ((rs.map (reportLine fmt)).map (fun line => line ++ "\n")) := by
  induction rs generalizing acc with
  | nil => simp [String.join]
  | cons r rs ih =>
    rw [List.foldl_cons, ih, List.map_cons, List.map_cons, join_cons]
    simp [reportLine, String.intercalate, String.intercalate.go, String.append_assoc]

/-- C17: when the file opens, `saveResultsToFile` writes exactly the header
line `Operation,Implementation,Size,Time(ms),Speedup` and then one line per
recorded result, in the order in which `addResult` recorded them, each being
the five fields operation, implementation, size, time and speedup separated
by commas; the file has `1 + (number of results)` lines. -/
theorem saveResultsToFile_report {τ : Type} (fmt : τ → String)
    (results : List (BenchmarkResult τ)) (filename : String) :
    (saveResultsToFile fmt results filename true).file =
        some (String.join ((reportLines fmt results).map (fun line => line ++ "\n"))) ∧
    reportLines fmt results =
        "Operation,Implementation,Size,Time(ms),Speedup" ::
          results.map (fun r =>
            r.operation ++ "," ++ r.implementation ++ "," ++ toString r.size ++ "," ++
              fmt r.time_ms ++ "," ++ fmt r.speedup) ∧
    (reportLines fmt results).length = 1 + results.length ∧
    (∀ (operation implementation : String) (size : Int) (time_ms speedup : τ),
      reportLines fmt (addResult results operation implementation size time_ms speedup) =
        reportLines fmt results ++
          [operation ++ "," ++ implementation ++ "," ++ toString size ++ "," ++
            fmt time_ms ++ "," ++ fmt speedup]) := by
  have hline : ∀ r : BenchmarkResult τ, reportLine fmt r =
      r.operation ++ "," ++ r.implementation ++ "," ++ toString r.size ++ "," ++
        fmt r.time_ms ++ "," ++ fmt r.speedup := by
    intro r
    simp [reportLine, String.intercalate, String.intercalate.go]
  refine ⟨?_, ?_, ?_, ?_⟩
  · unfold saveResultsToFile reportLines
    simp only [Bool.not_true, Bool.false_eq_true, if_false, List.map_cons, join_cons]
    rw [foldl_report_rows]
    rfl
  · unfold reportLines
    rw [List.map_congr_left (fun r _ => hline r)]
  · unfold reportLines
    rw [List.length_cons, List.length_map, Nat.add_comm]
  · intro operation implementation size time_ms speedup
    unfold reportLines addResult
    rw [List.map_append, List.map_cons, List.map_nil, hline, List.cons_append]

/-! ## Buffer transfers and the call sequences of the dispatch operations -/

/-- C20: for a buffer created with size `s` and an offset `o <= s`,
`writeData(data, o)` and `readData(data, o)` each request one blocking
transfer of exactly `s - o` bytes at byte offset `o`, so offset plus length
is `s`; the buffer value, and with it `getSize()`, is `s` throughout. -/
theorem OpenCLBuffer_transfer_extent {α : Type} (dev : Device α) (t0 t1 t : List (Entry α))
    (s o count : Nat) (flags : MemFlags) (b : OpenCLBuffer) (data : List α)
    (hcreate : OpenCLBuffer.create s flags dev t0 = (.ok b, t1)) (ho : o ≤ s) :
    (b.writeData data o dev t).2 =
      t ++ [⟨.enqueueWriteBuffer b.getBuffer o (s - o) data, some "Writing buffer data"⟩] ∧
    (b.readData count o dev t).2 =
      t ++ [⟨.enqueueReadBuffer b.getBuffer o (s - o), some "Reading buffer data"⟩] ∧
    o + (s - o) = s ∧
    b.getSize = s := by
  have hb : b.size = s := by
    unfold OpenCLBuffer.create at hcreate
    cases hr : checkedCall (ApiCall.createBuffer flags s) "Creating buffer" dev t0 with
    | mk r t' =>
      rw [hr] at hcreate
      cases r with
      | error e => simp at hcreate
      | ok u =>
        simp only [Prod.mk.injEq, Except.ok.injEq] at hcreate
        rw [← hcreate.1]
  have hsub : sizeTSub b.size o = s - o := by
    rw [hb]
    unfold sizeTSub
    rw [if_pos ho]
  refine ⟨?_, ?_, Nat.add_sub_cancel' ho, hb⟩
  · unfold OpenCLBuffer.writeData checkedCall OpenCLBuffer.getBuffer
    rw [hsub]
  · unfold OpenCLBuffer.readData checkedCall OpenCLBuffer.getBuffer
    rw [hsub]
    cases checkOpenCLError (dev.status t (ApiCall.enqueueReadBuffer b.buffer o (s - o)))
      "Reading buffer data" <;> rfl

theorem OpenCLBuffer_transfer_extent_witness :
    (OpenCLBuffer.create 16 .CL_MEM_READ_ONLY secondCallFails [] =
      (.ok ⟨0, 16⟩, [⟨.createBuffer .CL_MEM_READ_ONLY 16, some "Creating buffer"⟩])) ∧
    4 ≤ 16 ∧
    ((⟨0, 16⟩ : OpenCLBuffer).writeData [7, 8, 9] 4 secondCallFails []).2 =
      [] ++ [⟨.enqueueWriteBuffer (⟨0, 16⟩ : OpenCLBuffer).getBuffer 4 (16 - 4) [7, 8, 9],
        some "Writing buffer data"⟩] ∧
    ((⟨0, 16⟩ : OpenCLBuffer).readData 3 4 secondCallFails []).2 =
      [] ++ [⟨.enqueueReadBuffer (⟨0, 16⟩ : OpenCLBuffer).getBuffer 4 (16 - 4),
        some "Reading buffer data"⟩] ∧
    4 + (16 - 4) = 16 ∧
    (⟨0, 16⟩ : OpenCLBuffer).getSize = 16 :=
  ⟨rfl, by decide,
    OpenCLBuffer_transfer_extent secondCallFails [] _ [] 16 4 3 .CL_MEM_READ_ONLY ⟨0, 16⟩
      [7, 8, 9] rfl (by decide)⟩

section ScriptProofs

variable {α : Type} {β γ : Type}

theorem straight_checkedCall (t0 : List (Entry α)) (c : ApiCall α) (op : String) :
    Straight t0 (checkedCall c op) [⟨c, some op⟩] := by
  intro dev
  unfold checkedCall
  cases h : checkOpenCLError (dev.status t0 c) op with
  | ok u => exact Or.inl ⟨u, rfl⟩
  | error e => exact Or.inr ⟨0, e, by simp, rfl⟩

theorem sizeTSub_zero (a : Nat) : sizeTSub a 0 = a := by
  unfold sizeTSub
  rw [if_pos (Nat.zero_le a), Nat.sub_zero]

theorem straight_writeData (t0 : List (Entry α)) (b : OpenCLBuffer) (data : List α)
    (offset handle bytes : Nat) (hh : b.buffer = handle)
    (hs : sizeTSub b.size offset = bytes) :
    Straight t0 (b.writeData data offset)
      [⟨.enqueueWriteBuffer handle offset bytes data, some "Writing buffer data"⟩] := by
  subst hh hs
  exact straight_checkedCall _ _ _

theorem straight_readData (t0 : List (Entry α)) (b : OpenCLBuffer)
    (count offset handle bytes : Nat) (hh : b.buffer = handle)
    (hs : sizeTSub b.size offset = bytes) :
    Straight t0 (b.readData count offset : Gpu α (List α))
      [⟨.enqueueReadBuffer handle offset bytes, some "Reading buffer data"⟩] := by
  subst hh hs
  intro dev
  unfold OpenCLBuffer.readData checkedCall
  cases h : checkOpenCLError
      (dev.status t0 (.enqueueReadBuffer b.buffer offset (sizeTSub b.size offset)))
      "Reading buffer data" with
  | ok u => exact Or.inl ⟨_, rfl⟩
  | error e => exact Or.inr ⟨0, e, by simp, rfl⟩

theorem straight_bind (s1 s2 : List (Entry α)) {t0 : List (Entry α)} {m : Gpu α β}
    {f : β → Gpu α γ} (hm : Straight t0 m s1) (hf : ∀ x, Straight (t0 ++ s1) (f x) s2) :
    Straight t0 (m >>= f) (s1 ++ s2) := by
  intro dev
  rw [gpu_bind_run]
  rcases hm dev with ⟨v, hv⟩ | ⟨j, exc, hj, hv⟩
  · rw [hv]
    rcases hf v dev with ⟨w, hw⟩ | ⟨k, exc, hk, hw⟩
    · exact Or.inl ⟨w, by simp only [hw, List.append_assoc]⟩
    · refine Or.inr ⟨s1.length + k, exc, by simp only [List.length_append]; omega, ?_⟩
      simp only [hw]
      rw [show s1.length + k + 1 = s1.length + (k + 1) by omega, List.take_append,
        List.append_assoc]
  · rw [hv]
    refine Or.inr ⟨j, exc, by simp only [List.length_append]; omega, ?_⟩
    simp only
    rw [List.take_append_of_le_length (by omega)]

theorem straight_cons (e : Entry α) (s : List (Entry α)) {t0 : List (Entry α)} {m : Gpu α β}
    {f : β → Gpu α γ} (hm : Straight t0 m [e]) (hf : ∀ x, Straight (t0 ++ [e]) (f x) s) :
    Straight t0 (m >>= f) (e :: s) :=
  straight_bind [e] s hm hf

theorem plays_of_straight {t0 : List (Entry α)} {m : Gpu α β} {script : List (Entry α)}
    (h : Straight t0 m script) : Plays t0 m script := by
  intro dev
  rcases h dev with ⟨v, hv⟩ | ⟨j, exc, hj, hv⟩
  · refine ⟨script.length, [], ?_, by simp, fun _ => le_rfl⟩
    rw [hv]
    simp
  · refine ⟨j + 1, [], ?_, by simp, ?_⟩
    · rw [hv]
      simp
    · rintro ⟨v, hv'⟩
      rw [hv] at hv'
      simp at hv'

theorem plays_scoped (size : Nat) (flags : MemFlags) (s : List (Entry α))
    {t0 : List (Entry α)} {body : OpenCLBuffer → Gpu α β}
    (hbody : Plays (t0 ++ [⟨.createBuffer flags size, some "Creating buffer"⟩])
      (body ⟨t0.length, size⟩) s) :
    Plays t0 (OpenCLBuffer.scoped size flags body)
      (⟨.createBuffer flags size, some "Creating buffer"⟩ :: s) := by
  intro dev
  unfold OpenCLBuffer.scoped OpenCLBuffer.create checkedCall
  cases h : checkOpenCLError (dev.status t0 (.createBuffer flags size)) "Creating buffer" with
  | error e =>
    refine ⟨1, [], by simp, by simp, ?_⟩
    rintro ⟨v, hv⟩
    simp at hv
  | ok u =>
    obtain ⟨j, rel, htrace, hrel, hok⟩ := hbody dev
    refine ⟨j + 1, rel ++ [⟨.releaseMemObject t0.length, none⟩], ?_, ?_, ?_⟩
    · simp only [OpenCLBuffer.destroy, htrace, List.take_succ_cons, List.append_assoc,
        List.singleton_append, List.cons_append, List.nil_append]
    · intro e he
      rcases List.mem_append.mp he with h1 | h1
      · exact hrel e h1
      · rw [List.mem_singleton] at h1
        subst h1
        exact ⟨rfl, rfl⟩
    · rintro ⟨v, hv⟩
      have := hok ⟨v, hv⟩
      simp only [List.length_cons]
      omega

theorem gpu_newVector_bind (n : Nat) (f : Nat → Gpu α β) :
    (newVector (n : Int) >>= f) = f n := by
  funext dev t
  have hn : ¬ ((n : Int) < 0) := not_lt.mpr (Int.ofNat_nonneg n)
  rw [gpu_bind_run]
  simp [newVector, hn]

theorem plays_activationGPU (kernel enqueueName : String) (input : List α) :
    Plays [] (activationGPU kernel enqueueName input)
      (activationCalls kernel enqueueName input) := by
  unfold activationGPU activationCalls
  rw [show 4 * input.length = input.length * sizeofFloat by unfold sizeofFloat; omega]
  refine plays_scoped _ _ _ ?_
  refine plays_scoped _ _ _ ?_
  refine plays_of_straight ?_
  refine straight_cons _ _ (straight_writeData _ _ _ _ _ _ rfl (sizeTSub_zero _)) (fun _ => ?_)
  refine straight_cons _ _ (straight_checkedCall _ _ _) (fun _ => ?_)
  refine straight_cons _ _ (straight_checkedCall _ _ _) (fun _ => ?_)
  refine straight_cons _ _ (straight_checkedCall _ _ _) (fun _ => ?_)
  refine straight_cons _ _ (straight_checkedCall _ _ _) (fun _ => ?_)
  exact straight_readData _ _ _ _ _ _ rfl (sizeTSub_zero _)

theorem toSizeT_natCast (n : Nat) : toSizeT (n : Int) = n := by
  unfold toSizeT
  rw [if_pos (Int.ofNat_nonneg n), Int.toNat_natCast]

theorem returns_bind {m : Gpu α β} {f : β → Gpu α γ} {P : γ → Prop}
    (hf : ∀ x, Returns (f x) P) : Returns (m >>= f) P := by
  intro dev t0 t1 v h
  rw [gpu_bind_run] at h
  rcases hm : m dev t0 with ⟨r, t⟩
  rw [hm] at h
  cases r with
  | error e => simp at h
  | ok x => exact hf x dev t t1 v h

theorem returns_scoped (size : Nat) (flags : MemFlags) {body : OpenCLBuffer → Gpu α β}
    {P : β → Prop} (hbody : ∀ b, Returns (body b) P) :
    Returns (OpenCLBuffer.scoped size flags body) P := by
  intro dev t0 t1 v h
  unfold OpenCLBuffer.scoped at h
  rcases hc : (OpenCLBuffer.create size flags : Gpu α OpenCLBuffer) dev t0 with ⟨r, t⟩
  rw [hc] at h
  cases r with
  | error e => simp at h
  | ok b =>
    simp only [Prod.mk.injEq] at h
    exact hbody b dev t _ v (Prod.ext h.1 rfl)

theorem returns_readData (b : OpenCLBuffer) (count offset : Nat) :
    Returns (b.readData count offset : Gpu α (List α)) (fun v => v.length = count) := by
  intro dev t0 t1 v h
  unfold OpenCLBuffer.readData at h
  rcases hc : checkedCall (.enqueueReadBuffer b.buffer offset (sizeTSub b.size offset))
      "Reading buffer data" dev t0 with ⟨r, t⟩
  rw [hc] at h
  cases r with
  | error e => simp at h
  | ok u =>
    simp only [Prod.mk.injEq, Except.ok.injEq] at h
    rw [← h.1, List.length_map, List.length_range]

end ScriptProofs

section PerformsProofs
variable {α : Type} {β : Type}

/-- Positions inside the part `pre` of a trace `pre ++ rel` that is an
initial segment of `pre ++ post`. -/
theorem prefix_position (pre post rel : List (Entry α)) (n : Nat) (hn : n < pre.length) :
    (pre ++ rel)[n]? = (pre ++ post)[n]? ∧ (pre ++ rel).take n = (pre ++ post).take n := by
  rw [List.getElem?_append_left hn, List.getElem?_append_left hn,
    List.take_append_of_le_length hn.le, List.take_append_of_le_length hn.le]
  exact ⟨rfl, rfl⟩

/-- A checked call of a trace `pre ++ rel` whose part `rel` has only
unchecked calls lies in `pre`. -/
theorem checked_position (pre rel : List (Entry α)) (n : Nat) (e : Entry α) (op : String)
    (hrel : ∀ e ∈ rel, e.check = none ∧ e.call.isRelease = true)
    (hn : (pre ++ rel)[n]? = some e) (hop : e.check = some op) : n < pre.length := by
  by_contra hge
  rw [List.getElem?_append_right (not_lt.mp hge)] at hn
  have := (hrel e (List.getElem?_mem hn)).1
  rw [hop] at this
  cases this

theorem performs_of_plays {m : Gpu α β} {script : List (Entry α)} {P : β → Prop}
    (hp : Plays [] m script) (hd : Disciplined m) (hr : Returns m P)
    (hchk : ∀ e ∈ script, ∃ op, e.check = some op) : Performs m script P := by
  intro dev
  obtain ⟨j, rel, htr, hrel, hok⟩ := hp dev
  have hff := failFast_of_disciplined hd dev
  rcases hrun : m dev [] with ⟨r, t⟩
  rw [hrun] at htr hff hok
  simp only [List.nil_append] at htr
  -- the calls made are `pre ++ rel`, and `script` is `pre ++ post`
  obtain ⟨pre, post, hscript, ht⟩ : ∃ pre post, script = pre ++ post ∧ t = pre ++ rel :=
    ⟨script.take j, script.drop j, (List.take_append_drop j script).symm, htr⟩
  have hpost : (∃ v, r = .ok v) → post = [] := by
    intro hv
    have hle := hok hv
    have h1 : script.take j = script := List.take_of_length_le hle
    have h2 : pre = script := by
      have := htr
      rw [ht, h1] at this
      exact List.append_cancel_right this
    have h3 : pre ++ post = pre ++ [] := by rw [← hscript, List.append_nil, h2]
    exact List.append_cancel_left h3
  subst hscript
  subst ht
  constructor
  · intro hall
    cases r with
    | error exc =>
      obtain ⟨n, e, op, hn, hop, hst, -⟩ := hff.2 exc rfl
      have hlt := checked_position pre rel n e op hrel hn hop
      obtain ⟨h1, h2⟩ := prefix_position pre post rel n hlt
      simp only at hn hst
      rw [h1] at hn
      rw [h2] at hst
      exact absurd (hall n e hn) hst
    | ok v =>
      have hp0 := hpost ⟨v, rfl⟩
      subst hp0
      rw [List.append_nil]
      exact ⟨v, rel, rfl, hr dev [] _ v hrun, hrel⟩
  · intro n e op hn hop hst hbefore
    have hnlen : n < (pre ++ post).length := by
      by_contra hge
      rw [List.getElem?_eq_none (not_lt.mp hge)] at hn
      cases hn
    cases r with
    | ok v =>
      have hp0 := hpost ⟨v, rfl⟩
      subst hp0
      rw [List.append_nil] at hn hst hnlen
      obtain ⟨h1, h2⟩ := prefix_position pre [] rel n hnlen
      rw [List.append_nil] at h1 h2
      refine absurd ⟨e, op, ?_, hop, ?_⟩ ((hff.1.mp ⟨v, rfl⟩) n)
      · simp only
        rw [h1]
        exact hn
      · simp only
        rw [h2]
        exact hst
    | error exc =>
      obtain ⟨n', e', op', hn', hop', hst', hexc, hbef', haft'⟩ := hff.2 exc rfl
      simp only at hn' hst' hexc hbef' haft'
      have hlt' := checked_position pre rel n' e' op' hrel hn' hop'
      obtain ⟨h1', h2'⟩ := prefix_position pre post rel n' hlt'
      rw [h1'] at hn'
      rw [h2'] at hst' hexc
      have hnn : n' = n := by
        rcases Nat.lt_trichotomy n' n with hlt | heq | hgt
        · exact absurd (hbefore n' e' hlt hn') hst'
        · exact heq
        · have hltn : n < pre.length := lt_trans hgt hlt'
          obtain ⟨h1, h2⟩ := prefix_position pre post rel n hltn
          refine absurd ⟨e, op, ?_, hop, ?_⟩ (hbef' n hgt)
          · rw [h1]
            exact hn
          · rw [h2]
            exact hst
      subst hnn
      rw [hn] at hn'
      simp only [Option.some.injEq] at hn'
      subst hn'
      rw [hop] at hop'
      simp only [Option.some.injEq] at hop'
      subst hop'
      -- no call of `script` after position `n'` was made
      have hlen : pre.length = n' + 1 := by
        by_contra hne
        have hlt2 : n' + 1 < pre.length := by omega
        obtain ⟨e2, he2⟩ : ∃ e2, pre[n' + 1]? = some e2 :=
          ⟨pre[n' + 1], List.getElem?_eq_getElem hlt2⟩
        have hmem : e2 ∈ pre ++ post :=
          List.mem_append_left _ (List.getElem?_mem he2)
        obtain ⟨op2, hop2⟩ := hchk e2 hmem
        have ht2 : (pre ++ rel)[n' + 1]? = some e2 := by
          rw [List.getElem?_append_left hlt2]
          exact he2
        have := (haft' (n' + 1) e2 (Nat.lt_succ_self _) ht2).1
        rw [hop2] at this
        cases this
      have htake : (pre ++ post).take (n' + 1) = pre := by
        rw [← hlen, List.take_append_of_le_length le_rfl, List.take_length]
      rw [htake]
      exact ⟨rel, by rw [hexc], hrel⟩

end PerformsProofs

section PerformsScripts
variable {α : Type} {β : Type}

theorem returns_activationGPU (kernel enqueueName : String) (input : List α) :
    Returns (activationGPU kernel enqueueName input) (fun out => out.length = input.length) := by
  unfold activationGPU
  refine returns_scoped _ _ (fun _ => returns_scoped _ _ (fun _ => ?_))
  refine returns_bind (fun _ => returns_bind (fun _ => returns_bind (fun _ => ?_)))
  exact returns_bind (fun _ => returns_bind (fun _ => returns_readData _ _ _))

theorem checked_activationCalls (kernel enqueueName : String) (input : List α) :
    ∀ e ∈ activationCalls kernel enqueueName input, ∃ op, e.check = some op := by
  intro e he
  unfold activationCalls at he
  simp only [List.mem_cons, List.mem_singleton, List.not_mem_nil, or_false] at he
  rcases he with rfl | rfl | rfl | rfl | rfl | rfl | rfl | rfl <;> exact ⟨_, rfl⟩

theorem performs_activationGPU (kernel enqueueName : String) (input : List α) :
    Performs (activationGPU kernel enqueueName input)
      (activationCalls kernel enqueueName input) (fun out => out.length = input.length) :=
  performs_of_plays (plays_activationGPU kernel enqueueName input)
    (disciplined_activationGPU kernel enqueueName input)
    (returns_activationGPU kernel enqueueName input)
    (checked_activationCalls kernel enqueueName input)

end PerformsScripts

/-- C18: on any device each of the six activation GPU operations on an input
of length `n` carries out the calls of `activationCalls` in their order: a
read-only and a write-only buffer of `4 * n` bytes, the write of the input,
the arguments bound in the order input buffer, output buffer, element count
converted to a 32-bit `int` (which is `n` itself below `2^31`), a
1-dimensional range of global size `n` with local size `256`, and the
read-back.  When every call succeeds all of them are made and a vector of
`n` elements is returned; otherwise the calls stop at the first one that
fails and its error is thrown.  Only buffer releases follow. -/
theorem activation_dispatch_calls {α : Type} (input : List α) :
    Performs (reluGPU input) (activationCalls "relu" "Enqueuing ReLU kernel" input)
      (fun out => out.length = input.length) ∧
    Performs (sigmoidGPU input) (activationCalls "sigmoid" "Enqueuing Sigmoid kernel" input)
      (fun out => out.length = input.length) ∧
    Performs (tanhGPU input) (activationCalls "tanh" "Enqueuing Tanh kernel" input)
      (fun out => out.length = input.length) ∧
    Performs (reluDerivativeGPU input)
      (activationCalls "relu_derivative" "Enqueuing ReLU derivative kernel" input)
      (fun out => out.length = input.length) ∧
    Performs (sigmoidDerivativeGPU input)
      (activationCalls "sigmoid_derivative" "Enqueuing Sigmoid derivative kernel" input)
      (fun out => out.length = input.length) ∧
    Performs (tanhDerivativeGPU input)
      (activationCalls "tanh_derivative" "Enqueuing Tanh derivative kernel" input)
      (fun out => out.length = input.length) ∧
    (input.length < 2 ^ 31 → toInt32 input.length = (input.length : Int)) := by
  refine ⟨performs_activationGPU _ _ input, performs_activationGPU _ _ input,
    performs_activationGPU _ _ input, performs_activationGPU _ _ input,
    performs_activationGPU _ _ input, performs_activationGPU _ _ input, fun h => ?_⟩
  unfold toInt32
  omega

theorem activation_dispatch_calls_witness :
    (∀ n e, (activationCalls "relu" "Enqueuing ReLU kernel" ([-2, -1, 0, 1, 2] : List Int))[n]?
        = some e →
      alwaysSucceeds.status
        ((activationCalls "relu" "Enqueuing ReLU kernel" ([-2, -1, 0, 1, 2] : List Int)).take n)
        e.call = CL_SUCCESS) ∧
    (∃ v rel, reluGPU ([-2, -1, 0, 1, 2] : List Int) alwaysSucceeds [] =
        (.ok v, activationCalls "relu" "Enqueuing ReLU kernel" [-2, -1, 0, 1, 2] ++ rel) ∧
      v.length = ([-2, -1, 0, 1, 2] : List Int).length ∧
      ∀ e ∈ rel, e.check = none ∧ e.call.isRelease = true) ∧
    ([-2, -1, 0, 1, 2] : List Int).length < 2 ^ 31 ∧
    toInt32 ([-2, -1, 0, 1, 2] : List Int).length = (([-2, -1, 0, 1, 2] : List Int).length : Int) :=
  ⟨fun _ _ _ => rfl,
    ((activation_dispatch_calls ([-2, -1, 0, 1, 2] : List Int)).1 alwaysSucceeds).1
      (fun _ _ _ => rfl),
    by decide, (activation_dispatch_calls ([-2, -1, 0, 1, 2] : List Int)).2.2.2.2.2.2 (by decide)⟩

section SetupProofs

variable {β γ : Type}

theorem setup_bind_run (m : Setup β) (f : β → Setup γ) (rt : Runtime) (t : List HostEvent) :
    (m >>= f) rt t =
      match m rt t with
      | (.ok x, t1) => f x rt t1
      | (.error e, t1) => (.error e, t1) := rfl

theorem setup_pure_bind (x : β) (f : β → Setup γ) : (pure x >>= f) = f x := rfl

theorem yields_bind {m : Setup β} {f : β → Setup γ} {rt : Runtime} {P : β → Prop}
    {Q : γ → Prop} (hm : Yields m rt P) (hf : ∀ x, P x → Yields (f x) rt Q) :
    Yields (m >>= f) rt Q := by
  intro t
  obtain ⟨v, t1, hv, hP⟩ := hm t
  rw [setup_bind_run, hv]
  exact hf v hP t1

theorem yields_pure {x : β} {rt : Runtime} {P : β → Prop} (h : P x) :
    Yields (pure x : Setup β) rt P :=
  fun t => ⟨x, t, rfl, h⟩

theorem yields_ite {c : Prop} [Decidable c] {a b : Setup β} {rt : Runtime} {P : β → Prop}
    (ha : c → Yields a rt P) (hb : ¬ c → Yields b rt P) :
    Yields (if c then a else b) rt P := by
  by_cases h : c
  · rw [if_pos h]; exact ha h
  · rw [if_neg h]; exact hb h

theorem yields_call (ps : List PlatformInfo) (c : HostCall) :
    Yields (Setup.call c) (machine ps) (fun r => r = machineReply ps c) :=
  fun _ => ⟨_, _, rfl, rfl⟩

theorem yields_checked (ps : List PlatformInfo) (c : HostCall) (op : String)
    (h : (machineReply ps c).status = CL_SUCCESS) :
    Yields (Setup.checked c op) (machine ps) (fun r => r = machineReply ps c) := by
  intro t
  refine ⟨machineReply ps c, t ++ [.call c (some op)], ?_, rfl⟩
  unfold Setup.checked
  have hs : ((machine ps).reply t c).status = CL_SUCCESS := h
  simp only [checkOpenCLError, hs, ne_eq, not_true_eq_false, if_false]
  rfl

theorem yields_cout (text : String) (rt : Runtime) :
    Yields (Setup.cout text) rt (fun _ => True) :=
  fun _ => ⟨(), _, rfl, trivial⟩

theorem yields_index {v : List Nat} {i x : Nat} (rt : Runtime) (h : v[i]? = some x) :
    Yields (Setup.index v i) rt (fun y => y = x) := by
  intro t
  refine ⟨x, t, ?_, rfl⟩
  unfold Setup.index
  rw [h]

/-- The printing of a name, when its query succeeded, never fails. -/
theorem yields_printName (r : Reply) (rt : Runtime) (x : Nat) :
    Yields (if r.status = CL_SUCCESS then (Setup.cout (r.text ++ "\n") >>= fun _ => pure x)
      else (pure () >>= fun _ => pure x)) rt (fun y => y = x) :=
  yields_ite (fun _ => yields_bind (yields_cout _ _) (fun _ _ => yields_pure rfl))
    (fun _ => yields_pure rfl)

theorem fillVector_head {n x : Nat} {xs : List Nat} (hn : n ≠ 0) :
    (fillVector n (List.take n (x :: xs)))[0]? = some x := by
  unfold fillVector
  cases n with
  | zero => exact absurd rfl hn
  | succ n => simp

theorem find_first_platform (p : PlatformInfo) (rest : List PlatformInfo) :
    (p :: rest).find? (fun q => q.id = p.id) = some p := by
  simp

theorem yields_selectPlatform (p : PlatformInfo) (rest : List PlatformInfo) :
    Yields OpenCLContext.selectPlatform (machine (p :: rest)) (fun x => x = p.id) := by
  unfold OpenCLContext.selectPlatform
  refine yields_bind (yields_checked _ _ _ rfl) (fun r hr => ?_)
  subst hr
  have hn : (machineReply (p :: rest) .getPlatformCount).count = rest.length + 1 := rfl
  rw [hn]
  have hids : machineReply (p :: rest) (.getPlatformIDs (rest.length + 1)) =
      ⟨CL_SUCCESS, 0, ((p :: rest).map fun q => q.id).take (rest.length + 1), 0, ""⟩ := by
    simp [machineReply]
  refine yields_bind (yields_checked _ _ _ (by rw [hids])) (fun r hr => ?_)
  subst hr
  rw [hids]
  refine yields_bind (yields_index _ (fillVector_head (Nat.succ_ne_zero _))) (fun x hx => ?_)
  subst hx
  refine yields_bind (yields_cout _ _) (fun _ _ => ?_)
  refine yields_bind (yields_call _ _) (fun r _ => ?_)
  exact yields_printName _ _ _

theorem yields_selectDevice_tail (ps : List PlatformInfo) (x : Nat) (xs : List Nat) (n : Nat)
    (hn : n ≠ 0) :
    Yields (do
      let device_ ← Setup.index (fillVector n (List.take n (x :: xs))) 0
      Setup.cout "Selected device: "
      let r ← Setup.call (.getDeviceName device_)
      if r.status = CL_SUCCESS then Setup.cout (r.text ++ "\n") else pure ()
      pure device_) (machine ps) (fun d => d = x) := by
  refine yields_bind (yields_index _ (fillVector_head hn)) (fun d hd => ?_)
  subst hd
  refine yields_bind (yields_cout _ _) (fun _ _ => ?_)
  refine yields_bind (yields_call _ _) (fun r _ => ?_)
  exact yields_printName _ _ _

theorem yields_selectDevice_gpu (p : PlatformInfo) (rest : List PlatformInfo) (g : Nat)
    (gs : List Nat) (hg : devicesOfType p .CL_DEVICE_TYPE_GPU = g :: gs) :
    Yields (OpenCLContext.selectDevice p.id) (machine (p :: rest)) (fun d => d = g) := by
  have hcount : machineReply (p :: rest) (.getDeviceCount p.id .CL_DEVICE_TYPE_GPU) =
      ⟨CL_SUCCESS, gs.length + 1, [], 0, ""⟩ := by
    simp [machineReply, hg]
  have hids : machineReply (p :: rest)
      (.getDeviceIDs p.id .CL_DEVICE_TYPE_GPU (gs.length + 1)) =
      ⟨CL_SUCCESS, 0, (g :: gs).take (gs.length + 1), 0, ""⟩ := by
    simp [machineReply, hg]
  unfold OpenCLContext.selectDevice
  refine yields_bind (yields_call _ _) (fun r hr => ?_)
  subst hr
  rw [hcount]
  dsimp only
  rw [if_neg (by simp [CL_SUCCESS]), setup_pure_bind]
  refine yields_bind (yields_call _ _) (fun r hr => ?_)
  subst hr
  rw [hids]
  dsimp only
  rw [if_neg (by simp), setup_pure_bind]
  exact yields_selectDevice_tail _ g gs _ (Nat.succ_ne_zero _)

theorem yields_selectDevice_cpu (p : PlatformInfo) (rest : List PlatformInfo) (c : Nat)
    (cs : List Nat) (hg : devicesOfType p .CL_DEVICE_TYPE_GPU = [])
    (hc : devicesOfType p .CL_DEVICE_TYPE_CPU = c :: cs) :
    Yields (OpenCLContext.selectDevice p.id) (machine (p :: rest)) (fun d => d = c) := by
  have hcount : machineReply (p :: rest) (.getDeviceCount p.id .CL_DEVICE_TYPE_GPU) =
      Reply.failure CL_DEVICE_NOT_FOUND := by
    simp [machineReply, hg]
  have hcountCpu : machineReply (p :: rest) (.getDeviceCount p.id .CL_DEVICE_TYPE_CPU) =
      ⟨CL_SUCCESS, cs.length + 1, [], 0, ""⟩ := by
    simp [machineReply, hc]
  have hids : machineReply (p :: rest)
      (.getDeviceIDs p.id .CL_DEVICE_TYPE_GPU (cs.length + 1)) =
      Reply.failure CL_DEVICE_NOT_FOUND := by
    simp [machineReply, hg]
  have hidsCpu : machineReply (p :: rest)
      (.getDeviceIDs p.id .CL_DEVICE_TYPE_CPU (cs.length + 1)) =
      ⟨CL_SUCCESS, 0, (c :: cs).take (cs.length + 1), 0, ""⟩ := by
    simp [machineReply, hc]
  unfold OpenCLContext.selectDevice
  refine yields_bind (yields_call _ _) (fun r hr => ?_)
  subst hr
  rw [hcount]
  dsimp only
  rw [if_pos (Or.inl (by decide))]
  refine yields_bind (yields_cout _ _) (fun _ _ => ?_)
  refine yields_bind (yields_checked _ _ _ (by rw [hcountCpu])) (fun r hr => ?_)
  subst hr
  rw [hcountCpu, setup_pure_bind]
  refine yields_bind (yields_call _ _) (fun r hr => ?_)
  subst hr
  rw [hids]
  dsimp only
  rw [if_pos (by decide)]
  refine yields_bind (yields_checked _ _ _ (by rw [hidsCpu])) (fun r hr => ?_)
  subst hr
  rw [hidsCpu, setup_pure_bind]
  exact yields_selectDevice_tail _ c cs _ (Nat.succ_ne_zero _)

theorem yields_create (p : PlatformInfo) (rest : List PlatformInfo) (d : Nat)
    (hd : Yields (OpenCLContext.selectDevice p.id) (machine (p :: rest)) (fun x => x = d)) :
    Yields OpenCLContext.create (machine (p :: rest))
      (fun ctx => ctx.platform_ = p.id ∧ ctx.device_ = d) := by
  unfold OpenCLContext.create
  refine yields_bind (yields_selectPlatform p rest) (fun x hx => ?_)
  subst hx
  refine yields_bind hd (fun x hx => ?_)
  subst hx
  refine yields_bind (P := fun _ => True) ?_ (fun context_ _ => ?_)
  · unfold OpenCLContext.createContext
    exact yields_bind (yields_checked _ _ _ rfl) (fun _ _ => yields_pure trivial)
  · refine yields_bind (P := fun _ => True) ?_ (fun queue _ => yields_pure ⟨rfl, rfl⟩)
    unfold OpenCLContext.createCommandQueue
    exact yields_bind (yields_checked _ _ _ rfl) (fun _ _ => yields_pure trivial)

end SetupProofs

/-- C11: on a machine whose first platform has at least one GPU device the
constructor of `OpenCLContext` selects that platform and its first GPU
device; when the first platform has no GPU device but at least one CPU
device it selects that platform and its first CPU device. -/
theorem OpenCLContext_selects_device (p : PlatformInfo) (rest : List PlatformInfo) :
    (∀ g gs, devicesOfType p .CL_DEVICE_TYPE_GPU = g :: gs →
      ∃ ctx t, OpenCLContext.create (machine (p :: rest)) [] = (.ok ctx, t) ∧
        ctx.platform_ = p.id ∧ ctx.device_ = g) ∧
    (∀ c cs, devicesOfType p .CL_DEVICE_TYPE_GPU = [] →
      devicesOfType p .CL_DEVICE_TYPE_CPU = c :: cs →
      ∃ ctx t, OpenCLContext.create (machine (p :: rest)) [] = (.ok ctx, t) ∧
        ctx.platform_ = p.id ∧ ctx.device_ = c) :=
  ⟨fun g gs hg => yields_create p rest g (yields_selectDevice_gpu p rest g gs hg) [],
   fun c cs hg hc => yields_create p rest c (yields_selectDevice_cpu p rest c cs hg hc) []⟩

section GuardedProofs

variable {β γ : Type}

theorem guarded_pure (x : β) : Guarded (pure x : Setup β) := by
  intro rt t0
  refine ⟨[], (List.append_nil t0).symm, ?_⟩
  intro k c chk h
  simp at h

theorem guarded_silent {m : Setup β} (e : HostEvent)
    (hrun : ∀ rt t, (m rt t).2 = t ++ [e]) (he : ∀ c chk, e = .call c chk → chk = none ∧ checkOf c = none) :
    Guarded m := by
  intro rt t0
  refine ⟨[e], hrun rt t0, ?_⟩
  intro k c chk h
  cases k with
  | zero =>
    simp only [List.getElem?_cons_zero, Option.some.injEq] at h
    obtain ⟨h1, h2⟩ := he c chk h
    subst h1
    exact ⟨h2.symm, fun op hop => by simp at hop⟩
  | succ k => simp at h

theorem guarded_cout (text : String) : Guarded (Setup.cout text) :=
  guarded_silent (.stdout text) (fun _ _ => rfl) (fun c chk h => by simp at h)

theorem guarded_cerr (text : String) : Guarded (Setup.cerr text) :=
  guarded_silent (.stderr text) (fun _ _ => rfl) (fun c chk h => by simp at h)

theorem guarded_call (c : HostCall) (hc : checkOf c = none) : Guarded (Setup.call c) :=
  guarded_silent (.call c none) (fun _ _ => rfl) (fun c' chk h => by
    simp only [HostEvent.call.injEq] at h
    obtain ⟨h1, h2⟩ := h
    subst h1 h2
    exact ⟨rfl, hc⟩)

theorem guarded_index (v : List Nat) (i : Nat) : Guarded (Setup.index v i) := by
  intro rt t0
  refine ⟨[], ?_, ?_⟩
  · unfold Setup.index
    cases v[i]? <;> simp
  · intro k c chk h
    simp at h

theorem guarded_checked (c : HostCall) (op : String) (hc : checkOf c = some op) :
    Guarded (Setup.checked c op) := by
  intro rt t0
  refine ⟨[.call c (some op)], ?_, ?_⟩
  · unfold Setup.checked
    cases checkOpenCLError (rt.reply t0 c).status op <;> rfl
  · intro k c' chk h
    cases k with
    | succ k => simp at h
    | zero =>
      simp only [List.getElem?_cons_zero, Option.some.injEq, HostEvent.call.injEq] at h
      obtain ⟨h1, h2⟩ := h
      subst h1 h2
      refine ⟨hc.symm, fun op' hop hst => ?_⟩
      simp only [Option.some.injEq] at hop
      subst hop
      simp only [List.take_zero, List.append_nil] at hst ⊢
      unfold Setup.checked checkOpenCLError openCLError
      rw [if_pos hst]

theorem guarded_bind {m : Setup β} {f : β → Setup γ} (hm : Guarded m)
    (hf : ∀ x, Guarded (f x)) : Guarded (m >>= f) := by
  intro rt t0
  obtain ⟨s1, ht1, h1⟩ := hm rt t0
  rw [setup_bind_run]
  rcases hrun : m rt t0 with ⟨r, t1⟩
  rw [hrun] at ht1 h1
  simp only at ht1 h1
  subst ht1
  cases r with
  | error e =>
    refine ⟨s1, rfl, ?_⟩
    intro k c chk h
    obtain ⟨hchk, hfail⟩ := h1 k c chk h
    refine ⟨hchk, fun op hop hst => ?_⟩
    have := hfail op hop hst
    simp only [Except.error.injEq] at this
    simp only [this]
  | ok x =>
    obtain ⟨s2, ht2, h2⟩ := hf x rt (t0 ++ s1)
    refine ⟨s1 ++ s2, by simp only [ht2, List.append_assoc], ?_⟩
    intro k c chk h
    by_cases hk : k < s1.length
    · rw [List.getElem?_append_left hk] at h
      obtain ⟨hchk, hfail⟩ := h1 k c chk h
      refine ⟨hchk, fun op hop hst => ?_⟩
      rw [List.take_append_of_le_length hk.le] at hst
      have := hfail op hop hst
      simp at this
    · have hk' : s1.length ≤ k := not_lt.mp hk
      rw [List.getElem?_append_right hk'] at h
      obtain ⟨hchk, hfail⟩ := h2 (k - s1.length) c chk h
      refine ⟨hchk, fun op hop hst => ?_⟩
      have htake : t0 ++ List.take k (s1 ++ s2) = t0 ++ s1 ++ List.take (k - s1.length) s2 := by
        rw [List.take_append_eq_append_take, List.take_of_length_le hk', List.append_assoc]
      rw [htake] at hst ⊢
      exact hfail op hop hst

theorem guarded_ite {c : Prop} [Decidable c] {a b : Setup β} (ha : Guarded a)
    (hb : Guarded b) : Guarded (if c then a else b) := by
  by_cases h : c
  · rw [if_pos h]; exact ha
  · rw [if_neg h]; exact hb

theorem guarded_selectPlatform : Guarded OpenCLContext.selectPlatform := by
  unfold OpenCLContext.selectPlatform
  refine guarded_bind (guarded_checked _ _ rfl) (fun r => ?_)
  refine guarded_bind (guarded_checked _ _ rfl) (fun r => ?_)
  refine guarded_bind (guarded_index _ _) (fun x => ?_)
  refine guarded_bind (guarded_cout _) (fun _ => ?_)
  refine guarded_bind (guarded_call _ rfl) (fun r => ?_)
  dsimp only
  exact guarded_ite (guarded_bind (guarded_cout _) (fun _ => guarded_pure _))
    (guarded_bind (guarded_pure _) (fun _ => guarded_pure _))

theorem guarded_selectDevice (platform_ : Nat) :
    Guarded (OpenCLContext.selectDevice platform_) := by
  have tail : ∀ devices : List Nat, Guarded (do
      let device_ ← Setup.index devices 0
      Setup.cout "Selected device: "
      let r ← Setup.call (.getDeviceName device_)
      if r.status = CL_SUCCESS then Setup.cout (r.text ++ "\n") else pure ()
      pure device_) := by
    intro devices
    refine guarded_bind (guarded_index _ _) (fun x => ?_)
    refine guarded_bind (guarded_cout _) (fun _ => ?_)
    refine guarded_bind (guarded_call _ rfl) (fun r => ?_)
    dsimp only
    exact guarded_ite (guarded_bind (guarded_cout _) (fun _ => guarded_pure _))
      (guarded_bind (guarded_pure _) (fun _ => guarded_pure _))
  have ids : ∀ numDevices : Nat, Guarded (do
      let r ← Setup.call (.getDeviceIDs platform_ .CL_DEVICE_TYPE_GPU numDevices)
      let devices ←
        if r.status ≠ CL_SUCCESS then do
          let r ← Setup.checked (.getDeviceIDs platform_ .CL_DEVICE_TYPE_CPU numDevices)
            "Getting device IDs"
          pure (fillVector numDevices r.ids)
        else pure (fillVector numDevices r.ids)
      let device_ ← Setup.index devices 0
      Setup.cout "Selected device: "
      let r ← Setup.call (.getDeviceName device_)
      if r.status = CL_SUCCESS then Setup.cout (r.text ++ "\n") else pure ()
      pure device_) := by
    intro numDevices
    refine guarded_bind (guarded_call _ rfl) (fun r => ?_)
    dsimp only
    refine guarded_ite ?_ ?_
    · refine guarded_bind (guarded_checked _ _ rfl) (fun r => ?_)
      exact guarded_bind (guarded_pure _) (fun v => tail v)
    · exact guarded_bind (guarded_pure _) (fun v => tail v)
  unfold OpenCLContext.selectDevice
  refine guarded_bind (guarded_call _ rfl) (fun r => ?_)
  dsimp only
  refine guarded_ite ?_ ?_
  · refine guarded_bind (guarded_cout _) (fun _ => ?_)
    refine guarded_bind (guarded_checked _ _ rfl) (fun r => ?_)
    exact guarded_bind (guarded_pure _) (fun n => ids n)
  · exact guarded_bind (guarded_pure _) (fun n => ids n)

theorem guarded_create : Guarded OpenCLContext.create := by
  unfold OpenCLContext.create OpenCLContext.createContext OpenCLContext.createCommandQueue
  refine guarded_bind guarded_selectPlatform (fun p => ?_)
  refine guarded_bind (guarded_selectDevice p) (fun d => ?_)
  refine guarded_bind (guarded_bind (guarded_checked _ _ rfl) (fun _ => guarded_pure _))
    (fun c => ?_)
  exact guarded_bind (guarded_bind (guarded_checked _ _ rfl) (fun _ => guarded_pure _))
    (fun q => guarded_pure _)

end GuardedProofs

section FallbackProofs
variable {β γ : Type}

theorem fallsBackTrace_nil (rt : Runtime) (t0 : List HostEvent) : FallsBackTrace rt t0 [] := by
  intro k platform
  exact ⟨fun h => by simp at h, fun n h => by simp at h⟩

theorem fallsBackTrace_append (rt : Runtime) (t0 s1 s2 : List HostEvent)
    (h1 : FallsBackTrace rt t0 s1) (h2 : FallsBackTrace rt (t0 ++ s1) s2) :
    FallsBackTrace rt t0 (s1 ++ s2) := by
  intro k platform
  by_cases hk : k < s1.length
  · have htake : t0 ++ (s1 ++ s2).take k = t0 ++ s1.take k := by
      rw [List.take_append_of_le_length hk.le]
    rw [List.getElem?_append_left hk, htake]
    obtain ⟨hc, hi⟩ := h1 k platform
    constructor
    · intro he hst
      obtain ⟨ha, hb⟩ := hc he hst
      have hlt1 : k + 1 < s1.length := by
        by_contra hge
        rw [List.getElem?_eq_none (not_lt.mp hge)] at ha
        cases ha
      have hlt2 : k + 2 < s1.length := by
        by_contra hge
        rw [List.getElem?_eq_none (not_lt.mp hge)] at hb
        cases hb
      rw [List.getElem?_append_left hlt1, List.getElem?_append_left hlt2]
      exact ⟨ha, hb⟩
    · intro n he hst
      have ha := hi n he hst
      have hlt1 : k + 1 < s1.length := by
        by_contra hge
        rw [List.getElem?_eq_none (not_lt.mp hge)] at ha
        cases ha
      rw [List.getElem?_append_left hlt1]
      exact ha
  · have hk' : s1.length ≤ k := not_lt.mp hk
    have htake : t0 ++ (s1 ++ s2).take k = t0 ++ s1 ++ s2.take (k - s1.length) := by
      rw [List.take_append_eq_append_take, List.take_of_length_le hk', List.append_assoc]
    rw [List.getElem?_append_right hk', htake,
      List.getElem?_append_right (show s1.length ≤ k + 1 by omega),
      List.getElem?_append_right (show s1.length ≤ k + 2 by omega),
      show k + 1 - s1.length = k - s1.length + 1 by omega,
      show k + 2 - s1.length = k - s1.length + 2 by omega]
    exact h2 (k - s1.length) platform

/-- A single event that is not an unchecked enumeration of GPU devices. -/
theorem fallsBackTrace_single (rt : Runtime) (t0 : List HostEvent) (e : HostEvent)
    (he : ∀ platform, e ≠ .call (.getDeviceCount platform .CL_DEVICE_TYPE_GPU) none ∧
      ∀ n, e ≠ .call (.getDeviceIDs platform .CL_DEVICE_TYPE_GPU n) none) :
    FallsBackTrace rt t0 [e] := by
  intro k platform
  cases k with
  | zero =>
    refine ⟨fun h => ?_, fun n h => ?_⟩
    · simp only [List.getElem?_cons_zero, Option.some.injEq] at h
      exact absurd h (he platform).1
    · simp only [List.getElem?_cons_zero, Option.some.injEq] at h
      exact absurd h ((he platform).2 n)
  | succ k => exact ⟨fun h => by simp at h, fun n h => by simp at h⟩

theorem fallsBack_pure (x : β) : FallsBack (pure x : Setup β) :=
  fun rt t0 => ⟨[], (List.append_nil t0).symm, fallsBackTrace_nil rt t0⟩

theorem fallsBack_cout (text : String) : FallsBack (Setup.cout text) :=
  fun rt t0 => ⟨[.stdout text], rfl,
    fallsBackTrace_single rt t0 _ (fun _ => ⟨by simp, fun _ => by simp⟩)⟩

theorem fallsBack_index (v : List Nat) (i : Nat) : FallsBack (Setup.index v i) := by
  intro rt t0
  refine ⟨[], ?_, fallsBackTrace_nil rt t0⟩
  unfold Setup.index
  cases v[i]? <;> simp

theorem fallsBack_checked (c : HostCall) (op : String) : FallsBack (Setup.checked c op) := by
  intro rt t0
  refine ⟨[.call c (some op)], ?_,
    fallsBackTrace_single rt t0 _ (fun _ => ⟨by simp, fun _ => by simp⟩)⟩
  unfold Setup.checked
  cases checkOpenCLError (rt.reply t0 c).status op <;> rfl

theorem fallsBack_call (c : HostCall)
    (hc : ∀ platform, c ≠ .getDeviceCount platform .CL_DEVICE_TYPE_GPU ∧
      ∀ n, c ≠ .getDeviceIDs platform .CL_DEVICE_TYPE_GPU n) : FallsBack (Setup.call c) :=
  fun rt t0 => ⟨[.call c none], rfl,
    fallsBackTrace_single rt t0 _ (fun p =>
      ⟨fun h => (hc p).1 (by simpa using h), fun n h => (hc p).2 n (by simpa using h)⟩)⟩

theorem fallsBack_bind {m : Setup β} {f : β → Setup γ} (hm : FallsBack m)
    (hf : ∀ x, FallsBack (f x)) : FallsBack (m >>= f) := by
  intro rt t0
  obtain ⟨s1, ht1, h1⟩ := hm rt t0
  rw [setup_bind_run]
  rcases hrun : m rt t0 with ⟨r, t1⟩
  rw [hrun] at ht1
  simp only at ht1
  subst ht1
  cases r with
  | error e => exact ⟨s1, rfl, h1⟩
  | ok x =>
    obtain ⟨s2, ht2, h2⟩ := hf x rt (t0 ++ s1)
    exact ⟨s1 ++ s2, by simp only [ht2, List.append_assoc],
      fallsBackTrace_append rt t0 s1 s2 h1 h2⟩

theorem fallsBack_ite {c : Prop} [Decidable c] {a b : Setup β} (ha : FallsBack a)
    (hb : FallsBack b) : FallsBack (if c then a else b) := by
  by_cases h : c
  · rw [if_pos h]; exact ha
  · rw [if_neg h]; exact hb

/-- The count of GPU devices: when it fails or reports none, the message and
the checked count of CPU devices come next. -/
theorem fallsBack_gpuCount (platform_ : Nat) {K B : Reply → Setup β}
    (hK : ∀ r, FallsBack (K r)) (hB : ∀ r, FallsBack (B r)) :
    FallsBack (Setup.call (.getDeviceCount platform_ .CL_DEVICE_TYPE_GPU) >>= fun r =>
      if r.status ≠ CL_SUCCESS ∨ r.count = 0 then
        Setup.cout "No GPU found, falling back to CPU\n" >>= fun _ =>
          Setup.checked (.getDeviceCount platform_ .CL_DEVICE_TYPE_CPU)
            "Getting number of CPU devices" >>= K
      else B r) := by
  intro rt t0
  rw [setup_bind_run]
  simp only [Setup.call]
  by_cases hc : (rt.reply t0 (.getDeviceCount platform_ .CL_DEVICE_TYPE_GPU)).status
      ≠ CL_SUCCESS ∨ (rt.reply t0 (.getDeviceCount platform_ .CL_DEVICE_TYPE_GPU)).count = 0
  · rw [if_pos hc]
    have hhead : FallsBackTrace rt t0
        [.call (.getDeviceCount platform_ .CL_DEVICE_TYPE_GPU) none,
          .stdout "No GPU found, falling back to CPU\n",
          .call (.getDeviceCount platform_ .CL_DEVICE_TYPE_CPU)
            (some "Getting number of CPU devices")] := by
      intro k platform
      rcases k with _ | _ | _ | k
      · refine ⟨fun h _ => ?_, fun n h => by simp at h⟩
        simp only [List.getElem?_cons_zero, Option.some.injEq, HostEvent.call.injEq,
          HostCall.getDeviceCount.injEq, and_true] at h
        obtain ⟨rfl, -⟩ := h
        exact ⟨rfl, rfl⟩
      · exact ⟨fun h => by simp at h, fun n h => by simp at h⟩
      · exact ⟨fun h => by simp at h, fun n h => by simp at h⟩
      · exact ⟨fun h => by simp at h, fun n h => by simp at h⟩
    rw [setup_bind_run]
    simp only [Setup.cout]
    rw [setup_bind_run]
    have hs2' : (Setup.checked (.getDeviceCount platform_ .CL_DEVICE_TYPE_CPU)
        "Getting number of CPU devices" rt
        (t0 ++ [.call (.getDeviceCount platform_ .CL_DEVICE_TYPE_GPU) none] ++
          [.stdout "No GPU found, falling back to CPU\n"])).2 =
        t0 ++ [.call (.getDeviceCount platform_ .CL_DEVICE_TYPE_GPU) none,
          .stdout "No GPU found, falling back to CPU\n",
          .call (.getDeviceCount platform_ .CL_DEVICE_TYPE_CPU)
            (some "Getting number of CPU devices")] := by
      unfold Setup.checked
      cases checkOpenCLError _ _ <;> simp
    rcases hrun : Setup.checked (.getDeviceCount platform_ .CL_DEVICE_TYPE_CPU)
        "Getting number of CPU devices" rt
        (t0 ++ [.call (.getDeviceCount platform_ .CL_DEVICE_TYPE_GPU) none] ++
          [.stdout "No GPU found, falling back to CPU\n"]) with ⟨r, t1⟩
    rw [hrun] at hs2'
    simp only at hs2'
    subst hs2'
    simp only [hrun]
    cases r with
    | error e => exact ⟨_, rfl, hhead⟩
    | ok x =>
      obtain ⟨s3, hs3, h3⟩ := hK x rt (t0 ++ [.call (.getDeviceCount platform_
        .CL_DEVICE_TYPE_GPU) none, .stdout "No GPU found, falling back to CPU\n",
        .call (.getDeviceCount platform_ .CL_DEVICE_TYPE_CPU)
          (some "Getting number of CPU devices")])
      exact ⟨_, by simp only [hs3, List.append_assoc], fallsBackTrace_append rt t0 _ s3 hhead h3⟩
  · rw [if_neg hc]
    have hok : (rt.reply t0 (.getDeviceCount platform_ .CL_DEVICE_TYPE_GPU)).status
        = CL_SUCCESS := by
      by_contra hne
      exact hc (Or.inl hne)
    have hhead : FallsBackTrace rt t0
        [.call (.getDeviceCount platform_ .CL_DEVICE_TYPE_GPU) none] := by
      intro k platform
      cases k with
      | zero =>
        refine ⟨fun h hst => ?_, fun n h => by simp at h⟩
        simp only [List.getElem?_cons_zero, Option.some.injEq, HostEvent.call.injEq,
          HostCall.getDeviceCount.injEq, and_true] at h
        obtain ⟨rfl, -⟩ := h
        simp only [List.take_zero, List.append_nil] at hst
        exact absurd hok hst
      | succ k => exact ⟨fun h => by simp at h, fun n h => by simp at h⟩
    obtain ⟨s2, hs2, h2⟩ := hB (rt.reply t0 (.getDeviceCount platform_ .CL_DEVICE_TYPE_GPU)) rt
      (t0 ++ [.call (.getDeviceCount platform_ .CL_DEVICE_TYPE_GPU) none])
    exact ⟨_, by simp only [hs2, List.append_assoc], fallsBackTrace_append rt t0 _ s2 hhead h2⟩

/-- The enumeration of GPU devices: when it fails, the checked enumeration
of CPU devices with the same number of entries comes next. -/
theorem fallsBack_gpuIDs (platform_ numDevices : Nat) {K B : Reply → Setup β}
    (hK : ∀ r, FallsBack (K r)) (hB : ∀ r, FallsBack (B r)) :
    FallsBack (Setup.call (.getDeviceIDs platform_ .CL_DEVICE_TYPE_GPU numDevices) >>= fun r =>
      if r.status ≠ CL_SUCCESS then
        Setup.checked (.getDeviceIDs platform_ .CL_DEVICE_TYPE_CPU numDevices)
          "Getting device IDs" >>= K
      else B r) := by
  intro rt t0
  rw [setup_bind_run]
  simp only [Setup.call]
  by_cases hc : (rt.reply t0 (.getDeviceIDs platform_ .CL_DEVICE_TYPE_GPU numDevices)).status
      ≠ CL_SUCCESS
  · rw [if_pos hc]
    have hhead : FallsBackTrace rt t0
        [.call (.getDeviceIDs platform_ .CL_DEVICE_TYPE_GPU numDevices) none,
          .call (.getDeviceIDs platform_ .CL_DEVICE_TYPE_CPU numDevices)
            (some "Getting device IDs")] := by
      intro k platform
      rcases k with _ | _ | k
      · refine ⟨fun h => by simp at h, fun n h _ => ?_⟩
        simp only [List.getElem?_cons_zero, Option.some.injEq, HostEvent.call.injEq,
          HostCall.getDeviceIDs.injEq, and_true] at h
        obtain ⟨rfl, -, rfl⟩ := h
        rfl
      · exact ⟨fun h => by simp at h, fun n h => by simp at h⟩
      · exact ⟨fun h => by simp at h, fun n h => by simp at h⟩
    rw [setup_bind_run]
    have hs2' : (Setup.checked (.getDeviceIDs platform_ .CL_DEVICE_TYPE_CPU numDevices)
        "Getting device IDs" rt
        (t0 ++ [.call (.getDeviceIDs platform_ .CL_DEVICE_TYPE_GPU numDevices) none])).2 =
        t0 ++ [.call (.getDeviceIDs platform_ .CL_DEVICE_TYPE_GPU numDevices) none,
          .call (.getDeviceIDs platform_ .CL_DEVICE_TYPE_CPU numDevices)
            (some "Getting device IDs")] := by
      unfold Setup.checked
      cases checkOpenCLError _ _ <;> simp
    rcases hrun : Setup.checked (.getDeviceIDs platform_ .CL_DEVICE_TYPE_CPU numDevices)
        "Getting device IDs" rt
        (t0 ++ [.call (.getDeviceIDs platform_ .CL_DEVICE_TYPE_GPU numDevices) none])
      with ⟨r, t1⟩
    rw [hrun] at hs2'
    simp only at hs2'
    subst hs2'
    simp only [hrun]
    cases r with
    | error e => exact ⟨_, rfl, hhead⟩
    | ok x =>
      obtain ⟨s3, hs3, h3⟩ := hK x rt (t0 ++ [.call (.getDeviceIDs platform_
        .CL_DEVICE_TYPE_GPU numDevices) none,
        .call (.getDeviceIDs platform_ .CL_DEVICE_TYPE_CPU numDevices)
          (some "Getting device IDs")])
      exact ⟨_, by simp only [hs3, List.append_assoc], fallsBackTrace_append rt t0 _ s3 hhead h3⟩
  · rw [if_neg hc]
    have hok : (rt.reply t0 (.getDeviceIDs platform_ .CL_DEVICE_TYPE_GPU numDevices)).status
        = CL_SUCCESS := not_not.mp hc
    have hhead : FallsBackTrace rt t0
        [.call (.getDeviceIDs platform_ .CL_DEVICE_TYPE_GPU numDevices) none] := by
      intro k platform
      cases k with
      | zero =>
        refine ⟨fun h => by simp at h, fun n h hst => ?_⟩
        simp only [List.getElem?_cons_zero, Option.some.injEq, HostEvent.call.injEq,
          HostCall.getDeviceIDs.injEq, and_true] at h
        obtain ⟨rfl, -, rfl⟩ := h
        simp only [List.take_zero, List.append_nil] at hst
        exact absurd hok hst
      | succ k => exact ⟨fun h => by simp at h, fun n h => by simp at h⟩
    obtain ⟨s2, hs2, h2⟩ :=
      hB (rt.reply t0 (.getDeviceIDs platform_ .CL_DEVICE_TYPE_GPU numDevices)) rt
        (t0 ++ [.call (.getDeviceIDs platform_ .CL_DEVICE_TYPE_GPU numDevices) none])
    exact ⟨_, by simp only [hs2, List.append_assoc], fallsBackTrace_append rt t0 _ s2 hhead h2⟩

theorem fallsBack_selectPlatform : FallsBack OpenCLContext.selectPlatform := by
  unfold OpenCLContext.selectPlatform
  refine fallsBack_bind (fallsBack_checked _ _) (fun r => ?_)
  refine fallsBack_bind (fallsBack_checked _ _) (fun r => ?_)
  refine fallsBack_bind (fallsBack_index _ _) (fun x => ?_)
  refine fallsBack_bind (fallsBack_cout _) (fun _ => ?_)
  refine fallsBack_bind (fallsBack_call _ (fun _ => ⟨by simp, fun _ => by simp⟩)) (fun r => ?_)
  dsimp only
  exact fallsBack_ite (fallsBack_bind (fallsBack_cout _) (fun _ => fallsBack_pure _))
    (fallsBack_bind (fallsBack_pure _) (fun _ => fallsBack_pure _))

theorem fallsBack_selectDevice (platform_ : Nat) :
    FallsBack (OpenCLContext.selectDevice platform_) := by
  have tail : ∀ devices : List Nat, FallsBack (do
      let device_ ← Setup.index devices 0
      Setup.cout "Selected device: "
      let r ← Setup.call (.getDeviceName device_)
      if r.status = CL_SUCCESS then Setup.cout (r.text ++ "\n") else pure ()
      pure device_) := by
    intro devices
    refine fallsBack_bind (fallsBack_index _ _) (fun x => ?_)
    refine fallsBack_bind (fallsBack_cout _) (fun _ => ?_)
    refine fallsBack_bind (fallsBack_call _ (fun _ => ⟨by simp, fun _ => by simp⟩)) (fun r => ?_)
    dsimp only
    exact fallsBack_ite (fallsBack_bind (fallsBack_cout _) (fun _ => fallsBack_pure _))
      (fallsBack_bind (fallsBack_pure _) (fun _ => fallsBack_pure _))
  have ids : ∀ numDevices : Nat, FallsBack (do
      let r ← Setup.call (.getDeviceIDs platform_ .CL_DEVICE_TYPE_GPU numDevices)
      let devices ←
        if r.status ≠ CL_SUCCESS then do
          let r ← Setup.checked (.getDeviceIDs platform_ .CL_DEVICE_TYPE_CPU numDevices)
            "Getting device IDs"
          pure (fillVector numDevices r.ids)
        else pure (fillVector numDevices r.ids)
      let device_ ← Setup.index devices 0
      Setup.cout "Selected device: "
      let r ← Setup.call (.getDeviceName device_)
      if r.status = CL_SUCCESS then Setup.cout (r.text ++ "\n") else pure ()
      pure device_) := by
    intro numDevices
    exact fallsBack_gpuIDs platform_ numDevices
      (fun r => fallsBack_bind (fallsBack_pure _) (fun v => tail v))
      (fun r => fallsBack_bind (fallsBack_pure _) (fun v => tail v))
  unfold OpenCLContext.selectDevice
  exact fallsBack_gpuCount platform_
    (fun r => fallsBack_bind (fallsBack_pure _) (fun n => ids n))
    (fun r => fallsBack_bind (fallsBack_pure _) (fun n => ids n))

theorem fallsBack_create : FallsBack OpenCLContext.create := by
  unfold OpenCLContext.create
  refine fallsBack_bind fallsBack_selectPlatform (fun platform_ => ?_)
  refine fallsBack_bind (fallsBack_selectDevice platform_) (fun device_ => ?_)
  refine fallsBack_bind ?_ (fun context_ => ?_)
  · unfold OpenCLContext.createContext
    exact fallsBack_bind (fallsBack_checked _ _) (fun _ => fallsBack_pure _)
  · refine fallsBack_bind ?_ (fun _ => fallsBack_pure _)
    unfold OpenCLContext.createCommandQueue
    exact fallsBack_bind (fallsBack_checked _ _) (fun _ => fallsBack_pure _)

end FallbackProofs

/-- C12 as stated fails: on a machine whose only platform has a CPU device
and no GPU, the enumeration of GPU devices returns `CL_DEVICE_NOT_FOUND`,
yet the construction of `OpenCLContext` raises nothing and returns a context
on the CPU device. -/
theorem construction_survives_failed_gpu_enumeration :
    (OpenCLContext.create (machine cpuOnlyMachine) []).1 = .ok ⟨100, 200, 1, 2⟩ ∧
    (OpenCLContext.create (machine cpuOnlyMachine) []).2[5]? =
      some (.call (.getDeviceCount 100 .CL_DEVICE_TYPE_GPU) none) ∧
    ((machine cpuOnlyMachine).reply
      ((OpenCLContext.create (machine cpuOnlyMachine) []).2.take 5)
      (.getDeviceCount 100 .CL_DEVICE_TYPE_GPU)).status = CL_DEVICE_NOT_FOUND ∧
    ¬ RaisesOnEveryFailure (machine cpuOnlyMachine)
      (OpenCLContext.create (machine cpuOnlyMachine) []) := by
  refine ⟨rfl, rfl, rfl, fun h => ?_⟩
  obtain ⟨op, hop⟩ := h 5 (.getDeviceCount 100 .CL_DEVICE_TYPE_GPU) none rfl rfl (by decide)
  have hrun : (OpenCLContext.create (machine cpuOnlyMachine) []).1 = .ok ⟨100, 200, 1, 2⟩ := rfl
  rw [hrun] at hop
  simp at hop

/-- C12 amended: during the construction of `OpenCLContext`, on any runtime,
the calls checked right after they return are the two platform enumeration
calls, the two enumeration calls for CPU devices, the context creation and
the command-queue creation (`checkOf`); when one of them returns a status
other than `CL_SUCCESS` the construction throws the `checkOpenCLError`
exception with the operation name of that call and its status.  The
enumeration calls for GPU devices are not checked: when the count of GPU
devices returns a status other than `CL_SUCCESS` the construction goes on
with the message "No GPU found, falling back to CPU" and the checked count
of CPU devices, and when the enumeration of GPU devices returns such a
status it goes on with the checked enumeration of CPU devices.  On a machine
whose first platform has no GPU device but a CPU device, the count of GPU
devices returns `CL_DEVICE_NOT_FOUND` and the construction returns a context
on the first CPU device. -/
theorem construction_raises_on_checked_failure (rt : Runtime) (k : Nat) (c : HostCall)
    (chk : Option String)
    (hcall : (OpenCLContext.create rt []).2[k]? = some (.call c chk)) :
    chk = checkOf c ∧
    (∀ op, chk = some op →
      (rt.reply ((OpenCLContext.create rt []).2.take k) c).status ≠ CL_SUCCESS →
      (OpenCLContext.create rt []).1 =
        .error (.thrown (.runtime_error
          ("OpenCL error in " ++ op ++ ": " ++
            toString (rt.reply ((OpenCLContext.create rt []).2.take k) c).status)))) ∧
    (∀ platform numEntries, checkOf (.getDeviceCount platform .CL_DEVICE_TYPE_GPU) = none ∧
      checkOf (.getDeviceIDs platform .CL_DEVICE_TYPE_GPU numEntries) = none) ∧
    (∀ platform, c = .getDeviceCount platform .CL_DEVICE_TYPE_GPU →
      (rt.reply ((OpenCLContext.create rt []).2.take k) c).status ≠ CL_SUCCESS →
      (OpenCLContext.create rt []).2[k + 1]? =
        some (.stdout "No GPU found, falling back to CPU\n") ∧
      (OpenCLContext.create rt []).2[k + 2]? =
        some (.call (.getDeviceCount platform .CL_DEVICE_TYPE_CPU)
          (some "Getting number of CPU devices"))) ∧
    (∀ platform numEntries, c = .getDeviceIDs platform .CL_DEVICE_TYPE_GPU numEntries →
      (rt.reply ((OpenCLContext.create rt []).2.take k) c).status ≠ CL_SUCCESS →
      (OpenCLContext.create rt []).2[k + 1]? =
        some (.call (.getDeviceIDs platform .CL_DEVICE_TYPE_CPU numEntries)
          (some "Getting device IDs"))) ∧
    (∀ (p : PlatformInfo) (rest : List PlatformInfo) (cpu : Nat) (cs : List Nat),
      devicesOfType p .CL_DEVICE_TYPE_GPU = [] →
      devicesOfType p .CL_DEVICE_TYPE_CPU = cpu :: cs →
      ((machine (p :: rest)).reply [] (.getDeviceCount p.id .CL_DEVICE_TYPE_GPU)).status =
        CL_DEVICE_NOT_FOUND ∧
      ∃ ctx t, OpenCLContext.create (machine (p :: rest)) [] = (.ok ctx, t) ∧
        ctx.platform_ = p.id ∧ ctx.device_ = cpu) := by
  obtain ⟨s, hs, hstop⟩ := guarded_create rt []
  obtain ⟨s', hs', hfall⟩ := fallsBack_create rt []
  rw [List.nil_append] at hs hs'
  have hss : s' = s := by rw [← hs, ← hs']
  subst hss
  rw [hs] at hcall ⊢
  obtain ⟨h1, h2⟩ := hstop k c chk hcall
  refine ⟨h1, fun op hop hst => ?_, fun _ _ => ⟨rfl, rfl⟩, fun platform hc hst => ?_,
    fun platform n hc hst => ?_, fun p rest cpu cs hg hcpu => ⟨?_, ?_⟩⟩
  · have := h2 op hop (by simpa using hst)
    simpa [openCLError] using this
  · subst hc
    have hchk : chk = none := h1
    subst hchk
    exact (hfall k platform).1 hcall (by simpa using hst)
  · subst hc
    have hchk : chk = none := h1
    subst hchk
    exact (hfall k platform).2 n hcall (by simpa using hst)
  · simp [machine, machineReply, hg, Reply.failure]
  · exact yields_create p rest cpu (yields_selectDevice_cpu p rest cpu cs hg hcpu) []

theorem construction_raises_on_checked_failure_witness :
    ((OpenCLContext.create (machine []) []).2[1]? =
      some (.call (.getPlatformIDs 0) (some "Getting platform IDs")) ∧
    ((machine []).reply ((OpenCLContext.create (machine []) []).2.take 1)
      (.getPlatformIDs 0)).status ≠ CL_SUCCESS ∧
    (OpenCLContext.create (machine []) []).1 =
      .error (.thrown (.runtime_error
        ("OpenCL error in " ++ "Getting platform IDs" ++ ": " ++
          toString ((machine []).reply ((OpenCLContext.create (machine []) []).2.take 1)
            (.getPlatformIDs 0)).status)))) ∧
    ((OpenCLContext.create (machine cpuOnlyMachine) []).2[5]? =
      some (.call (.getDeviceCount 100 .CL_DEVICE_TYPE_GPU) none) ∧
    ((machine cpuOnlyMachine).reply ((OpenCLContext.create (machine cpuOnlyMachine) []).2.take 5)
      (.getDeviceCount 100 .CL_DEVICE_TYPE_GPU)).status ≠ CL_SUCCESS ∧
    (OpenCLContext.create (machine cpuOnlyMachine) []).2[5 + 1]? =
      some (.stdout "No GPU found, falling back to CPU\n") ∧
    (OpenCLContext.create (machine cpuOnlyMachine) []).2[5 + 2]? =
      some (.call (.getDeviceCount 100 .CL_DEVICE_TYPE_CPU)
        (some "Getting number of CPU devices"))) :=
  ⟨⟨rfl, by decide,
    (construction_raises_on_checked_failure (machine []) 1 (.getPlatformIDs 0)
      (some "Getting platform IDs") rfl).2.1 "Getting platform IDs" rfl (by decide)⟩,
   ⟨rfl, by decide,
    (construction_raises_on_checked_failure (machine cpuOnlyMachine) 5
      (.getDeviceCount 100 .CL_DEVICE_TYPE_GPU) none rfl).2.2.2.1 100 rfl (by decide)⟩⟩

theorem OpenCLContext_selects_device_witness :
    (devicesOfType ⟨100, "Vendor platform",
        [⟨200, .CL_DEVICE_TYPE_CPU, "Host CPU"⟩, ⟨201, .CL_DEVICE_TYPE_GPU, "First GPU"⟩,
         ⟨202, .CL_DEVICE_TYPE_GPU, "Second GPU"⟩]⟩ .CL_DEVICE_TYPE_GPU = 201 :: [202]) ∧
    ∃ ctx t, OpenCLContext.create (machine (⟨100, "Vendor platform",
        [⟨200, .CL_DEVICE_TYPE_CPU, "Host CPU"⟩, ⟨201, .CL_DEVICE_TYPE_GPU, "First GPU"⟩,
         ⟨202, .CL_DEVICE_TYPE_GPU, "Second GPU"⟩]⟩ :: [])) [] = (.ok ctx, t) ∧
      ctx.platform_ = (⟨100, "Vendor platform",
        [⟨200, .CL_DEVICE_TYPE_CPU, "Host CPU"⟩, ⟨201, .CL_DEVICE_TYPE_GPU, "First GPU"⟩,
         ⟨202, .CL_DEVICE_TYPE_GPU, "Second GPU"⟩]⟩ : PlatformInfo).id ∧
      ctx.device_ = 201 :=
  ⟨by decide,
    (OpenCLContext_selects_device ⟨100, "Vendor platform",
        [⟨200, .CL_DEVICE_TYPE_CPU, "Host CPU"⟩, ⟨201, .CL_DEVICE_TYPE_GPU, "First GPU"⟩,
         ⟨202, .CL_DEVICE_TYPE_GPU, "Second GPU"⟩]⟩ []).1 201 [202] (by decide)⟩

/-! ## Kernel compilation -/

/-- C13: when `clBuildProgram` returns a status other than `CL_SUCCESS`,
`compileProgram` asks for the size of the build log and for the log, writes
`Build log: <log>` to `std::cerr`, and then throws the `Building program`
error; when the build succeeds it makes no build-log query and returns the
program. -/
theorem compileProgram_build_log (rt : Runtime) (context : OpenCLContext) (source : String)
    (t0 : List HostEvent)
    (hcreate : (rt.reply t0 (.createProgramWithSource context.context_ source)).status
      = CL_SUCCESS) :
    let program := (rt.reply t0 (.createProgramWithSource context.context_ source)).handle
    let t1 := t0 ++ [.call (.createProgramWithSource context.context_ source)
      (some "Creating program")]
    let build := rt.reply t1 (.buildProgram program context.device_)
    let t2 := t1 ++ [.call (.buildProgram program context.device_) none]
    let logSize := rt.reply t2 (.getBuildLogSize program context.device_)
    let t3 := t2 ++ [.call (.getBuildLogSize program context.device_) none]
    let log := rt.reply t3 (.getBuildLog program context.device_ logSize.count)
    (build.status ≠ CL_SUCCESS →
      OpenCLKernel.compileProgram context source rt t0 =
        (.error (.thrown (.runtime_error
            ("OpenCL error in Building program: " ++ toString build.status))),
          t3 ++ [.call (.getBuildLog program context.device_ logSize.count) none,
            .stderr ("Build log: " ++ log.text ++ "\n")])) ∧
    (build.status = CL_SUCCESS →
      OpenCLKernel.compileProgram context source rt t0 = (.ok program, t2)) := by
  dsimp only
  have hstep : Setup.checked (.createProgramWithSource context.context_ source)
      "Creating program" rt t0 =
      (.ok (rt.reply t0 (.createProgramWithSource context.context_ source)),
        t0 ++ [.call (.createProgramWithSource context.context_ source)
          (some "Creating program")]) := by
    unfold Setup.checked checkOpenCLError
    rw [if_neg (not_not.mpr hcreate)]
  constructor
  · intro hfail
    unfold OpenCLKernel.compileProgram
    rw [setup_bind_run, hstep]
    simp only [setup_bind_run, Setup.call]
    rw [if_pos hfail]
    simp only [setup_bind_run, Setup.call, Setup.cerr, Setup.check, checkOpenCLError,
      if_pos hfail, List.append_assoc, List.singleton_append]
    rfl
  · intro hok
    unfold OpenCLKernel.compileProgram
    rw [setup_bind_run, hstep]
    simp only [setup_bind_run, Setup.call]
    rw [if_neg (not_not.mpr hok)]
    rfl

theorem compileProgram_build_log_witness :
    OpenCLKernel.compileProgram ⟨1, 2, 3, 4⟩ "__kernel" buildFails [] =
      (.error (.thrown (.runtime_error "OpenCL error in Building program: -11")),
        [.call (.createProgramWithSource 3 "__kernel") (some "Creating program"),
         .call (.buildProgram 7 2) none, .call (.getBuildLogSize 7 2) none,
         .call (.getBuildLog 7 2 9) none, .stderr "Build log: error: x\n"]) :=
  (compileProgram_build_log buildFails ⟨1, 2, 3, 4⟩ "__kernel" [] rfl).1 (by decide)

/-! ## The matrix operations on the device that executes the kernels -/

section IdealDeviceProofs

variable {α : Type} [Zero α] [Add α] [Mul α] {β γ : Type}

theorem simulate_append (t : List (Entry α)) (e : Entry α) :
    simulate (t ++ [e]) = (simulate t).step e := by
  unfold simulate
  rw [List.foldl_append, List.foldl_cons, List.foldl_nil]

theorem step_next (s : DeviceState α) (e : Entry α) : (s.step e).next = s.next + 1 := by
  unfold DeviceState.step
  cases e.call <;> rfl

theorem simulate_next (t : List (Entry α)) : (simulate t).next = t.length := by
  induction t using List.reverseRecOn with
  | nil => rfl
  | append_singleton t e ih => rw [simulate_append, step_next, ih, List.length_append]; rfl

theorem ideal_checkedCall (c : ApiCall α) (op : String) (t : List (Entry α)) :
    checkedCall c op idealDevice t = (.ok (), t ++ [⟨c, some op⟩]) := rfl

theorem ideal_writeData (b : OpenCLBuffer) (data : List α) (t : List (Entry α)) :
    b.writeData data 0 idealDevice t =
      (.ok (), t ++ [⟨.enqueueWriteBuffer b.buffer 0 b.size data, some "Writing buffer data"⟩]) := by
  unfold OpenCLBuffer.writeData
  rw [sizeTSub_zero]
  rfl

theorem ideal_readData (b : OpenCLBuffer) (count : Nat) (t : List (Entry α)) :
    b.readData count 0 idealDevice t =
      (.ok ((List.range count).map fun i =>
          ((simulate (t ++ [⟨.enqueueReadBuffer b.buffer 0 b.size,
            some "Reading buffer data"⟩])).mem b.buffer).getD i 0),
        t ++ [⟨.enqueueReadBuffer b.buffer 0 b.size, some "Reading buffer data"⟩]) := by
  unfold OpenCLBuffer.readData
  rw [sizeTSub_zero]
  rfl

theorem ideal_scoped (size : Nat) (flags : MemFlags) (body : OpenCLBuffer → Gpu α β)
    (t : List (Entry α)) :
    OpenCLBuffer.scoped size flags body idealDevice t =
      ((body ⟨t.length, size⟩ idealDevice
          (t ++ [⟨.createBuffer flags size, some "Creating buffer"⟩])).1,
        (body ⟨t.length, size⟩ idealDevice
          (t ++ [⟨.createBuffer flags size, some "Creating buffer"⟩])).2 ++
          [⟨.releaseMemObject t.length, none⟩]) := rfl

omit [Zero α] [Add α] [Mul α] in
theorem gpu_bind_ok {m : Gpu α β} {f : β → Gpu α γ} {dev : Device α} {t t1 : List (Entry α)}
    {x : β} (h : m dev t = (.ok x, t1)) : (m >>= f) dev t = f x dev t1 := by
  rw [gpu_bind_run, h]

omit [Zero α] [Add α] [Mul α] in
theorem gpu_bind_assoc {δ : Type} (m : Gpu α β) (f : β → Gpu α γ) (g : γ → Gpu α δ) :
    (m >>= f) >>= g = m >>= fun x => f x >>= g := by
  funext dev t
  simp only [gpu_bind_run]
  rcases m dev t with ⟨r, t1⟩
  cases r <;> rfl

omit [Add α] [Mul α] in
theorem writeFloats_all (data : List α) :
    writeFloats (List.replicate (data.length * sizeofFloat / sizeofFloat) 0) 0
      (data.length * sizeofFloat) data = data := by
  unfold writeFloats sizeofFloat
  simp

omit [Zero α] [Add α] [Mul α] in
theorem map_getD_range (f : Nat → α) (n : Nat) (d : α) (g : Nat → α)
    (h : ∀ i, i < n → f i = g i) :
    (List.range n).map (fun i => ((List.range n).map f)[i]?.getD d) = (List.range n).map g := by
  apply List.map_congr_left
  intro i hi
  rw [List.mem_range] at hi
  rw [List.getElem?_map, List.getElem?_range hi, Option.map_some', Option.getD_some, h i hi]

omit [Add α] [Mul α] in
theorem transposeKernel_read (A : List α) (rows cols : Nat) :
    (List.range (rows * cols)).map (fun i =>
      (matrixTransposeKernel A (List.replicate (rows * cols * sizeofFloat / sizeofFloat) 0)
        rows cols cols rows)[i]?.getD 0) = transposeOf A rows cols := by
  unfold matrixTransposeKernel transposeOf
  have hlen : (List.replicate (rows * cols * sizeofFloat / sizeofFloat) (0 : α)).length
      = rows * cols := by
    unfold sizeofFloat
    simp
  rw [hlen]
  apply map_getD_range
  intro i hi
  have hdiv : i / rows < cols := Nat.div_lt_of_lt_mul hi
  have hrows : 0 < rows := by
    rcases Nat.eq_zero_or_pos rows with h | h
    · rw [h, Nat.zero_mul] at hi; omega
    · exact h
  rw [if_pos ⟨hdiv, hdiv, Nat.mod_lt _ hrows⟩]

theorem multiplyKernel_read (A B : List α) (rowsA colsA colsB : Nat) :
    (List.range (rowsA * colsB)).map (fun i =>
      (matrixMultiplyKernel A B
        (List.replicate (rowsA * colsB * sizeofFloat / sizeofFloat) 0)
        rowsA colsA colsB colsB rowsA)[i]?.getD 0) = productOf A B rowsA colsA colsB := by
  unfold matrixMultiplyKernel productOf
  have hlen : (List.replicate (rowsA * colsB * sizeofFloat / sizeofFloat) (0 : α)).length
      = rowsA * colsB := by
    unfold sizeofFloat
    simp
  rw [hlen]
  apply map_getD_range
  intro i hi
  have hdiv : i / colsB < rowsA := Nat.div_lt_of_lt_mul (by rwa [Nat.mul_comm])
  have hcols : 0 < colsB := by
    rcases Nat.eq_zero_or_pos colsB with h | h
    · rw [h, Nat.mul_zero] at hi; omega
    · exact h
  rw [if_pos ⟨hdiv, hdiv, Nat.mod_lt _ hcols⟩]

/-- On the device that executes the kernels `transposeGPU` returns the
transpose, whatever calls were made before. -/
theorem ideal_transposeGPU (A : List α) (rows cols : Nat) (hf : rows * cols < 2 ^ 31)
    (t0 : List (Entry α)) :
    ∃ t1, transposeGPU A (rows : Int) (cols : Int) idealDevice t0 =
      (.ok (transposeOf A rows cols), t1) := by
  unfold transposeGPU
  rw [← Nat.cast_mul, wrapInt_natCast _ hf, gpu_newVector_bind]
  simp only [ideal_scoped, gpu_bind_ok (ideal_writeData _ _ _),
    gpu_bind_ok (ideal_checkedCall _ _ _), ideal_readData, OpenCLBuffer.getBuffer]
  refine ⟨_, Prod.ext ?_ rfl⟩
  simp only [Except.ok.injEq, simulate_append, List.length_append, List.length_singleton,
    toSizeT_natCast, DeviceState.step, ← simulate_next t0]
  generalize simulate t0 = σ
  simp [runKernel, Function.update, writeFloats_all]
  exact transposeKernel_read A rows cols

/-- On the device that executes the kernels `multiplyGPU` returns the
product, whatever calls were made before. -/
theorem ideal_multiplyGPU (A B : List α) (rowsA colsA colsB : Nat)
    (hf : rowsA * colsB < 2 ^ 31) (t0 : List (Entry α)) :
    ∃ t1, multiplyGPU A B (rowsA : Int) (colsA : Int) (colsB : Int) idealDevice t0 =
      (.ok (productOf A B rowsA colsA colsB), t1) := by
  unfold multiplyGPU setMatrixMultArgs
  rw [← Nat.cast_mul, wrapInt_natCast _ hf, gpu_newVector_bind]
  simp only [gpu_bind_assoc, ideal_scoped, gpu_bind_ok (ideal_writeData _ _ _),
    gpu_bind_ok (ideal_checkedCall _ _ _), ideal_readData, OpenCLBuffer.getBuffer]
  refine ⟨_, Prod.ext ?_ rfl⟩
  simp only [Except.ok.injEq, simulate_append, List.length_append, List.length_singleton,
    toSizeT_natCast, DeviceState.step, ← simulate_next t0]
  generalize simulate t0 = σ
  have h1 : σ.next ≠ σ.next + 1 + 1 := by omega
  have h2 : σ.next + 1 + 1 ≠ σ.next := by omega
  simp [runKernel, Function.update, writeFloats_all, h1, h2]
  exact multiplyKernel_read A B rowsA colsA colsB

omit [Add α] [Mul α] in
theorem transposeOf_length (A : List α) (rows cols : Nat) :
    (transposeOf A rows cols).length = rows * cols := by
  unfold transposeOf
  rw [List.length_map, List.length_range]

omit [Add α] [Mul α] in
/-- Transposing twice gives the matrix back. -/
theorem transposeOf_transposeOf (A : List α) (rows cols : Nat) (hA : A.length = rows * cols) :
    transposeOf (transposeOf A rows cols) cols rows = A := by
  apply List.ext_getElem?
  intro i
  by_cases hi : i < cols * rows
  · have hiA : i < A.length := by rw [hA, Nat.mul_comm]; exact hi
    have hcols : 0 < cols := by
      rcases Nat.eq_zero_or_pos cols with h | h
      · rw [h, Nat.zero_mul] at hi; omega
      · exact h
    have hdiv : i / cols < rows := Nat.div_lt_of_lt_mul hi
    have hmod : i % cols < cols := Nat.mod_lt _ hcols
    have hj : i % cols * rows + i / cols < rows * cols := by
      rw [Nat.mul_comm rows cols]
      exact index_lt_of_lt hmod hdiv
    have hback : (i % cols * rows + i / cols) % rows * cols + (i % cols * rows + i / cols) / rows
        = i := by
      rw [(cell_div_mod hdiv).1, (cell_div_mod hdiv).2, Nat.mul_comm]
      exact Nat.div_add_mod i cols
    unfold transposeOf
    rw [List.getElem?_map, List.getElem?_range hi, Option.map_some',
      List.getD_eq_getElem?_getD, List.getElem?_map, List.getElem?_range hj, Option.map_some',
      Option.getD_some, hback, List.getD_eq_getElem?_getD, List.getElem?_eq_getElem hiA,
      Option.getD_some]
  · have h1 : (transposeOf (transposeOf A rows cols) cols rows).length ≤ i := by
      rw [transposeOf_length]; omega
    have h2 : A.length ≤ i := by rw [hA, Nat.mul_comm]; omega
    rw [List.getElem?_eq_none h1, List.getElem?_eq_none h2]

end IdealDeviceProofs

theorem compareLoop_self {α : Type} [LinearOrderedField α] (A : List α) :
    compareLoop A A (1e-4 : α) = true := by
  rw [compareLoop_eq_true_iff]
  refine ⟨rfl, fun i hA _ => ?_⟩
  rw [sub_self, abs_zero]
  norm_num

/-- C15 as stated fails: for `r = 65536`, `c = 32768` and the `r x c` matrix
of zeros the `int` product `rows * cols = 2^31` wraps to a negative number,
the constructor of the result vector throws `std::length_error`, and
`transposeGPU(A, r, c)` returns nothing that could be transposed back. -/
theorem transposeGPU_int_overflow :
    1 ≤ 65536 ∧ 1 ≤ 32768 ∧
    (List.replicate (65536 * 32768) (0 : ℚ)).length = 65536 * 32768 ∧
    transposeGPU (List.replicate (65536 * 32768) (0 : ℚ)) ((65536 : Nat) : Int)
      ((32768 : Nat) : Int) idealDevice [] = (.error .length_error, []) :=
  ⟨by decide, by decide, List.length_replicate _ _, rfl⟩

/-- C15 amended: on a device that executes the `matrix_transpose` kernel as
the specification describes it, for an `r x c` row-major matrix `A` with
`r * c` within the range of `int` (below `2^31`) the call
`transposeGPU(transposeGPU(A, r, c), c, r)` returns `A` itself, so
`compareMatrices` of `A` and the result with tolerance `1e-4` is true. -/
theorem transposeGPU_involution {α : Type} [LinearOrderedField α] (A : List α) (r c : Nat)
    (hA : A.length = r * c) (hf : r * c < 2 ^ 31) :
    ∃ E F t1 t2,
      transposeGPU A (r : Int) (c : Int) idealDevice [] = (.ok E, t1) ∧
      transposeGPU E (c : Int) (r : Int) idealDevice t1 = (.ok F, t2) ∧
      F = A ∧ compareMatrices A F (1e-4 : α) = true := by
  obtain ⟨t1, h1⟩ := ideal_transposeGPU A r c hf []
  obtain ⟨t2, h2⟩ :=
    ideal_transposeGPU (transposeOf A r c) c r (Nat.mul_comm r c ▸ hf) t1
  refine ⟨_, _, t1, t2, h1, h2, transposeOf_transposeOf A r c hA, ?_⟩
  rw [transposeOf_transposeOf A r c hA]
  exact compareLoop_self A

theorem transposeGPU_involution_witness :
    ([1, 2, 3, 4, 5, 6] : List ℚ).length = 2 * 3 ∧ 2 * 3 < 2 ^ 31 ∧
    ∃ E F t1 t2,
      transposeGPU ([1, 2, 3, 4, 5, 6] : List ℚ) ((2 : Nat) : Int) ((3 : Nat) : Int)
        idealDevice [] = (.ok E, t1) ∧
      transposeGPU E ((3 : Nat) : Int) ((2 : Nat) : Int) idealDevice t1 = (.ok F, t2) ∧
      F = [1, 2, 3, 4, 5, 6] ∧ compareMatrices ([1, 2, 3, 4, 5, 6] : List ℚ) F (1e-4 : ℚ) = true :=
  ⟨by decide, by decide,
    transposeGPU_involution ([1, 2, 3, 4, 5, 6] : List ℚ) 2 3 (by decide) (by decide)⟩

/-- C16 as stated fails: for `m = n = 46341`, `k = 1` and matrices of zeros
the `int` product `rowsC * colsC` exceeds `2^31 - 1` and wraps to a negative
number, so the constructor of `C` throws in `multiplyCPU` and in
`multiplyGPU` alike: there are no two results to compare. -/
theorem multiply_int_overflow :
    (List.replicate 46341 (0 : ℚ)).length = 46341 * 1 ∧
    (List.replicate 46341 (0 : ℚ)).length = 1 * 46341 ∧
    multiplyGPU (List.replicate 46341 (0 : ℚ)) (List.replicate 46341 (0 : ℚ))
      ((46341 : Nat) : Int) ((1 : Nat) : Int) ((46341 : Nat) : Int) idealDevice [] =
        (.error .length_error, []) ∧
    multiplyCPU (List.replicate 46341 (0 : ℚ)) (List.replicate 46341 (0 : ℚ))
      ((46341 : Nat) : Int) ((1 : Nat) : Int) ((46341 : Nat) : Int) = none := by
  refine ⟨List.length_replicate _ _, List.length_replicate _ _, rfl, ?_⟩
  unfold multiplyCPU
  exact if_pos (by decide)

/-- C16 amended: on a device that executes the `matrix_multiply` kernel as
the specification describes it, with exact arithmetic, for `A` of size
`m x k` and `B` of size `k x n` with `m * k`, `k * n` and `m * n` within the
range of `int` (below `2^31`) the results of `multiplyGPU` and `multiplyCPU`
are equal, so `compareMatrices` of the two with tolerance `1e-4` is true. -/
theorem multiplyGPU_agrees_with_multiplyCPU {α : Type} [LinearOrderedField α] (A B : List α)
    (m k n : Nat) (hA : A.length = m * k) (hB : B.length = k * n)
    (hfA : m * k < 2 ^ 31) (hfB : k * n < 2 ^ 31) (hfC : m * n < 2 ^ 31) :
    ∃ G C t,
      multiplyGPU A B (m : Int) (k : Int) (n : Int) idealDevice [] = (.ok G, t) ∧
      multiplyCPU A B (m : Int) (k : Int) (n : Int) = some C ∧
      G = C ∧ compareMatrices C G (1e-4 : α) = true := by
  obtain ⟨t, hG⟩ := ideal_multiplyGPU A B m k n hfC []
  obtain ⟨C, hC, hlen, hcells⟩ := multiplyCPU_flat A B m k n hA.ge hB.ge hfA hfB hfC
  have heq : productOf A B m k n = C := by
    apply List.ext_getElem?
    intro i
    unfold productOf
    by_cases hi : i < m * n
    · rw [hcells i hi, List.getElem?_map, List.getElem?_range hi, Option.map_some']
    · have h1 : ((List.range (m * n)).map fun idx =>
          dotSum A B k n (idx / n) (idx % n)).length ≤ i := by
        rw [List.length_map, List.length_range]; omega
      rw [List.getElem?_eq_none h1, List.getElem?_eq_none (by omega)]
  refine ⟨_, C, t, hG, hC, heq, ?_⟩
  rw [heq]
  exact compareLoop_self C

theorem multiplyGPU_agrees_with_multiplyCPU_witness :
    ([1, 2, 3, 4, 5, 6] : List ℚ).length = 2 * 3 ∧ ([1, 0, 0, 1, 1, 1] : List ℚ).length = 3 * 2 ∧
    2 * 3 < 2 ^ 31 ∧ 3 * 2 < 2 ^ 31 ∧ 2 * 2 < 2 ^ 31 ∧
    ∃ G C t,
      multiplyGPU ([1, 2, 3, 4, 5, 6] : List ℚ) [1, 0, 0, 1, 1, 1] ((2 : Nat) : Int)
        ((3 : Nat) : Int) ((2 : Nat) : Int) idealDevice [] = (.ok G, t) ∧
      multiplyCPU ([1, 2, 3, 4, 5, 6] : List ℚ) [1, 0, 0, 1, 1, 1] ((2 : Nat) : Int)
        ((3 : Nat) : Int) ((2 : Nat) : Int) = some C ∧
      G = C ∧ compareMatrices C G (1e-4 : ℚ) = true :=
  ⟨by decide, by decide, by decide, by decide, by decide,
    multiplyGPU_agrees_with_multiplyCPU ([1, 2, 3, 4, 5, 6] : List ℚ) [1, 0, 0, 1, 1, 1] 2 3 2
      (by decide) (by decide) (by decide) (by decide) (by decide)⟩

/-! ## The pairs recorded by the benchmark operations -/

section BenchmarkProofs

variable {τ : Type} {β γ : Type}

theorem bench_bind_run (m : Bench τ β) (f : β → Bench τ γ) (r : List (BenchmarkResult τ)) :
    (m >>= f) r =
      match m r with
      | (.ok x, r1) => f x r1
      | (.error e, r1) => (.error e, r1) := rfl

theorem pairedResults_nil [One τ] : PairedResults ([] : List (BenchmarkResult τ)) :=
  ⟨rfl, fun _ h => absurd h (List.not_mem_nil _), fun k c h => by simp at h⟩

theorem pairedResults_append [One τ] (results : List (BenchmarkResult τ))
    (h : PairedResults results) (operation : String) (size : Int) (cpuTime gpuTime speedup : τ) :
    PairedResults (results ++
      [⟨operation, "CPU", size, cpuTime, 1⟩, ⟨operation, "GPU", size, gpuTime, speedup⟩]) := by
  obtain ⟨hlen, himpl, hpair⟩ := h
  refine ⟨?_, ?_, ?_⟩
  · rw [List.length_append]
    simp only [List.length_cons, List.length_nil]
    omega
  · intro r hr
    rw [List.mem_append] at hr
    rcases hr with hr | hr
    · exact himpl r hr
    · simp only [List.mem_cons, List.mem_singleton, List.not_mem_nil, or_false] at hr
      rcases hr with rfl | rfl
      · exact Or.inl rfl
      · exact Or.inr rfl
  · intro k c hc
    by_cases hk : 2 * k < results.length
    · rw [List.getElem?_append_left hk] at hc
      obtain ⟨h1, h2, g, hg, h3, h4, h5⟩ := hpair k c hc
      refine ⟨h1, h2, g, ?_, h3, h4, h5⟩
      have hk1 : 2 * k + 1 < results.length := by omega
      rw [List.getElem?_append_left hk1]
      exact hg
    · have hle : results.length ≤ 2 * k := by omega
      rw [List.getElem?_append_right hle] at hc
      have hbound : 2 * k - results.length < 2 := by
        by_contra hcon
        rw [List.getElem?_eq_none (by simp only [List.length_cons, List.length_nil]; omega)] at hc
        exact Option.noConfusion hc
      have hzero : 2 * k - results.length = 0 := by omega
      rw [hzero, List.getElem?_cons_zero, Option.some.injEq] at hc
      subst hc
      refine ⟨rfl, rfl, ⟨operation, "GPU", size, gpuTime, speedup⟩, ?_, rfl, rfl, rfl⟩
      have hle1 : results.length ≤ 2 * k + 1 := by omega
      have hone : 2 * k + 1 - results.length = 1 := by omega
      rw [List.getElem?_append_right hle1, hone]
      rfl

theorem keepsPairs_bind [One τ] {m : Bench τ β} {f : β → Bench τ γ} (hm : KeepsPairs m)
    (hf : ∀ x, KeepsPairs (f x)) : KeepsPairs (m >>= f) := by
  intro r hr
  have h1 := hm r hr
  rw [bench_bind_run]
  rcases hmr : m r with ⟨res, r1⟩
  rw [hmr] at h1
  cases res with
  | error e => exact h1
  | ok x => exact hf x r1 h1

theorem keepsPairs_createRandomMatrix [One τ] (rows cols : Int) :
    KeepsPairs (Bench.createRandomMatrix rows cols : Bench τ Unit) := by
  intro r hr
  unfold Bench.createRandomMatrix
  split <;> exact hr

theorem keepsPairs_measureTime [One τ] (outcome : Except Exception τ) :
    KeepsPairs (Bench.measureTime outcome) :=
  fun _ hr => hr

theorem keepsPairs_addResults [One τ] (operation : String) (size : Int)
    (cpuTime gpuTime speedup : τ) :
    KeepsPairs (do
      Bench.addResult operation "CPU" size cpuTime 1
      Bench.addResult operation "GPU" size gpuTime speedup) := by
  intro r hr
  have h := pairedResults_append r hr operation size cpuTime gpuTime speedup
  simpa [bench_bind_run, Bench.addResult, addResult] using h

theorem keepsPairs_addResults_then [One τ] (operation : String) (size : Int)
    (cpuTime gpuTime speedup : τ) {rest : Bench τ β} (hrest : KeepsPairs rest) :
    KeepsPairs (do
      Bench.addResult operation "CPU" size cpuTime 1
      Bench.addResult operation "GPU" size gpuTime speedup
      rest) := by
  intro r hr
  have h := hrest _ (pairedResults_append r hr operation size cpuTime gpuTime speedup)
  simpa [bench_bind_run, Bench.addResult, addResult] using h

theorem keepsPairs_matrixMultiplication [One τ] [Div τ] (size : Int)
    (cpu gpu : Except Exception τ) :
    KeepsPairs (benchmarkMatrixMultiplicationDetailed size cpu gpu) := by
  unfold benchmarkMatrixMultiplicationDetailed
  refine keepsPairs_bind (keepsPairs_createRandomMatrix _ _) fun _ => ?_
  refine keepsPairs_bind (keepsPairs_createRandomMatrix _ _) fun _ => ?_
  refine keepsPairs_bind (keepsPairs_measureTime _) fun cpuTime => ?_
  refine keepsPairs_bind (keepsPairs_measureTime _) fun gpuTime => ?_
  exact keepsPairs_addResults _ _ _ _ _

theorem keepsPairs_activationFunctions [One τ] [Div τ] (vectorSize : Int)
    (reluCpu reluGpu sigmoidCpu sigmoidGpu tanhCpu tanhGpu : Except Exception τ) :
    KeepsPairs (benchmarkActivationFunctionsDetailed vectorSize reluCpu reluGpu sigmoidCpu
      sigmoidGpu tanhCpu tanhGpu) := by
  unfold benchmarkActivationFunctionsDetailed
  refine keepsPairs_bind (keepsPairs_createRandomMatrix _ _) fun _ => ?_
  refine keepsPairs_bind (keepsPairs_measureTime _) fun cpuTime => ?_
  refine keepsPairs_bind (keepsPairs_measureTime _) fun gpuTime => ?_
  refine keepsPairs_addResults_then _ _ _ _ _ ?_
  refine keepsPairs_bind (keepsPairs_measureTime _) fun cpuTime => ?_
  refine keepsPairs_bind (keepsPairs_measureTime _) fun gpuTime => ?_
  refine keepsPairs_addResults_then _ _ _ _ _ ?_
  refine keepsPairs_bind (keepsPairs_measureTime _) fun cpuTime => ?_
  refine keepsPairs_bind (keepsPairs_measureTime _) fun gpuTime => ?_
  exact keepsPairs_addResults _ _ _ _ _

theorem keepsPairs_neuralLayer [One τ] [Div τ] (inputSize hiddenSize outputSize : Int)
    (cpu gpu : Except Exception τ) :
    KeepsPairs (benchmarkNeuralLayer inputSize hiddenSize outputSize cpu gpu) := by
  unfold benchmarkNeuralLayer
  refine keepsPairs_bind (keepsPairs_createRandomMatrix _ _) fun _ => ?_
  refine keepsPairs_bind (keepsPairs_createRandomMatrix _ _) fun _ => ?_
  refine keepsPairs_bind (keepsPairs_createRandomMatrix _ _) fun _ => ?_
  refine keepsPairs_bind (keepsPairs_measureTime _) fun cpuTime => ?_
  refine keepsPairs_bind (keepsPairs_measureTime _) fun gpuTime => ?_
  exact keepsPairs_addResults _ _ _ _ _

theorem keepsPairs_run [One τ] [Div τ] (op : Operation τ) : KeepsPairs op.run := by
  cases op with
  | matrixMultiplication size cpu gpu => exact keepsPairs_matrixMultiplication size cpu gpu
  | activationFunctions vectorSize reluCpu reluGpu sigmoidCpu sigmoidGpu tanhCpu tanhGpu =>
    exact keepsPairs_activationFunctions vectorSize reluCpu reluGpu sigmoidCpu sigmoidGpu
      tanhCpu tanhGpu
  | neuralLayer inputSize hiddenSize outputSize cpu gpu =>
    exact keepsPairs_neuralLayer inputSize hiddenSize outputSize cpu gpu

theorem pairedResults_resultsAfter [One τ] [Div τ] (ops : List (Operation τ))
    (results_ : List (BenchmarkResult τ)) (h : PairedResults results_) :
    PairedResults (resultsAfter ops results_) := by
  unfold resultsAfter
  induction ops generalizing results_ with
  | nil => exact h
  | cons op ops ih => exact ih _ (keepsPairs_run op results_ h)

end BenchmarkProofs

/-- C21: after any sequence of calls of
`benchmarkMatrixMultiplicationDetailed`, `benchmarkActivationFunctionsDetailed`
and `benchmarkNeuralLayer` on a `Benchmark` that starts with no results,
whatever the measured times and whichever calls end with an exception, every
recorded result has the implementation "CPU" or "GPU", the number of results
is even, and the result at each even position is a "CPU" entry with speedup
`1` immediately followed by a "GPU" entry with the same operation and size. -/
theorem benchmark_results_paired {τ : Type} [One τ] [Div τ] (ops : List (Operation τ)) :
    (∀ r ∈ resultsAfter ops [], r.implementation = "CPU" ∨ r.implementation = "GPU") ∧
    (resultsAfter ops []).length % 2 = 0 ∧
    ∀ k c, (resultsAfter ops [])[2 * k]? = some c →
      c.implementation = "CPU" ∧ c.speedup = 1 ∧
      ∃ g, (resultsAfter ops [])[2 * k + 1]? = some g ∧ g.implementation = "GPU" ∧
        g.operation = c.operation ∧ g.size = c.size := by
  obtain ⟨hlen, himpl, hpair⟩ := pairedResults_resultsAfter ops [] pairedResults_nil
  exact ⟨himpl, hlen, hpair⟩

/-! ## Symmetry of the comparison helpers -/

theorem compareLoop_comm {α : Type u} [LinearOrderedAddCommGroup α] (A B : List α) (tol : α) :
    compareLoop A B tol = compareLoop B A tol := by
  rw [Bool.eq_iff_iff, compareLoop_eq_true_iff, compareLoop_eq_true_iff]
  constructor
  · rintro ⟨hl, h⟩
    exact ⟨hl.symm, fun i hB hA => by rw [abs_sub_comm]; exact h i hA hB⟩
  · rintro ⟨hl, h⟩
    exact ⟨hl.symm, fun i hA hB => by rw [abs_sub_comm]; exact h i hB hA⟩

/-- C25: `compareMatrices` and `compareVectors` are symmetric in their two
vector arguments, for every tolerance. -/
theorem compare_symmetric {α : Type u} [LinearOrderedAddCommGroup α] (A B : List α) (tol : α) :
    compareMatrices A B tol = compareMatrices B A tol ∧
    compareVectors A B tol = compareVectors B A tol :=
  ⟨compareLoop_comm A B tol, compareLoop_comm A B tol⟩

/-! ## Bounds of the accesses of `multiplyCPU` -/

theorem foldlM_eq_none_of_mem {σ : Type u} {ι : Type} (f : σ → ι → Option σ) (a : ι)
    (h : ∀ s, f s a = none) :
    ∀ (l : List ι), a ∈ l → ∀ init, l.foldlM f init = none
  | [], hmem, _ => absurd hmem (List.not_mem_nil _)
  | b :: l, hmem, init => by
    rw [List.foldlM_cons]
    cases hb : f init b with
    | none => rfl
    | some s =>
      rcases List.mem_cons.mp hmem with hab | hl
      · rw [← hab, h] at hb
        cases hb
      · exact foldlM_eq_none_of_mem f a h l hl s

/-- C22 as stated fails: for the dimensions `65536 x 0` and `0 x 65536` with
empty `A` and `B` the `int` product `rowsC * colsC = 2^32` wraps to `0`, so
`C` is created empty, and the first store `C[0 * colsC + 0] = sum` lies
outside `C`. -/
theorem multiplyCPU_write_out_of_bounds :
    65536 * 0 ≤ ([] : List Int).length ∧ 0 * 65536 ≤ ([] : List Int).length ∧
    List.replicate (wrapInt (((65536 : Nat) : Int) * ((65536 : Nat) : Int))).toNat (0 : Int)
      = [] ∧
    writeAt ([] : List Int)
      (wrapInt (wrapInt (((0 : Nat) : Int) * ((65536 : Nat) : Int)) + ((0 : Nat) : Int))) 0
      = none ∧
    multiplyCPU ([] : List Int) [] ((65536 : Nat) : Int) ((0 : Nat) : Int)
      ((65536 : Nat) : Int) = none := by
  have hsize : wrapInt (((65536 : Nat) : Int) * ((65536 : Nat) : Int)) = 0 := by decide
  have hrange : List.range (((65536 : Nat) : Int)).toNat = 0 :: (List.range 65535).map Nat.succ :=
    List.range_succ_eq_map 65535
  refine ⟨by decide, by decide, by rw [hsize]; rfl, by decide, ?_⟩
  unfold multiplyCPU
  rw [hsize, if_neg (by decide), hrange, List.foldlM_cons]
  have hrow : rowLoop ([] : List Int) [] ((0 : Nat) : Int) ((65536 : Nat) : Int) 0
      (List.replicate (0 : Int).toNat 0) = none := by
    unfold rowLoop
    rw [hrange, List.foldlM_cons]
    rfl
  rw [hrow]
  rfl

/-- C22 amended: for non-negative `rowsA`, `colsA`, `colsB` whose products
`rowsA * colsA`, `colsA * colsB` and `rowsA * colsB` are within the range of
`int` (below `2^31`), `A` of length at least `rowsA * colsA` and `B` of
length at least `colsA * colsB`, `multiplyCPU` returns a vector (the
out-of-bounds branch is not taken), and for every `i < rowsA`, `j < colsB`
the write `C[i*colsB+j]` into a vector of `rowsA * colsB` elements and, for
every `k < colsA`, the reads `A[i*colsA+k]` and `B[k*colsB+j]` are inside
their vectors. -/
theorem multiplyCPU_in_bounds {α : Type u} [Zero α] [Add α] [Mul α] (A B : List α)
    (rowsA colsA colsB : Nat)
    (hA : rowsA * colsA ≤ A.length) (hB : colsA * colsB ≤ B.length)
    (hfA : rowsA * colsA < 2 ^ 31) (hfB : colsA * colsB < 2 ^ 31)
    (hfC : rowsA * colsB < 2 ^ 31) :
    (∃ C, multiplyCPU A B (rowsA : Int) (colsA : Int) (colsB : Int) = some C ∧
      C.length = rowsA * colsB) ∧
    ∀ i j, i < rowsA → j < colsB →
      (∀ (C : List α) (v : α), C.length = rowsA * colsB →
        ∃ D, writeAt C (wrapInt (wrapInt ((i : Int) * (colsB : Int)) + (j : Int))) v = some D) ∧
      ∀ k, k < colsA →
        (∃ a, readAt A (wrapInt (wrapInt ((i : Int) * (colsA : Int)) + (k : Int))) = some a) ∧
        (∃ b, readAt B (wrapInt (wrapInt ((k : Int) * (colsB : Int)) + (j : Int))) = some b) := by
  obtain ⟨C, hC, hlen, -⟩ := multiplyCPU_flat A B rowsA colsA colsB hA hB hfA hfB hfC
  refine ⟨⟨C, hC, hlen⟩, fun i j hi hj => ⟨fun D v hD => ?_, fun k hk => ⟨?_, ?_⟩⟩⟩
  · have h : i * colsB + j < D.length := hD ▸ index_lt_of_lt hi hj
    rw [wrapInt_index i colsB j (lt_trans (index_lt_of_lt hi hj) hfC)]
    exact ⟨_, writeAt_natCast _ _ _ h⟩
  · have h : i * colsA + k < A.length := lt_of_lt_of_le (index_lt_of_lt hi hk) hA
    rw [wrapInt_index i colsA k (lt_trans (index_lt_of_lt hi hk) hfA), readAt_natCast]
    exact ⟨A[i * colsA + k], List.getElem?_eq_getElem h⟩
  · have h : k * colsB + j < B.length := lt_of_lt_of_le (index_lt_of_lt hk hj) hB
    rw [wrapInt_index k colsB j (lt_trans (index_lt_of_lt hk hj) hfB), readAt_natCast]
    exact ⟨B[k * colsB + j], List.getElem?_eq_getElem h⟩

theorem multiplyCPU_in_bounds_witness :
    2 * 2 ≤ ([1, 2, 3, 4, 9] : List Int).length ∧ 2 * 2 ≤ ([5, 6, 7, 8, 9, 9] : List Int).length ∧
    2 * 2 < 2 ^ 31 ∧
    ∃ C, multiplyCPU ([1, 2, 3, 4, 9] : List Int) [5, 6, 7, 8, 9, 9] ((2 : Nat) : Int)
        ((2 : Nat) : Int) ((2 : Nat) : Int) = some C ∧ C.length = 2 * 2 :=
  ⟨by decide, by decide, by decide,
    (multiplyCPU_in_bounds [1, 2, 3, 4, 9] [5, 6, 7, 8, 9, 9] 2 2 2 (by decide) (by decide)
      (by decide) (by decide) (by decide)).1⟩

/-! ## Products with the identity matrix -/

theorem foldl_add_single {α : Type u} [AddMonoid α] (a : α) (j n : Nat) :
    (List.range n).foldl (fun sum k => sum + (if k = j then a else 0)) 0 =
      if j < n then a else 0 := by
  induction n with
  | zero => simp
  | succ n ih =>
    rw [List.range_succ, List.foldl_append, ih, List.foldl_cons, List.foldl_nil]
    by_cases h1 : j < n
    · have h2 : n ≠ j := by omega
      have h3 : j < n + 1 := by omega
      rw [if_pos h1, if_neg h2, if_pos h3, add_zero]
    · by_cases h2 : n = j
      · have h3 : j < n + 1 := by omega
        rw [if_neg h1, if_pos h2, if_pos h3, zero_add]
      · have h3 : ¬ j < n + 1 := by omega
        rw [if_neg h1, if_neg h2, if_neg h3, add_zero]

theorem eq_of_cells {α : Type u} [Zero α] (f : Nat → Nat → α) (A C : List α) (m n : Nat)
    (hA : A.length = m * n) (hC : C.length = m * n)
    (hcells : ∀ idx, idx < m * n → C[idx]? = some (f (idx / n) (idx % n)))
    (hf : ∀ i j, i < m → j < n → f i j = A.getD (i * n + j) 0) : C = A := by
  apply List.ext_getElem?
  intro idx
  by_cases h : idx < m * n
  · have hn : 0 < n := by
      rcases Nat.eq_zero_or_pos n with h0 | h0
      · subst h0; simp at h
      · exact h0
    have hi : idx / n < m := Nat.div_lt_of_lt_mul (by rwa [Nat.mul_comm] at h)
    have hj : idx % n < n := Nat.mod_lt _ hn
    rw [hcells idx h, hf _ _ hi hj, List.getD_eq_getElem?_getD]
    have hidx : idx / n * n + idx % n = idx := by
      rw [Nat.mul_comm]; exact Nat.div_add_mod idx n
    rw [hidx, List.getElem?_eq_getElem (hA ▸ h)]
    rfl
  · rw [List.getElem?_eq_none (by omega), List.getElem?_eq_none (by omega)]

theorem identityMatrix_length {α : Type u} [Zero α] [One α] (n : Nat) :
    (identityMatrix n : List α).length = n * n := by
  unfold identityMatrix
  rw [List.length_map, List.length_range]

theorem identityMatrix_cell {α : Type u} [Zero α] [One α] (n k j : Nat) (hk : k < n)
    (hj : j < n) :
    (identityMatrix n : List α)[k * n + j]? = some (if k = j then 1 else 0) := by
  unfold identityMatrix
  rw [List.getElem?_map, List.getElem?_range (index_lt_of_lt hk hj), Option.map_some',
    (cell_div_mod hj).1, (cell_div_mod hj).2]

/-- C24 as stated fails: for `m = 1`, `n = 46341`, the row of zeros `A` and
the `n x n` identity matrix `I`, the `int` index `k * colsB + j` of `B`
reaches `46340 * 46341 + 41708 = 2^31`, which wraps to a negative number, so
the read lies outside `I` and `multiplyCPU(A, I, m, n, n)` does not return
`A`. -/
theorem multiplyCPU_identity_int_overflow :
    (List.replicate 46341 (0 : Int)).length = 1 * 46341 ∧
    (identityMatrix 46341 : List Int).length = 46341 * 46341 ∧
    (∀ k j, k < 46341 → j < 46341 →
      (identityMatrix 46341 : List Int)[k * 46341 + j]? = some (if k = j then 1 else 0)) ∧
    multiplyCPU (List.replicate 46341 (0 : Int)) (identityMatrix 46341)
      ((1 : Nat) : Int) ((46341 : Nat) : Int) ((46341 : Nat) : Int) = none := by
  refine ⟨List.length_replicate _ _, identityMatrix_length _,
    fun k j hk hj => identityMatrix_cell _ k j hk hj, ?_⟩
  have hidx : wrapInt (wrapInt (((46340 : Nat) : Int) * ((46341 : Nat) : Int))
      + ((41708 : Nat) : Int)) < 0 := by decide
  have hdot : dotLoop (List.replicate 46341 (0 : Int)) (identityMatrix 46341)
      ((46341 : Nat) : Int) ((46341 : Nat) : Int) 0 41708 = none := by
    unfold dotLoop
    refine foldlM_eq_none_of_mem _ 46340 (fun sum => ?_) _
      (by rw [Int.toNat_natCast, List.mem_range]; decide) 0
    have hB : readAt (identityMatrix 46341 : List Int)
        (wrapInt (wrapInt (((46340 : Nat) : Int) * ((46341 : Nat) : Int))
          + ((41708 : Nat) : Int))) = none := if_pos hidx
    simp only [hB]
    generalize readAt (List.replicate 46341 (0 : Int)) _ = r
    cases r <;> rfl
  unfold multiplyCPU
  rw [if_neg (by decide)]
  have hrange : List.range (((1 : Nat) : Int)).toNat = [0] := rfl
  rw [hrange, List.foldlM_cons]
  have hrow : ∀ C, rowLoop (List.replicate 46341 (0 : Int)) (identityMatrix 46341)
      ((46341 : Nat) : Int) ((46341 : Nat) : Int) 0 C = none := by
    intro C
    unfold rowLoop
    refine foldlM_eq_none_of_mem _ 41708 (fun D => ?_) _
      (by rw [Int.toNat_natCast, List.mem_range]; decide) C
    rw [hdot]
    rfl
  rw [hrow]
  rfl

/-- C24 amended: for an `m x n` row-major matrix `A` with `m * n`, `n * n`
and `m * m` within the range of `int` (below `2^31`), the `n x n` identity
matrix `I` (`I[k*n+j]` is `1` if `k = j`, else `0`) and the `m x m` identity
matrix `J`, with exact arithmetic, `multiplyCPU(A, I, m, n, n)` and
`multiplyCPU(J, A, m, m, n)` both return `A`. -/
theorem multiplyCPU_identity {α : Type u} [Semiring α] (A I J : List α) (m n : Nat)
    (hA : A.length = m * n)
    (hI : I.length = n * n)
    (hIcells : ∀ k j, k < n → j < n → I[k * n + j]? = some (if k = j then 1 else 0))
    (hJ : J.length = m * m)
    (hJcells : ∀ i k, i < m → k < m → J[i * m + k]? = some (if i = k then 1 else 0))
    (hfA : m * n < 2 ^ 31) (hfI : n * n < 2 ^ 31) (hfJ : m * m < 2 ^ 31) :
    multiplyCPU A I (m : Int) (n : Int) (n : Int) = some A ∧
    multiplyCPU J A (m : Int) (m : Int) (n : Int) = some A := by
  constructor
  · obtain ⟨C, hC, hlen, hcells⟩ := multiplyCPU_flat A I m n n hA.ge hI.ge hfA hfI hfA
    rw [hC, eq_of_cells (fun i j => dotSum A I n n i j) A C m n hA hlen hcells]
    intro i j _ hj
    unfold dotSum
    rw [foldl_add_congr _ (fun k => if k = j then A.getD (i * n + j) 0 else 0)]
    · rw [foldl_add_single, if_pos hj]
    · intro k hk
      rw [List.mem_range] at hk
      rw [List.getD_eq_getElem?_getD I, hIcells k j hk hj, Option.getD_some]
      by_cases hkj : k = j
      · rw [if_pos hkj, if_pos hkj, mul_one, hkj]
      · rw [if_neg hkj, if_neg hkj, mul_zero]
  · obtain ⟨C, hC, hlen, hcells⟩ := multiplyCPU_flat J A m m n hJ.ge hA.ge hfJ hfA hfA
    rw [hC, eq_of_cells (fun i j => dotSum J A m n i j) A C m n hA hlen hcells]
    intro i j hi _
    unfold dotSum
    rw [foldl_add_congr _ (fun k => if k = i then A.getD (i * n + j) 0 else 0)]
    · rw [foldl_add_single, if_pos hi]
    · intro k hk
      rw [List.mem_range] at hk
      rw [List.getD_eq_getElem?_getD J, hJcells i k hi hk, Option.getD_some]
      by_cases hik : i = k
      · rw [if_pos hik, if_pos hik.symm, one_mul, hik]
      · rw [if_neg hik, if_neg (Ne.symm hik), zero_mul]

theorem multiplyCPU_identity_witness :
    ([1, 2, 3, 4, 5, 6] : List Int).length = 2 * 3 ∧
    ([1, 0, 0, 0, 1, 0, 0, 0, 1] : List Int).length = 3 * 3 ∧
    (∀ k j, k < 3 → j < 3 →
      ([1, 0, 0, 0, 1, 0, 0, 0, 1] : List Int)[k * 3 + j]? = some (if k = j then 1 else 0)) ∧
    ([1, 0, 0, 1] : List Int).length = 2 * 2 ∧
    (∀ i k, i < 2 → k < 2 →
      ([1, 0, 0, 1] : List Int)[i * 2 + k]? = some (if i = k then 1 else 0)) ∧
    2 * 3 < 2 ^ 31 ∧ 3 * 3 < 2 ^ 31 ∧ 2 * 2 < 2 ^ 31 ∧
    multiplyCPU ([1, 2, 3, 4, 5, 6] : List Int) [1, 0, 0, 0, 1, 0, 0, 0, 1] ((2 : Nat) : Int)
      ((3 : Nat) : Int) ((3 : Nat) : Int) = some [1, 2, 3, 4, 5, 6] ∧
    multiplyCPU ([1, 0, 0, 1] : List Int) [1, 2, 3, 4, 5, 6] ((2 : Nat) : Int)
      ((2 : Nat) : Int) ((3 : Nat) : Int) = some [1, 2, 3, 4, 5, 6] :=
  have hI : ∀ k j, k < 3 → j < 3 →
      ([1, 0, 0, 0, 1, 0, 0, 0, 1] : List Int)[k * 3 + j]? = some (if k = j then 1 else 0) := by
    intro k j hk hj
    interval_cases k <;> interval_cases j <;> rfl
  have hJ : ∀ i k, i < 2 → k < 2 →
      ([1, 0, 0, 1] : List Int)[i * 2 + k]? = some (if i = k then 1 else 0) := by
    intro i k hi hk
    interval_cases i <;> interval_cases k <;> rfl
  ⟨by decide, by decide, hI, by decide, hJ, by decide, by decide, by decide,
    multiplyCPU_identity [1, 2, 3, 4, 5, 6] [1, 0, 0, 0, 1, 0, 0, 0, 1] [1, 0, 0, 1] 2 3
      (by decide) (by decide) hI (by decide) hJ (by decide) (by decide) (by decide)⟩

/-! ## The work sizes of the activation dispatches -/

section WorkSizeProofs

variable {α : Type}

theorem enqueuedRanges_append (s t : List (Entry α)) :
    enqueuedRanges (s ++ t) = enqueuedRanges s ++ enqueuedRanges t := by
  unfold enqueuedRanges
  exact List.filterMap_append _ _ _

theorem enqueuedRanges_releases (rel : List (Entry α))
    (h : ∀ e ∈ rel, e.check = none ∧ e.call.isRelease = true) : enqueuedRanges rel = [] := by
  unfold enqueuedRanges
  rw [List.filterMap_eq_nil_iff]
  intro e he
  have h2 := (h e he).2
  rcases e with ⟨c, k⟩
  cases c <;> simp_all [ApiCall.isRelease]

theorem enqueuedRanges_activationCalls_take (kernel enqueueName : String) (input : List α)
    (j : Nat) :
    enqueuedRanges ((activationCalls kernel enqueueName input).take j) =
      if 7 ≤ j then [([input.length], some [256])] else [] := by
  unfold activationCalls enqueuedRanges
  rcases j with _ | _ | _ | _ | _ | _ | _ | _ | j <;> simp

theorem enqueuedRanges_activationGPU (kernel enqueueName : String) (input : List α)
    (dev : Device α) :
    (∀ r ∈ enqueuedRanges (activationGPU kernel enqueueName input dev []).2,
      r = ([input.length], some [256])) ∧
    ((∃ v, (activationGPU kernel enqueueName input dev []).1 = .ok v) →
      enqueuedRanges (activationGPU kernel enqueueName input dev []).2 =
        [([input.length], some [256])]) := by
  obtain ⟨j, rel, htrace, hrel, hok⟩ := plays_activationGPU kernel enqueueName input dev
  have hranges : enqueuedRanges (activationGPU kernel enqueueName input dev []).2 =
      if 7 ≤ j then [([input.length], some [256])] else [] := by
    rw [htrace, List.nil_append, enqueuedRanges_append, enqueuedRanges_releases rel hrel,
      List.append_nil, enqueuedRanges_activationCalls_take]
  constructor
  · intro r hr
    rw [hranges] at hr
    by_cases hj : 7 ≤ j
    · rw [if_pos hj, List.mem_singleton] at hr
      exact hr
    · rw [if_neg hj] at hr
      exact absurd hr (List.not_mem_nil _)
  · intro hv
    have hj : 7 ≤ j := le_trans (by simp [activationCalls]) (hok hv)
    rw [hranges, if_pos hj]

theorem activationOps_cases (op : List α → Gpu α (List α)) (hop : op ∈ activationOps) :
    ∃ kernel enqueueName, op = activationGPU kernel enqueueName := by
  unfold activationOps at hop
  simp only [List.mem_cons, List.mem_singleton, List.not_mem_nil, or_false] at hop
  rcases hop with h | h | h | h | h | h <;> subst h
  · exact ⟨_, _, funext fun _ => rfl⟩
  · exact ⟨_, _, funext fun _ => rfl⟩
  · exact ⟨_, _, funext fun _ => rfl⟩
  · exact ⟨_, _, funext fun _ => rfl⟩
  · exact ⟨_, _, funext fun _ => rfl⟩
  · exact ⟨_, _, funext fun _ => rfl⟩

end WorkSizeProofs

/-- C23: on any device, every kernel enqueued by an activation GPU operation
on an input of length `n` has the global work size `n` itself and the local
size `256`, and a run that returns enqueued exactly one such range; so the
local size divides the global size if and only if `n` is a multiple of
`256`.  For the input `[-2, -1, 0, 1, 2]` on a device where every call
succeeds the range is global `5` with local `256`, and `256` does not divide
`5`. -/
theorem activation_global_work_size {α : Type} (op : List α → Gpu α (List α))
    (hop : op ∈ activationOps) (input : List α) (dev : Device α) :
    (∀ r ∈ enqueuedRanges (op input dev []).2, r = ([input.length], some [256])) ∧
    ((∃ v, (op input dev []).1 = .ok v) →
      enqueuedRanges (op input dev []).2 = [([input.length], some [256])]) ∧
    (∀ g l, (g, some l) ∈ enqueuedRanges (op input dev []).2 →
      (LocalDividesGlobal g l ↔ input.length % 256 = 0)) ∧
    (∀ scenario ∈ (activationOps : List (List Int → Gpu Int (List Int))),
      enqueuedRanges (scenario [-2, -1, 0, 1, 2] alwaysSucceeds []).2 = [([5], some [256])] ∧
      ¬ LocalDividesGlobal [5] [256]) := by
  obtain ⟨kernel, enqueueName, rfl⟩ := activationOps_cases op hop
  have h := enqueuedRanges_activationGPU kernel enqueueName input dev
  refine ⟨h.1, h.2, fun g l hgl => ?_, fun scenario hs => ⟨?_, ?_⟩⟩
  · have heq := h.1 _ hgl
    simp only [Prod.mk.injEq, Option.some.injEq] at heq
    rw [heq.1, heq.2]
    unfold LocalDividesGlobal
    simp [Nat.dvd_iff_mod_eq_zero]
  · obtain ⟨k, e, rfl⟩ := activationOps_cases scenario hs
    exact (enqueuedRanges_activationGPU k e ([-2, -1, 0, 1, 2] : List Int) alwaysSucceeds).2
      ⟨_, rfl⟩
  · intro hdiv
    cases hdiv with
    | cons h5 _ => exact absurd h5 (by decide)

theorem activation_global_work_size_witness :
    (reluGPU : List Int → Gpu Int (List Int)) ∈ activationOps ∧
    enqueuedRanges (reluGPU ([-2, -1, 0, 1, 2] : List Int) alwaysSucceeds []).2 =
      [([5], some [256])] :=
  ⟨List.mem_cons_self _ _,
    (activation_global_work_size reluGPU (List.mem_cons_self _ _) ([-2, -1, 0, 1, 2] : List Int)
      alwaysSucceeds).2.1 ⟨_, rfl⟩⟩

end DLOpenCL
